import Mathlib

/-!
Verification of the multiplayer blackjack table engine
(backend/app/realtime/socket_server.py and backend/app/services/blackjack_service.py).

Python float money amounts are modelled as exact rationals (ℚ); the source
rounds every stored amount to two decimals with round(x, 2), modelled by
round2 below (round half to even at two decimal places, Python's rounding
mode for decimal ties).  Wall-clock datetimes are modelled as rationals
(seconds); every function that reads the clock takes the current instant
as an explicit argument.
-/

set_option maxRecDepth 40000

/-- Round half to even of a rational to an integer: the model of rounding a
Python float to an integer amount of hundredths inside round(x, 2). -/
def rhe (q : ℚ) : ℤ :=
  if q - ⌊q⌋ < 1 / 2 then ⌊q⌋
  else if 1 / 2 < q - ⌊q⌋ then ⌊q⌋ + 1
  else if 2 ∣ ⌊q⌋ then ⌊q⌋ else ⌊q⌋ + 1

/-- Model of Python round(x, 2): round to the nearest multiple of 1/100,
ties to even. -/
def round2 (q : ℚ) : ℚ := (rhe (q * 100) : ℚ) / 100

/-- An amount representable with two decimal places (a whole number of
cents).  Every money amount the program stores satisfies this. -/
def TwoDec (q : ℚ) : Prop := ∃ n : ℤ, q = (n : ℚ) / 100

theorem twoDec_zero : TwoDec 0 := ⟨0, by norm_num⟩

theorem twoDec_add {a b : ℚ} (ha : TwoDec a) (hb : TwoDec b) : TwoDec (a + b) := by
  obtain ⟨m, rfl⟩ := ha
  obtain ⟨n, rfl⟩ := hb
  exact ⟨m + n, by push_cast; ring⟩

theorem twoDec_neg {a : ℚ} (ha : TwoDec a) : TwoDec (-a) := by
  obtain ⟨m, rfl⟩ := ha
  exact ⟨-m, by push_cast; ring⟩

theorem twoDec_max {a b : ℚ} (ha : TwoDec a) (hb : TwoDec b) : TwoDec (max a b) := by
  rcases max_choice a b with h | h <;> rw [h] <;> assumption

theorem twoDec_min {a b : ℚ} (ha : TwoDec a) (hb : TwoDec b) : TwoDec (min a b) := by
  rcases min_choice a b with h | h <;> rw [h] <;> assumption

theorem twoDec_sum {l : List ℚ} (h : ∀ x ∈ l, TwoDec x) : TwoDec l.sum := by
  induction l with
  | nil => simpa using twoDec_zero
  | cons x xs ih =>
    rw [List.sum_cons]
    exact twoDec_add (h x (List.mem_cons_self x xs)) (ih fun y hy => h y (List.mem_cons_of_mem x hy))

theorem rhe_intCast (n : ℤ) : rhe (n : ℚ) = n := by
  unfold rhe
  have hf : ⌊(n : ℚ)⌋ = n := Int.floor_intCast n
  rw [hf]
  have h0 : (n : ℚ) - (n : ℚ) = 0 := by ring
  rw [h0]
  norm_num

/-- round2 is the identity on two-decimal amounts. -/
theorem round2_twoDec {q : ℚ} (h : TwoDec q) : round2 q = q := by
  obtain ⟨n, rfl⟩ := h
  have h100 : ((n : ℚ) / 100) * 100 = (n : ℚ) := by field_simp
  rw [round2, h100, rhe_intCast]

/-- round2 always produces a two-decimal amount. -/
theorem twoDec_round2 (q : ℚ) : TwoDec (round2 q) := ⟨rhe (q * 100), rfl⟩

/-- Adding the epsilon 1e-9 used in the bankroll comparisons of the source
does not change the rounded value of a two-decimal amount. -/
theorem round2_eps {b : ℚ} (h : TwoDec b) : round2 (b + 1 / 1000000000) = b := by
  obtain ⟨n, rfl⟩ := h
  have h100 : ((n : ℚ) / 100 + 1 / 1000000000) * 100 = (n : ℚ) + 1 / 10000000 := by
    field_simp
    ring
  have hfloor : ⌊(n : ℚ) + 1 / 10000000⌋ = n := by
    have hlow : (n : ℚ) ≤ (n : ℚ) + 1 / 10000000 := by
      have : (0 : ℚ) < 1 / 10000000 := by norm_num
      linarith
    have hhigh : (n : ℚ) + 1 / 10000000 < (n : ℚ) + 1 := by
      have : (1 : ℚ) / 10000000 < 1 := by norm_num
      linarith
    rw [Int.floor_eq_iff]
    exact ⟨hlow, by linarith⟩
  rw [round2, h100]
  have hrhe : rhe ((n : ℚ) + 1 / 10000000) = n := by
    unfold rhe
    rw [hfloor]
    have hr : (n : ℚ) + 1 / 10000000 - (n : ℚ) = 1 / 10000000 := by ring
    rw [hr]
    norm_num
  rw [hrhe]

theorem rhe_nonneg {q : ℚ} (h : 0 ≤ q) : 0 ≤ rhe q := by
  unfold rhe
  have hf : (0 : ℤ) ≤ ⌊q⌋ := Int.floor_nonneg.mpr h
  split
  · exact hf
  · split
    · omega
    · split
      · exact hf
      · omega

/-- Model of Python int(s) on a string of decimal digits, as a total parser:
some value when the string is a nonempty run of digits, none otherwise
(Python raises there; no caller reaches that case with the decks in use). -/
def str_to_nat (s : String) : Option ℕ :=
  if s.toList ≠ [] ∧ s.toList.all (fun c => c.isDigit) then
    some (s.toList.foldl (fun a c => a * 10 + (c.toNat - 48)) 0)
  else none

theorem round2_nonneg {q : ℚ} (h : 0 ≤ q) : 0 ≤ round2 q := by
  have := rhe_nonneg (by positivity : (0 : ℚ) ≤ q * 100)
  rw [round2]
  positivity

/-! ## Card and hand engine (backend/app/services/blackjack_service.py)

A card is a string such as "AS" or "10H"; its rank is the string with the
final suit character removed (Python card[:-1]). -/

/-- Model of socket_server._card_rank and the inline card[:-1] of
blackjack_service: the card string without its final character. -/
def card_rank (card : String) : String := card.dropRight 1

/-- Model of blackjack_service.card_value.  Python raises on int(rank) for a
rank that is not a numeral; the deck only contains numeric ranks there, and
the model totalises that case to 0. -/
def card_value (card : String) : ℕ :=
  let rank := card_rank card
  if rank = "J" ∨ rank = "Q" ∨ rank = "K" then 10
  else if rank = "A" then 11
  else (str_to_nat rank).getD 0

/-- The while loop of blackjack_service.hand_score: subtract 10 per Ace while
the running score exceeds 21 and an Ace is still counted as 11. -/
def hand_score_loop : ℕ → ℕ → ℕ
  | score, 0 => score
  | score, aces + 1 => if score > 21 then hand_score_loop (score - 10) aces else score

/-- Model of blackjack_service.hand_score. -/
def hand_score (cards : List String) : ℕ :=
  let score := (cards.map card_value).sum
  let aces := (cards.filter fun c => card_rank c = "A").length
  hand_score_loop score aces

/-- Model of blackjack_service.natural_blackjack. -/
def natural_blackjack (cards : List String) : Bool :=
  cards.length = 2 && hand_score cards = 21

/-- All hand totals obtainable by valuing each card exactly once, choosing
value 11 or 1 for each Ace and card_value for every other card.  This is the
specification-side notion of an achievable score for a hand. -/
def ace_choice_totals : List String → List ℕ
  | [] => [0]
  | c :: rest =>
    let ts := ace_choice_totals rest
    if card_rank c = "A" then ts.map (· + 11) ++ ts.map (· + 1)
    else ts.map (· + card_value c)

/-- The number of Aces in a hand. -/
def ace_count (cards : List String) : ℕ :=
  (cards.filter fun c => card_rank c = "A").length

/-- The base sum of a hand with every Ace counted as 11. -/
def base_sum (cards : List String) : ℕ := (cards.map card_value).sum

theorem card_value_of_ace {c : String} (h : card_rank c = "A") : card_value c = 11 := by
  have hr : ¬(card_rank c = "J" ∨ card_rank c = "Q" ∨ card_rank c = "K") := by
    rw [h]
    decide
  simp [card_value, hr, h]

theorem ace_count_cons_ace {c : String} (rest : List String) (h : card_rank c = "A") :
    ace_count (c :: rest) = ace_count rest + 1 := by
  simp [ace_count, List.filter_cons, h]

theorem ace_count_cons_other {c : String} (rest : List String) (h : ¬card_rank c = "A") :
    ace_count (c :: rest) = ace_count rest := by
  simp [ace_count, List.filter_cons, h]

theorem base_sum_cons (c : String) (rest : List String) :
    base_sum (c :: rest) = card_value c + base_sum rest := by
  simp [base_sum]

theorem base_sum_ge_11_ace_count (cards : List String) :
    11 * ace_count cards ≤ base_sum cards := by
  induction cards with
  | nil => simp [ace_count, base_sum]
  | cons c rest ih =>
    by_cases h : card_rank c = "A"
    · rw [ace_count_cons_ace rest h, base_sum_cons, card_value_of_ace h]
      omega
    · rw [ace_count_cons_other rest h, base_sum_cons]
      omega

theorem mem_ace_choice_totals_iff (cards : List String) :
    ∀ t, t ∈ ace_choice_totals cards ↔
      ∃ k, k ≤ ace_count cards ∧ t = base_sum cards - 10 * k := by
  induction cards with
  | nil =>
    intro t
    simp [ace_choice_totals, ace_count, base_sum]
  | cons c rest ih =>
    intro t
    have hbound := base_sum_ge_11_ace_count rest
    by_cases h : card_rank c = "A"
    · rw [ace_count_cons_ace rest h, base_sum_cons, card_value_of_ace h]
      simp only [ace_choice_totals, h, if_pos, List.mem_append, List.mem_map]
      constructor
      · rintro (⟨t', ht', rfl⟩ | ⟨t', ht', rfl⟩)
        · obtain ⟨k, hk, rfl⟩ := (ih t').mp ht'
          exact ⟨k, by omega, by omega⟩
        · obtain ⟨k, hk, rfl⟩ := (ih t').mp ht'
          exact ⟨k + 1, by omega, by omega⟩
      · rintro ⟨k, hk, rfl⟩
        by_cases hk0 : k ≤ ace_count rest
        · exact Or.inl ⟨base_sum rest - 10 * k, (ih _).mpr ⟨k, hk0, rfl⟩, by omega⟩
        · have hk1 : k = ace_count rest + 1 := by omega
          refine Or.inr ⟨base_sum rest - 10 * (k - 1), (ih _).mpr ⟨k - 1, by omega, rfl⟩, ?_⟩
          subst hk1
          omega
    · rw [ace_count_cons_other rest h, base_sum_cons]
      simp only [ace_choice_totals, h, if_neg, List.mem_map, Bool.false_eq_true, if_false]
      constructor
      · rintro ⟨t', ht', rfl⟩
        obtain ⟨k, hk, rfl⟩ := (ih t').mp ht'
        exact ⟨k, hk, by omega⟩
      · rintro ⟨k, hk, rfl⟩
        exact ⟨base_sum rest - 10 * k, (ih _).mpr ⟨k, hk, rfl⟩, by omega⟩

theorem hand_score_loop_le (score aces : ℕ) : hand_score_loop score aces ≤ score := by
  induction aces generalizing score with
  | zero => simp [hand_score_loop]
  | succ a ih =>
    simp only [hand_score_loop]
    split
    · exact le_trans (ih (score - 10)) (by omega)
    · exact le_refl score

theorem hand_score_loop_spec (score aces : ℕ) :
    (∃ k, k ≤ aces ∧ hand_score_loop score aces = score - 10 * k) ∧
    ((∃ k, k ≤ aces ∧ score - 10 * k ≤ 21) → hand_score_loop score aces ≤ 21) ∧
    (∀ k, k ≤ aces → score - 10 * k ≤ 21 → score - 10 * k ≤ hand_score_loop score aces) ∧
    (21 < hand_score_loop score aces → ∀ k, k ≤ aces → hand_score_loop score aces ≤ score - 10 * k) := by
  induction aces generalizing score with
  | zero =>
    refine ⟨⟨0, le_refl 0, by simp [hand_score_loop]⟩, ?_, ?_, ?_⟩
    · rintro ⟨k, hk, hle⟩
      simp only [hand_score_loop]
      omega
    · intro k hk hle
      simp only [hand_score_loop]
      omega
    · intro hgt k hk
      simp only [hand_score_loop] at *
      omega
  | succ a ih =>
    by_cases hs : score > 21
    · have hstep : hand_score_loop score (a + 1) = hand_score_loop (score - 10) a := by
        simp [hand_score_loop, hs]
      obtain ⟨⟨k0, hk0, heq0⟩, hle, hmax, hmin⟩ := ih (score - 10)
      refine ⟨⟨k0 + 1, by omega, by rw [hstep]; omega⟩, ?_, ?_, ?_⟩
      · rintro ⟨k, hk, hkle⟩
        rw [hstep]
        apply hle
        rcases Nat.eq_zero_or_pos k with hk0' | hk0'
        · subst hk0'; omega
        · exact ⟨k - 1, by omega, by omega⟩
      · intro k hk hkle
        rw [hstep]
        rcases Nat.eq_zero_or_pos k with hk0' | hk0'
        · subst hk0'; omega
        · have := hmax (k - 1) (by omega) (by omega)
          omega
      · intro hgt k hk
        rw [hstep] at *
        rcases Nat.eq_zero_or_pos k with hk0' | hk0'
        · subst hk0'
          have := hand_score_loop_le (score - 10) a
          omega
        · have := hmin hgt (k - 1) (by omega)
          omega
    · have hstep : hand_score_loop score (a + 1) = score := by
        simp [hand_score_loop, hs]
      refine ⟨⟨0, by omega, by rw [hstep]; omega⟩, ?_, ?_, ?_⟩
      · intro _; rw [hstep]; omega
      · intro k hk hkle
        rw [hstep]
        omega
      · intro hgt k hk
        rw [hstep] at *
        omega

theorem hand_score_eq_loop (cards : List String) :
    hand_score cards = hand_score_loop (base_sum cards) (ace_count cards) := rfl

/-- C2: hand_score counts each card exactly once (its result is one of the
totals obtained by valuing every card of the list once, each Ace as 11 or 1),
it is the maximum such total that is at most 21 whenever one exists, and when
every achievable total busts it is the minimum achievable (bust) total. -/
theorem hand_score_matches_best_ace_assignment (cards : List String) :
    hand_score cards ∈ ace_choice_totals cards ∧
    ((∃ t ∈ ace_choice_totals cards, t ≤ 21) → hand_score cards ≤ 21) ∧
    (∀ t ∈ ace_choice_totals cards, t ≤ 21 → t ≤ hand_score cards) ∧
    (21 < hand_score cards → ∀ t ∈ ace_choice_totals cards, hand_score cards ≤ t) := by
  obtain ⟨hmem, hle, hmax, hmin⟩ := hand_score_loop_spec (base_sum cards) (ace_count cards)
  rw [hand_score_eq_loop]
  refine ⟨?_, ?_, ?_, ?_⟩
  · rw [mem_ace_choice_totals_iff cards _]
    exact hmem
  · rintro ⟨t, ht, htle⟩
    rw [mem_ace_choice_totals_iff cards _] at ht
    obtain ⟨k, hk, rfl⟩ := ht
    exact hle ⟨k, hk, htle⟩
  · intro t ht htle
    rw [mem_ace_choice_totals_iff cards _] at ht
    obtain ⟨k, hk, rfl⟩ := ht
    exact hmax k hk htle
  · intro hgt t ht
    rw [mem_ace_choice_totals_iff cards _] at ht
    obtain ⟨k, hk, rfl⟩ := ht
    exact hmin hgt k hk

/-- Witness for the hand_score theorem at a concrete hand: two Aces and a
nine score 21 (counting one Ace as 11 and one as 1), and 21 is an achievable
total for that hand. -/
theorem hand_score_matches_best_ace_assignment_witness :
    hand_score [("AS"), ("AH"), ("9D")] ∈ ace_choice_totals [("AS"), ("AH"), ("9D")] ∧
      hand_score [("AS"), ("AH"), ("9D")] = 21 :=
  ⟨(hand_score_matches_best_ace_assignment [("AS"), ("AH"), ("9D")]).1, by decide⟩

/-! ## Table engine data model (backend/app/realtime/socket_server.py)

Association lists model Python dicts: insertion-ordered, unique keys;
alist_set replaces in place or appends, matching dict assignment. -/

def alist_lookup {α : Type} : List (String × α) → String → Option α
  | [], _ => none
  | (k, v) :: rest, key => if k = key then some v else alist_lookup rest key

def alist_set {α : Type} : List (String × α) → String → α → List (String × α)
  | [], key, v => [(key, v)]
  | (k, w) :: rest, key, v =>
    if k = key then (k, v) :: rest else (k, w) :: alist_set rest key v

def alist_erase {α : Type} : List (String × α) → String → List (String × α)
  | [], _ => []
  | (k, w) :: rest, key => if k = key then rest else (k, w) :: alist_erase rest key

/-- Model of Python str.strip(): remove leading and trailing whitespace. -/
def py_strip (s : String) : String :=
  ⟨((s.toList.dropWhile fun c => c.isWhitespace).reverse.dropWhile
      fun c => c.isWhitespace).reverse⟩

/-- Model of Python str.lower() for the ASCII action names used here. -/
def py_lower (s : String) : String := ⟨s.toList.map Char.toLower⟩

def MAX_ACTION_LOG_ITEMS : ℕ := 80
def MAX_ACTION_IDS_PER_TABLE : ℕ := 300
def MAX_ACTION_ID_LENGTH : ℕ := 64
def DEFAULT_TABLE_BET : ℚ := 10
def MIN_TABLE_BET : ℚ := 1
def MAX_TABLE_BET : ℚ := 1000
def MAX_TABLE_PLAYER_HANDS : ℕ := 2

/-- Model of the TableHandState dataclass (socket_server.py lines 60-70). -/
structure TableHandState where
  hand_id : String
  cards : List String
  bet : ℚ
  status : String := "active"
  result : Option String := none
  payout : Option ℚ := none
  is_split_hand : Bool := false
  doubled_down : Bool := false
deriving DecidableEq, Repr

/-- Model of the TablePlayerState dataclass (socket_server.py lines 72-84). -/
structure TablePlayerState where
  user_id : String
  hands : List TableHandState
  active_hand_index : ℕ := 0
  completed : Bool := false
  base_bet : ℚ := 0
  bankroll_at_start : ℚ := 0
  committed_bet : ℚ := 0
  total_payout : ℚ := 0
  insurance_bet : ℚ := 0
  insurance_decided : Bool := false
  insurance_payout : ℚ := 0
deriving DecidableEq, Repr

/-- Values appearing in action-log metadata dicts: numbers (ints and floats
both modelled as ℚ), strings, booleans, card lists, and Python None. -/
inductive MetaValue where
  | num (q : ℚ)
  | str (s : String)
  | flag (b : Bool)
  | cards (cs : List String)
  | null
deriving DecidableEq, Repr

/-- A metadata dict of an action-log entry, as an ordered key-value list. -/
abbrev Metadata : Type := List (String × MetaValue)

/-- Model of an action-log entry dict (socket_server._record_turn_action);
the Python "at" key is named at_time here ("at" is reserved in Lean). -/
structure ActionLogEntry where
  user_id : Option String
  action : String
  at_time : ℚ
  meta : Option Metadata := none
deriving DecidableEq, Repr

/-- Model of the TableTurnState dataclass (socket_server.py lines 87-106).
The shoe is consumed from its end (Python list.pop()).  The random uuid4
round id is a caller-supplied parameter at creation; the turn_seconds int is
modelled as ℚ together with all other time quantities. -/
structure TableTurnState where
  table_id : String
  players : List String
  turn_index : ℕ
  turn_seconds : ℚ
  turn_deadline : ℚ
  round_id : String
  status : String := "active"
  hand_number : ℕ := 1
  phase : String := "player_turns"
  dealer_cards : List String := []
  dealer_hidden : Bool := true
  shoe : List String := []
  player_states : List (String × TablePlayerState) := []
  last_action : Option ActionLogEntry := none
  action_log : List ActionLogEntry := []
  processed_action_ids : List (String × ℚ) := []
  started_at : ℚ
  updated_at : ℚ
deriving DecidableEq, Repr

/-! ## Table engine operations (socket_server.py) -/

/-- Model of socket_server._normalize_table_bet.  The argument is the raw
client value: some q when float() parses it, none when it is missing or not
numeric (float() raises and the default bet is used). -/
def normalize_table_bet : Option ℚ → ℚ
  | some q => max MIN_TABLE_BET (min MAX_TABLE_BET (round2 q))
  | none => max MIN_TABLE_BET (min MAX_TABLE_BET (round2 DEFAULT_TABLE_BET))

/-- Model of socket_server._draw_table_card: pop from the end of the shoe,
refilling from a fresh deck first when the shoe is empty.  build_deck() (a
shuffled full deck, external randomness) is the freshDeck parameter; the ""
default is unreachable whenever freshDeck is nonempty. -/
def draw_table_card (freshDeck : List String) (st : TableTurnState) :
    String × TableTurnState :=
  let shoe := if st.shoe.length = 0 then freshDeck else st.shoe
  ((shoe.getLast?).getD "", { st with shoe := shoe.dropLast })

/-- Model of socket_server._current_turn_user_id. -/
def current_turn_user_id (st : TableTurnState) : Option String :=
  if st.status ≠ "active" ∨ st.phase ≠ "player_turns" ∨ st.players.length = 0 then none
  else st.players[st.turn_index % st.players.length]?

/-- Model of socket_server._current_turn_player_state. -/
def current_turn_player_state (st : TableTurnState) : Option TablePlayerState :=
  match current_turn_user_id st with
  | none => none
  | some uid => alist_lookup st.player_states uid

/-- Model of socket_server._current_turn_hand (the index cannot be negative
in the model since it is a ℕ; the source also guards index < 0). -/
def current_turn_hand (st : TableTurnState) : Option TableHandState :=
  match current_turn_player_state st with
  | none => none
  | some ps =>
    if ps.active_hand_index ≥ ps.hands.length then none
    else ps.hands[ps.active_hand_index]?

/-- Model of socket_server._hand_is_playable. -/
def hand_is_playable (h : TableHandState) : Bool :=
  h.status == "active" && h.result == none && decide (hand_score h.cards < 21)

/-- Model of socket_server._can_split_hand. -/
def can_split_hand (ps : TablePlayerState) (hand : TableHandState) : Bool :=
  if ps.hands.length ≥ MAX_TABLE_PLAYER_HANDS then false
  else if hand.status ≠ "active" ∨ hand.result ≠ none ∨ hand.cards.length ≠ 2 then false
  else if card_rank (hand.cards.getD 0 "") ≠ card_rank (hand.cards.getD 1 "") then false
  else decide
    (round2 (ps.committed_bet + hand.bet) ≤ round2 (ps.bankroll_at_start + 1 / 1000000000))

/-- Model of socket_server._can_double_down. -/
def can_double_down (ps : TablePlayerState) (hand : TableHandState) : Bool :=
  if hand.status ≠ "active" ∨ hand.result ≠ none ∨ hand.cards.length ≠ 2 then false
  else if hand.doubled_down then false
  else decide
    (round2 (ps.committed_bet + hand.bet) ≤ round2 (ps.bankroll_at_start + 1 / 1000000000))

/-- Model of socket_server._insurance_bet_amount. -/
def insurance_bet_amount (ps : TablePlayerState) : ℚ :=
  round2 (max 0 (ps.base_bet / 2))

/-- Model of socket_server._can_take_insurance. -/
def can_take_insurance (st : TableTurnState) (ps : TablePlayerState)
    (hand : TableHandState) : Bool :=
  if st.dealer_cards.length = 0 ∨ card_rank (st.dealer_cards.getD 0 "") ≠ "A" then false
  else if st.dealer_hidden = false then false
  else if ps.insurance_decided then false
  else if hand.status ≠ "active" ∨ hand.result ≠ none then false
  else if ps.active_hand_index ≠ 0 ∨ hand.cards.length ≠ 2 then false
  else if insurance_bet_amount ps ≤ 0 then false
  else decide (round2 (ps.committed_bet + insurance_bet_amount ps)
    ≤ round2 (ps.bankroll_at_start + 1 / 1000000000))

/-- Model of socket_server._can_surrender. -/
def can_surrender (hand : TableHandState) : Bool :=
  if hand.status ≠ "active" ∨ hand.result ≠ none then false
  else if hand.is_split_hand ∨ hand.doubled_down then false
  else if hand.cards.length ≠ 2 then false
  else decide (hand_score hand.cards < 21)

/-- Model of socket_server._available_actions_for_current_turn. -/
def available_actions_for_current_turn (st : TableTurnState) : List String :=
  if st.status ≠ "active" ∨ st.phase ≠ "player_turns" then []
  else
    match current_turn_player_state st, current_turn_hand st with
    | some ps, some hand =>
      if hand_is_playable hand = false then []
      else
        ["hit", "stand"]
          ++ (if can_double_down ps hand then ["double_down"] else [])
          ++ (if can_split_hand ps hand then ["split"] else [])
          ++ (if can_surrender hand then ["surrender"] else [])
          ++ (if can_take_insurance st ps hand then ["insurance"] else [])
    | _, _ => []

/-- Model of socket_server._record_turn_action. -/
def record_turn_action (now : ℚ) (st : TableTurnState) (action : String)
    (user_id : Option String) (metadata : Option Metadata) : TableTurnState :=
  let entry : ActionLogEntry :=
    { user_id := user_id, action := action, at_time := now, meta := metadata }
  let log := st.action_log ++ [entry]
  let log2 :=
    if log.length > MAX_ACTION_LOG_ITEMS then log.drop (log.length - MAX_ACTION_LOG_ITEMS)
    else log
  { st with last_action := some entry, action_log := log2, updated_at := now }

/-- Model of socket_server._track_turn_action_id: true means the id was seen
before (a duplicate); a fresh id is recorded, evicting the oldest entry when
the bounded per-table id set overflows. -/
def track_turn_action_id (now : ℚ) (st : TableTurnState) (action_id : Option String) :
    Bool × TableTurnState :=
  match action_id with
  | none => (false, st)
  | some a =>
    let normalized := py_strip a
    if normalized = "" then (false, st)
    else if (alist_lookup st.processed_action_ids normalized).isSome then (true, st)
    else
      let ids := st.processed_action_ids ++ [(normalized, now)]
      let ids2 := if ids.length > MAX_ACTION_IDS_PER_TABLE then ids.drop 1 else ids
      (false, { st with processed_action_ids := ids2 })

/-- The inner while loop of socket_server._position_to_next_playable_turn:
advance the active hand index past hands that are not playable. -/
def advance_past_finished_hands (hands : List TableHandState) (i : ℕ) : ℕ :=
  if h : i < hands.length then
    if hand_is_playable (hands.get ⟨i, h⟩) then i else advance_past_finished_hands hands (i + 1)
  else i
termination_by hands.length - i

/-- The outer while loop of socket_server._position_to_next_playable_turn;
the fuel argument is the examined_players counter counting down from the
number of seated players. -/
def position_loop (now : ℚ) : ℕ → TableTurnState → Bool × TableTurnState
  | 0, st => (false, st)
  | fuel + 1, st =>
    let uid := st.players.getD st.turn_index ""
    match alist_lookup st.player_states uid with
    | none =>
      position_loop now fuel { st with turn_index := (st.turn_index + 1) % st.players.length }
    | some ps =>
      let idx := advance_past_finished_hands ps.hands ps.active_hand_index
      if idx < ps.hands.length then
        let ps2 := { ps with active_hand_index := idx, completed := false }
        (true, { st with
                  player_states := alist_set st.player_states uid ps2
                  turn_deadline := now + st.turn_seconds
                  updated_at := now })
      else
        let ps2 := { ps with active_hand_index := idx, completed := true }
        position_loop now fuel
          { st with
            player_states := alist_set st.player_states uid ps2
            turn_index := (st.turn_index + 1) % st.players.length }

/-- Model of socket_server._position_to_next_playable_turn. -/
def position_to_next_playable_turn (now : ℚ) (st : TableTurnState) :
    Bool × TableTurnState :=
  if st.players.length = 0 then (false, st)
  else
    let st1 := if st.turn_index ≥ st.players.length then { st with turn_index := 0 } else st
    position_loop now st1.players.length st1

/-- The per-hand settlement of socket_server._settle_table_round (lines
942-980): resolve an already-bust or surrendered hand, otherwise compare
naturals first, then dealer bust, then scores. -/
def settle_hand (dealer_score : ℕ) (dealer_has_blackjack : Bool)
    (h : TableHandState) : TableHandState :=
  if h.result = some "bust" then
    { h with status := "resolved", payout := some (round2 (-h.bet)) }
  else if h.result = some "surrender" then
    { h with status := "resolved", payout := some (round2 (-(h.bet / 2))) }
  else
    let player_score := hand_score h.cards
    let player_has_blackjack := natural_blackjack h.cards && !h.is_split_hand
    if player_has_blackjack && dealer_has_blackjack then
      { h with result := some "push", payout := some 0, status := "resolved" }
    else if player_has_blackjack then
      { h with result := some "blackjack", payout := some (round2 (h.bet * 1.5)),
               status := "resolved" }
    else if dealer_has_blackjack then
      { h with result := some "lose", payout := some (round2 (-h.bet)), status := "resolved" }
    else if dealer_score > 21 then
      { h with result := some "win", payout := some (round2 h.bet), status := "resolved" }
    else if player_score > dealer_score then
      { h with result := some "win", payout := some (round2 h.bet), status := "resolved" }
    else if player_score < dealer_score then
      { h with result := some "lose", payout := some (round2 (-h.bet)), status := "resolved" }
    else
      { h with result := some "push", payout := some 0, status := "resolved" }

/-- The per-player part of socket_server._settle_table_round (lines 936-992):
settle every hand, sum the hand payouts, then settle insurance independently
(2x the insurance wager on a dealer natural, lost otherwise). -/
def settle_player (dealer_score : ℕ) (dealer_has_blackjack : Bool)
    (ps : TablePlayerState) : TablePlayerState :=
  let idx :=
    if ps.active_hand_index ≥ ps.hands.length then ps.hands.length - 1
    else ps.active_hand_index
  let hands := ps.hands.map (settle_hand dealer_score dealer_has_blackjack)
  let hand_total := (hands.map fun h => h.payout.getD 0).sum
  let insurance_payout : ℚ :=
    if ps.insurance_bet > 0 then
      (if dealer_has_blackjack then round2 (ps.insurance_bet * 2)
       else round2 (-ps.insurance_bet))
    else 0
  let total_payout :=
    if ps.insurance_bet > 0 then hand_total + insurance_payout else hand_total
  { ps with
    completed := true
    active_hand_index := idx
    hands := hands
    insurance_payout := round2 insurance_payout
    total_payout := round2 total_payout }

/-- The dealer drawing loop of socket_server._settle_table_round: draw while
the dealer total is under 17.  The source loop terminates because every real
card raises the total; fuel makes the recursion structural, and every caller
in this file passes fuel no smaller than the number of cards that can be
drawn. -/
def dealer_draw_loop (freshDeck : List String) (now : ℚ) :
    ℕ → TableTurnState → TableTurnState
  | 0, st => st
  | fuel + 1, st =>
    if hand_score st.dealer_cards < 17 then
      let (c, st1) := draw_table_card freshDeck st
      let st2 := { st1 with dealer_cards := st1.dealer_cards ++ [c] }
      let st3 := record_turn_action now st2 "dealer_hit" none
        (some [("dealer_score", MetaValue.num (hand_score st2.dealer_cards))])
      dealer_draw_loop freshDeck now fuel st3
    else st

/-- The balance-application loop of socket_server._settle_table_round (lines
994-1035): each player's total payout is applied once to their stored
balance, clamped at zero; users absent from the store are skipped.  The
round-history inserts and the rollback-on-exception are external persistence
effects that are not part of the state model. -/
def apply_payouts (balances : List (String × ℚ)) :
    List (String × TablePlayerState) → List (String × ℚ)
  | [] => balances
  | (uid, ps) :: rest =>
    let balances2 :=
      match alist_lookup balances uid with
      | some b => alist_set balances uid (round2 (max 0 (b + ps.total_payout)))
      | none => balances
    apply_payouts balances2 rest

/-- Model of socket_server._settle_table_round. -/
def settle_table_round (freshDeck : List String) (dealerFuel : ℕ) (now : ℚ)
    (balances : List (String × ℚ)) (st : TableTurnState) (completion_reason : String) :
    TableTurnState × List (String × ℚ) :=
  if st.phase = "settled" then (st, balances)
  else
    let st1 := { st with phase := "dealer_turn", dealer_hidden := false }
    let dealer_has_blackjack := natural_blackjack st1.dealer_cards
    let has_live_player_hand := st1.player_states.any fun p =>
      p.2.hands.any fun h => !(h.result = some "bust" || h.result = some "surrender")
    let st2 :=
      if !dealer_has_blackjack && has_live_player_hand then
        dealer_draw_loop freshDeck now dealerFuel st1
      else st1
    let dealer_score := hand_score st2.dealer_cards
    let new_player_states := st2.player_states.map fun p =>
      (p.1, settle_player dealer_score dealer_has_blackjack p.2)
    let new_balances := apply_payouts balances new_player_states
    let st3 := { st2 with
      player_states := new_player_states
      phase := "settled"
      status := "ended"
      turn_deadline := now + st2.turn_seconds }
    let st4 := record_turn_action now st3 "round_settled" none
      (some [("reason", MetaValue.str completion_reason),
             ("dealer_score", MetaValue.num (dealer_score : ℚ))])
    (st4, new_balances)

/-- Insert into a list at an index, Python list.insert semantics. -/
def insert_at {α : Type} (l : List α) (i : ℕ) (x : α) : List α :=
  l.take i ++ [x] ++ l.drop i

/-- The per-action elif chain of socket_server._apply_table_action (lines
1094-1147): mutate the current hand and player for a non-insurance action,
returning the updated player, the state after any card draws, and the
metadata.  An action name outside the six (unreachable through the legality
gate) falls through with no hand mutation, as in the source. -/
def apply_action_step (freshDeck : List String) (new_hand_id : String)
    (st : TableTurnState) (hand : TableHandState) (ps1 : TablePlayerState)
    (hand_index : ℕ) (meta1 : Metadata) (action : String) :
    TablePlayerState × TableTurnState × Metadata :=
  if action = "stand" then
              let hand2 := { hand with status := "stood" }
              ({ ps1 with
                  hands := ps1.hands.set hand_index hand2
                  active_hand_index := ps1.active_hand_index + 1 }, st, meta1)
            else if action = "hit" then
              let (c, stD) := draw_table_card freshDeck st
              let hand2 := { hand with cards := hand.cards ++ [c] }
              let score := hand_score hand2.cards
              let meta2 := meta1 ++ [("score", MetaValue.num (score : ℚ))]
              if score > 21 then
                let hand3 := { hand2 with
                  status := "bust"
                  result := some "bust"
                  payout := some (round2 (-hand2.bet)) }
                ({ ps1 with
                    hands := ps1.hands.set hand_index hand3
                    active_hand_index := ps1.active_hand_index + 1 }, stD, meta2)
              else if score = 21 then
                let hand3 := { hand2 with status := "stood" }
                ({ ps1 with
                    hands := ps1.hands.set hand_index hand3
                    active_hand_index := ps1.active_hand_index + 1 }, stD, meta2)
              else
                ({ ps1 with hands := ps1.hands.set hand_index hand2 }, stD, meta2)
            else if action = "double_down" then
              let extra_bet := hand.bet
              let (c, stD) := draw_table_card freshDeck st
              let hand2 := { hand with
                bet := round2 (hand.bet * 2)
                doubled_down := true
                cards := hand.cards ++ [c] }
              let score := hand_score hand2.cards
              let meta2 := meta1 ++ [("score", MetaValue.num (score : ℚ))]
              let hand3 :=
                if score > 21 then
                  { hand2 with
                    status := "bust"
                    result := some "bust"
                    payout := some (round2 (-hand2.bet)) }
                else { hand2 with status := "stood" }
              ({ ps1 with
                  hands := ps1.hands.set hand_index hand3
                  active_hand_index := ps1.active_hand_index + 1
                  committed_bet := round2 (ps1.committed_bet + extra_bet) }, stD, meta2)
            else if action = "split" then
              let split_bet := hand.bet
              let left_card := hand.cards.getD 0 ""
              let right_card := hand.cards.getD 1 ""
              let (c1, stD1) := draw_table_card freshDeck st
              let (c2, stD2) := draw_table_card freshDeck stD1
              let hand2 := { hand with cards := [left_card, c1], is_split_hand := true }
              let split_hand : TableHandState :=
                { hand_id := new_hand_id
                  cards := [right_card, c2]
                  bet := split_bet
                  is_split_hand := true }
              let first_score := hand_score hand2.cards
              let hand3 := if first_score = 21 then { hand2 with status := "stood" } else hand2
              let meta2 := meta1 ++ [("split_cards", MetaValue.cards [left_card, right_card])]
              ({ ps1 with
                  hands := insert_at (ps1.hands.set hand_index hand3) (hand_index + 1) split_hand
                  active_hand_index :=
                    if first_score = 21 then ps1.active_hand_index + 1
                    else ps1.active_hand_index
                  committed_bet := round2 (ps1.committed_bet + split_bet) }, stD2, meta2)
            else if action = "surrender" then
              let hand2 := { hand with
                status := "surrendered"
                result := some "surrender"
                payout := some (round2 (-(hand.bet / 2))) }
              ({ ps1 with
                  hands := ps1.hands.set hand_index hand2
                  active_hand_index := ps1.active_hand_index + 1 }, st, meta1)
            else
              (ps1, st, meta1)

/-- Model of socket_server._apply_table_action (lines 1051-1156).  Returns
(round_finished, rejection reason, new state, new balances); a rejection
leaves state and balances exactly as given.  The uuid4 hand id minted by a
split is the new_hand_id parameter. -/
def apply_table_action (freshDeck : List String) (dealerFuel : ℕ) (now : ℚ)
    (new_hand_id : String) (balances : List (String × ℚ)) (st : TableTurnState)
    (user_id : String) (action : String) (timed_out : Bool) :
    Bool × Option String × TableTurnState × List (String × ℚ) :=
  if st.status ≠ "active" ∨ st.phase ≠ "player_turns" then
    (false, some "no active round", st, balances)
  else if some user_id ≠ current_turn_user_id st then
    (false, some "not your turn", st, balances)
  else
    match current_turn_player_state st, current_turn_hand st with
    | some ps, some hand =>
      if hand_is_playable hand = false then
        (false, some "hand is already resolved", st, balances)
      else if ¬(action ∈ available_actions_for_current_turn st) then
        (false, some "action not allowed", st, balances)
      else
        let hand_index := ps.active_hand_index
        let base_meta : Metadata :=
          [("hand_index", MetaValue.num (hand_index : ℚ)),
           ("hand_id", MetaValue.str hand.hand_id),
           ("timed_out", MetaValue.flag timed_out)]
        let auto_decline := action ≠ "insurance" ∧ can_take_insurance st ps hand = true
        let ps1 := if auto_decline then { ps with insurance_decided := true } else ps
        let meta1 :=
          if auto_decline then base_meta ++ [("insurance_auto_declined", MetaValue.flag true)]
          else base_meta
        if action = "insurance" then
          let ins := insurance_bet_amount ps1
          let ps2 := { ps1 with
            insurance_bet := ins
            insurance_decided := true
            committed_bet := round2 (ps1.committed_bet + ins) }
          let meta2 := meta1 ++ [("insurance_bet", MetaValue.num ins)]
          let st1 := { st with player_states := alist_set st.player_states user_id ps2 }
          let st2 := record_turn_action now st1 action (some user_id) (some meta2)
          let st3 := { st2 with turn_deadline := now + st2.turn_seconds, updated_at := now }
          (false, none, st3, balances)
        else
          let step := apply_action_step freshDeck new_hand_id st hand ps1 hand_index meta1 action
          let ps2 := step.1
          let stD := step.2.1
          let meta2 := step.2.2
          let action_name := if timed_out then "turn_timeout_auto_stand" else action
          let stP := { stD with player_states := alist_set stD.player_states user_id ps2 }
          let stR := record_turn_action now stP action_name (some user_id) (some meta2)
          match position_to_next_playable_turn now stR with
          | (true, stN) => (false, none, stN, balances)
          | (false, stN) =>
            let settled :=
              settle_table_round freshDeck dealerFuel now balances stN
                "all_player_hands_resolved"
            (true, none, settled.1, settled.2)
    | _, _ => (false, some "no active hand", st, balances)

/-- One card dealt to a player's first hand during the dealing loop of
socket_server._start_table_game. -/
def deal_one_to_player (freshDeck : List String) (st : TableTurnState)
    (uid : String) : TableTurnState :=
  let (c, st1) := draw_table_card freshDeck st
  match alist_lookup st1.player_states uid with
  | some ps =>
    match ps.hands with
    | h0 :: rest =>
      let ps2 := { ps with hands := { h0 with cards := h0.cards ++ [c] } :: rest }
      { st1 with player_states := alist_set st1.player_states uid ps2 }
    | [] => st1
  | none => st1

/-- The natural-blackjack marking of socket_server._start_table_game (lines
1203-1206): a first hand dealt a natural is marked status blackjack and the
active hand index advances past it. -/
def mark_natural (ps : TablePlayerState) : TablePlayerState :=
  match ps.hands with
  | h0 :: rest =>
    if natural_blackjack h0.cards then
      { ps with hands := { h0 with status := "blackjack" } :: rest, active_hand_index := 1 }
    else ps
  | [] => ps

/-- The initial-state player entries built by socket_server._start_table_game
(lines 1168-1186): one entry per seated player, with the normalized pending
bet, an empty first hand carrying that bet, and the bankroll snapshot
max(round(balance, 2), bet). -/
def start_player_states (hand_ids : ℕ → String) (balances : List (String × ℚ))
    (pending_bets : List (String × ℚ)) (table_players : List String) :
    List (String × TablePlayerState) :=
  table_players.enum.map fun p =>
    let bet := normalize_table_bet (some ((alist_lookup pending_bets p.2).getD DEFAULT_TABLE_BET))
    (p.2, ({ user_id := p.2
             hands := [{ hand_id := hand_ids p.1, cards := [], bet := bet }]
             base_bet := bet
             bankroll_at_start := max (round2 ((alist_lookup balances p.2).getD bet)) bet
             committed_bet := bet } : TablePlayerState))

/-- One dealing pass of socket_server._start_table_game: a card to each
player's first hand, then one to the dealer. -/
def deal_round (freshDeck : List String) (table_players : List String)
    (st : TableTurnState) : TableTurnState :=
  let st1 := table_players.foldl (deal_one_to_player freshDeck) st
  let d := draw_table_card freshDeck st1
  { d.2 with dealer_cards := d.2.dealer_cards ++ [d.1] }

/-- The dealing phase of socket_server._start_table_game (lines 1190-1224
before positioning): two cards to every player, two to the dealer with the
second hidden, naturals marked, and the table_game_started log entry. -/
def start_deal_phase (freshDeck : List String) (now : ℚ) (round_id : String)
    (table_players : List String) (st0 : TableTurnState) : TableTurnState :=
  let st2 := deal_round freshDeck table_players st0
  let st4 := { deal_round freshDeck table_players st2 with dealer_hidden := true }
  let st5 := { st4 with player_states := st4.player_states.map fun p => (p.1, mark_natural p.2) }
  record_turn_action now st5 "table_game_started" none
    (some [("players", MetaValue.num (table_players.length : ℚ)),
           ("round_id", MetaValue.str round_id),
           ("dealer_upcard",
            match st5.dealer_cards with
            | c :: _ => MetaValue.str c
            | [] => MetaValue.null)])

/-- Model of socket_server._start_table_game (lines 1159-1224), up to the
global-map bookkeeping done by its caller (modelled in set_ready_core).  The
uuid4 round id and per-player uuid4 hand ids are the round_id and hand_ids
parameters; balances play the role of the user store read by
_load_user_balances and written by settlement. -/
def start_table_game (freshDeck : List String) (dealerFuel : ℕ) (now : ℚ)
    (turn_seconds : ℚ) (round_id : String) (hand_ids : ℕ → String)
    (balances : List (String × ℚ)) (pending_bets : List (String × ℚ))
    (forced_shoe : Option (List String)) (table_id : String)
    (table_players : List String) :
    Option (TableTurnState × List (String × ℚ)) :=
  if table_players.length < 2 then none
  else
    let st0 : TableTurnState :=
      { table_id := table_id
        players := table_players
        turn_index := 0
        turn_seconds := turn_seconds
        turn_deadline := now + turn_seconds
        round_id := round_id
        hand_number := 1
        shoe := forced_shoe.getD freshDeck
        player_states := start_player_states hand_ids balances pending_bets table_players
        started_at := now
        updated_at := now }
    let st6 := start_deal_phase freshDeck now round_id table_players st0
    match position_to_next_playable_turn now st6 with
    | (true, st7) => some (st7, balances)
    | (false, st7) =>
      some (settle_table_round freshDeck dealerFuel now balances st7 "immediate_settle")

/-! ## Boundary handlers (socket_server.py socket events)

Outbound broadcasts are modelled as a list of events; replies to the calling
connection are the returned reply value, separate from broadcasts. -/

/-- Broadcast notifications emitted to a table room or the lobby. -/
inductive SocketEvent where
  | turn_action_applied (table_id user_id action : String)
      (next_turn_user_id : Option String) (round_finished : Bool)
  | table_round_resolved (table_id : String)
  | turn_timeout (table_id user_id : String)
  | table_game_state (table_id : String)
  | table_snapshot (table_id : String)
  | lobby_snapshots
  | table_game_ended (table_id reason : String)
  | table_ready_to_start (table_id : String)
  | table_game_started (table_id : String)
deriving DecidableEq, Repr

/-- Reply of the take_turn_action handler to its caller.  The source replies
with the serialized turn state; serialization is a pure function of the
state, so the reply carries the state itself. -/
inductive TurnReply where
  | err (msg : String)
  | okDuplicate (state : TableTurnState)
  | okApplied (state : TableTurnState)
deriving DecidableEq, Repr

/-- Model of socket_server._is_valid_action_id: the regex
[A-Za-z0-9_-]{1,64} anchored on both sides, after stripping. -/
def is_valid_action_id : Option String → Bool
  | none => true
  | some a =>
    let normalized := py_strip a
    if normalized = "" then false
    else if normalized.length > MAX_ACTION_ID_LENGTH then false
    else
      1 ≤ normalized.length && normalized.length ≤ 64 &&
        normalized.toList.all fun c => c.isAlpha || c.isDigit || c == '_' || c == '-'

/-- Model of the take_turn_action socket handler (lines 2439-2500) from the
point where the table's turn state is looked up.  Upstream of this core sit
authentication, rate limiting, session table resolution, and a timeout sweep
(modelled separately as process_turn_timeouts).  Python mutates the looked-up
state in place; here the map is returned updated. -/
def take_turn_action (freshDeck : List String) (dealerFuel : ℕ) (now : ℚ)
    (new_hand_id : String) (tables : List (String × TableTurnState))
    (balances : List (String × ℚ)) (table_id user_id action_raw action_id_raw : String) :
    TurnReply × List (String × TableTurnState) × List (String × ℚ) × List SocketEvent :=
  match alist_lookup tables table_id with
  | none => (.err "no active table round", tables, balances, [])
  | some st =>
    if st.status ≠ "active" ∨ st.phase ≠ "player_turns" then
      (.err "no active table round", tables, balances, [])
    else if some user_id ≠ current_turn_user_id st then
      (.err "not your turn", tables, balances, [])
    else
      let action := py_lower (py_strip action_raw)
      if ¬(action ∈ ["hit", "stand", "double_down", "split", "surrender", "insurance"]) then
        (.err "invalid action", tables, balances, [])
      else
        let aid := py_strip action_id_raw
        let action_id := if aid = "" then none else some aid
        if action_id.isSome ∧ is_valid_action_id action_id = false then
          (.err "invalid action_id", tables, balances, [])
        else
          let tracked := track_turn_action_id now st action_id
          if tracked.1 then
            (.okDuplicate tracked.2, alist_set tables table_id tracked.2, balances, [])
          else
            let r := apply_table_action freshDeck dealerFuel now new_hand_id balances
              tracked.2 user_id action false
            let round_finished := r.1
            let st2 := r.2.2.1
            let bal2 := r.2.2.2
            match r.2.1 with
            | some e => (.err e, alist_set tables table_id st2, bal2, [])
            | none =>
              let events :=
                [SocketEvent.turn_action_applied table_id user_id action
                    (current_turn_user_id st2) round_finished]
                  ++ (if round_finished then [SocketEvent.table_round_resolved table_id] else [])
                  ++ [SocketEvent.table_snapshot table_id,
                      SocketEvent.table_game_state table_id,
                      SocketEvent.lobby_snapshots]
              (.okApplied st2, alist_set tables table_id st2, bal2, events)

/-- The inner while loop of socket_server._process_turn_timeouts: while the
round is active and the turn deadline has elapsed (with the safety counter
bounding iterations at 8), apply a stand on behalf of the current-turn
player, emit a turn_timeout notification, and rebroadcast state.  A single
sweep instant now stands for the repeated _utc_now() reads of the source. -/
def timeout_loop (freshDeck : List String) (dealerFuel : ℕ) (now : ℚ)
    (new_hand_id : String) (table_id : String) :
    ℕ → TableTurnState → List (String × ℚ) → List SocketEvent →
      TableTurnState × List (String × ℚ) × List SocketEvent
  | 0, st, bal, evs => (st, bal, evs)
  | safety + 1, st, bal, evs =>
    if st.status = "active" ∧ now ≥ st.turn_deadline then
      match current_turn_user_id st with
      | none => (st, bal, evs)
      | some u =>
        let r := apply_table_action freshDeck dealerFuel now new_hand_id bal st u "stand" true
        match r.2.1 with
        | some _ => (r.2.2.1, r.2.2.2, evs)
        | none =>
          let evs2 := evs ++ [SocketEvent.turn_timeout table_id u]
            ++ (if r.1 then [SocketEvent.table_round_resolved table_id] else [])
            ++ [SocketEvent.table_game_state table_id]
          timeout_loop freshDeck dealerFuel now new_hand_id table_id safety
            r.2.2.1 r.2.2.2 evs2
    else (st, bal, evs)

/-- Model of socket_server._stop_table_game restricted to the turn-state map
and its broadcasts (the pending-bet and forced-shoe cleanups touch state
modelled only inside set_ready_core / start_table_game). -/
def stop_table_game (tables : List (String × TableTurnState)) (table_id reason : String) :
    List (String × TableTurnState) × List SocketEvent :=
  if (alist_lookup tables table_id).isSome then
    (alist_erase tables table_id,
      [SocketEvent.table_game_ended table_id reason, SocketEvent.table_game_state table_id])
  else (tables, [])

/-- The per-sweep iteration of socket_server._process_turn_timeouts over a
snapshot of the turn-state map.  lobby maps a table id to the lobby table's
seated players (lobby_service.get_table; none when the table is gone). -/
def process_tables_loop (freshDeck : List String) (dealerFuel : ℕ) (now : ℚ)
    (new_hand_id : String) (lobby : List (String × List String)) :
    List (String × TableTurnState) →
      List (String × TableTurnState) × List (String × ℚ) × List SocketEvent →
      List (String × TableTurnState) × List (String × ℚ) × List SocketEvent
  | [], acc => acc
  | (tid, st) :: rest, (tabs, bal, evs) =>
    let lobbyPlayers := alist_lookup lobby tid
    if lobbyPlayers = none ∨ (lobbyPlayers.getD []).length < 2 ∨ st.players.length < 2 then
      let stopped := stop_table_game tabs tid "not_enough_players"
      process_tables_loop freshDeck dealerFuel now new_hand_id lobby rest
        (stopped.1, bal, evs ++ stopped.2)
    else if st.status ≠ "active" ∨ st.phase ≠ "player_turns" ∨ now < st.turn_deadline then
      process_tables_loop freshDeck dealerFuel now new_hand_id lobby rest (tabs, bal, evs)
    else
      let r := timeout_loop freshDeck dealerFuel now new_hand_id tid 8 st bal evs
      process_tables_loop freshDeck dealerFuel now new_hand_id lobby rest
        (alist_set tabs tid r.1, r.2.1, r.2.2)

/-- Model of socket_server._process_turn_timeouts: one timer sweep over all
tables. -/
def process_turn_timeouts (freshDeck : List String) (dealerFuel : ℕ) (now : ℚ)
    (new_hand_id : String) (lobby : List (String × List String))
    (tables : List (String × TableTurnState)) (balances : List (String × ℚ)) :
    List (String × TableTurnState) × List (String × ℚ) × List SocketEvent :=
  process_tables_loop freshDeck dealerFuel now new_hand_id lobby tables (tables, balances, [])

/-- The raw bet field of a set_ready payload: absent key, a value float()
cannot parse, or a numeric value. -/
inductive RawBet where
  | absent
  | malformed
  | value (q : ℚ)
deriving DecidableEq, Repr

/-- Python (data or \x7b\x7d).get("bet", DEFAULT_TABLE_BET) followed by the
float() attempt of _normalize_table_bet: an absent key yields the default
bet, a malformed value yields none (float() raises). -/
def raw_bet_to_float_arg : RawBet → Option ℚ
  | .absent => some DEFAULT_TABLE_BET
  | .malformed => none
  | .value q => some q

/-- Reply of the set_ready handler. -/
inductive ReadyReply where
  | err (msg : String)
  | ok (ready : Bool) (bet : Option ℚ)
deriving DecidableEq, Repr

/-- Result state of set_ready_core: the turn-state map, the per-table ready
sets and pending bets, balances, and broadcasts. -/
structure ReadyOutcome where
  reply : ReadyReply
  tables : List (String × TableTurnState)
  ready_map : List (String × List String)
  pending : List (String × List (String × ℚ))
  balances : List (String × ℚ)
  events : List SocketEvent
deriving DecidableEq, Repr

/-- The tail of the set_ready handler (lines 2217-2252): ready/pending-bet
bookkeeping, then the game start when at least two players are seated and
all of them are ready, with the map bookkeeping _start_table_game performs
(insert the new state into the turn-state map, drop the ready set and
pending bets of the table). -/
def set_ready_after_discard (freshDeck : List String) (dealerFuel : ℕ) (now : ℚ)
    (turn_seconds : ℚ) (round_id : String) (hand_ids : ℕ → String)
    (tables : List (String × TableTurnState)) (ready_map : List (String × List String))
    (pending : List (String × List (String × ℚ))) (balances : List (String × ℚ))
    (forced_shoe : Option (List String)) (tplayers : List String)
    (table_id user_id : String) (ready : Bool) (bet_field : RawBet) : ReadyOutcome :=
  let bet := normalize_table_bet (raw_bet_to_float_arg bet_field)
  let ready_players := (alist_lookup ready_map table_id).getD []
  let ready2 :=
    if ready then
      (if user_id ∈ ready_players then ready_players else ready_players ++ [user_id])
    else ready_players.erase user_id
  let pending2 :=
    if ready then
      alist_set pending table_id
        (alist_set ((alist_lookup pending table_id).getD []) user_id bet)
    else
      match alist_lookup pending table_id with
      | some pb =>
        let pb2 := alist_erase pb user_id
        if pb2 = [] then alist_erase pending table_id else alist_set pending table_id pb2
      | none => pending
  let ready_map2 :=
    if ready2 = [] then alist_erase ready_map table_id
    else alist_set ready_map table_id ready2
  let pending3 := if ready2 = [] then alist_erase pending2 table_id else pending2
  let events0 := [SocketEvent.table_snapshot table_id]
  let reply := ReadyReply.ok ready (if ready then some bet else none)
  if 2 ≤ tplayers.length ∧ tplayers.all (fun p => p ∈ ready2) then
    match start_table_game freshDeck dealerFuel now turn_seconds round_id hand_ids balances
      ((alist_lookup pending3 table_id).getD []) forced_shoe table_id tplayers with
    | some r =>
      { reply := reply
        tables := alist_set tables table_id r.1
        ready_map := alist_erase ready_map2 table_id
        pending := alist_erase pending3 table_id
        balances := r.2
        events := events0 ++ [SocketEvent.table_ready_to_start table_id,
          SocketEvent.table_game_started table_id, SocketEvent.table_snapshot table_id,
          SocketEvent.table_game_state table_id, SocketEvent.lobby_snapshots] }
    | none =>
      { reply := reply, tables := tables, ready_map := ready_map2, pending := pending3,
        balances := balances, events := events0 ++ [SocketEvent.lobby_snapshots] }
  else
    { reply := reply, tables := tables, ready_map := ready_map2, pending := pending3,
      balances := balances, events := events0 ++ [SocketEvent.lobby_snapshots] }

/-- Model of the set_ready socket handler (lines 2191-2252) from the lock
check onward: authentication/rate limiting sit upstream; table_players is
the lobby table's seated players (none when the table is gone);
locked/is_mod model the locked-table gate.  Covers the discard of an ended
turn state, the ready/pending bookkeeping, and the game start when every
seated player is ready, including the map bookkeeping _start_table_game
performs (insert the new state, drop ready/pending for the table). -/
def set_ready_core (freshDeck : List String) (dealerFuel : ℕ) (now : ℚ)
    (turn_seconds : ℚ) (round_id : String) (hand_ids : ℕ → String)
    (tables : List (String × TableTurnState)) (ready_map : List (String × List String))
    (pending : List (String × List (String × ℚ))) (balances : List (String × ℚ))
    (forced_shoe : Option (List String)) (locked is_mod : Bool)
    (table_players : Option (List String)) (table_id user_id : String)
    (ready : Bool) (bet_field : RawBet) : ReadyOutcome :=
  if locked ∧ ¬is_mod then
    { reply := .err "table is locked by admin", tables := tables, ready_map := ready_map,
      pending := pending, balances := balances, events := [] }
  else
    match table_players with
    | none =>
      { reply := .err "table unavailable", tables := tables, ready_map := ready_map,
        pending := pending, balances := balances, events := [] }
    | some tplayers =>
      if ¬(user_id ∈ tplayers) then
        { reply := .err "table unavailable", tables := tables, ready_map := ready_map,
          pending := pending, balances := balances, events := [] }
      else
        match alist_lookup tables table_id with
        | some existing =>
          if existing.status = "active" then
            { reply := .err "table game already active", tables := tables,
              ready_map := ready_map, pending := pending, balances := balances, events := [] }
          else
            set_ready_after_discard freshDeck dealerFuel now turn_seconds round_id hand_ids
              (alist_erase tables table_id) ready_map pending balances forced_shoe
              tplayers table_id user_id ready bet_field
        | none =>
          set_ready_after_discard freshDeck dealerFuel now turn_seconds round_id hand_ids
            tables ready_map pending balances forced_shoe
            tplayers table_id user_id ready bet_field

/-! ## Concrete fixtures

A placeholder state (used only as the default of Option.getD on calls proved
to return some), and a concrete two-player game started from a forced shoe.
The shoe is consumed from its end. -/

def default_turn_state : TableTurnState :=
  { table_id := "t", players := [], turn_index := 0, turn_seconds := 30,
    turn_deadline := 0, round_id := "r", started_at := 0, updated_at := 0 }

/-- A started two-player round: p1 and p2 bet 10 each from balance 50; the
deal gives p1 9S 8H, p2 7H 9D, the dealer KS up and 2D down; 2C stays on the
shoe; p1 is to act. -/
def started_state : TableTurnState :=
  { table_id := "t", players := ["p1", "p2"], turn_index := 0, turn_seconds := 30, turn_deadline := 30, round_id := "r", status := "active", hand_number := 1, phase := "player_turns", dealer_cards := ["KS", "2D"], dealer_hidden := true, shoe := ["2C"], player_states := [("p1", { user_id := "p1", hands := [{ hand_id := "h", cards := ["9S", "8H"], bet := 10, status := "active", result := none, payout := none, is_split_hand := false, doubled_down := false }], active_hand_index := 0, completed := false, base_bet := 10, bankroll_at_start := 50, committed_bet := 10, total_payout := 0, insurance_bet := 0, insurance_decided := false, insurance_payout := 0 }), ("p2", { user_id := "p2", hands := [{ hand_id := "h", cards := ["7H", "9D"], bet := 10, status := "active", result := none, payout := none, is_split_hand := false, doubled_down := false }], active_hand_index := 0, completed := false, base_bet := 10, bankroll_at_start := 50, committed_bet := 10, total_payout := 0, insurance_bet := 0, insurance_decided := false, insurance_payout := 0 })], last_action := some { user_id := none, action := "table_game_started", at_time := 0, meta := some [("players", MetaValue.num 2), ("round_id", MetaValue.str "r"), ("dealer_upcard", MetaValue.str "KS")] }, action_log := [{ user_id := none, action := "table_game_started", at_time := 0, meta := some [("players", MetaValue.num 2), ("round_id", MetaValue.str "r"), ("dealer_upcard", MetaValue.str "KS")] }], processed_action_ids := [], started_at := 0, updated_at := 0 }

def default_player_state : TablePlayerState := { user_id := "", hands := [] }

def default_hand : TableHandState := { hand_id := "", cards := [], bet := 0 }

/-- A started two-player round with the dealer showing an Ace: p1 holds
9S 9H (18), p2 holds 8H 7H, the dealer shows AS with KS face down (a natural
once revealed); p1 is to act. -/
def insurance_state : TableTurnState :=
  { table_id := "t", players := ["p1", "p2"], turn_index := 0, turn_seconds := 30, turn_deadline := 30, round_id := "r", status := "active", hand_number := 1, phase := "player_turns", dealer_cards := ["AS", "KS"], dealer_hidden := true, shoe := [], player_states := [("p1", { user_id := "p1", hands := [{ hand_id := "h", cards := ["9S", "9H"], bet := 10, status := "active", result := none, payout := none, is_split_hand := false, doubled_down := false }], active_hand_index := 0, completed := false, base_bet := 10, bankroll_at_start := 50, committed_bet := 10, total_payout := 0, insurance_bet := 0, insurance_decided := false, insurance_payout := 0 }), ("p2", { user_id := "p2", hands := [{ hand_id := "h", cards := ["8H", "7H"], bet := 10, status := "active", result := none, payout := none, is_split_hand := false, doubled_down := false }], active_hand_index := 0, completed := false, base_bet := 10, bankroll_at_start := 50, committed_bet := 10, total_payout := 0, insurance_bet := 0, insurance_decided := false, insurance_payout := 0 })], last_action := some { user_id := none, action := "table_game_started", at_time := 0, meta := some [("players", MetaValue.num 2), ("round_id", MetaValue.str "r"), ("dealer_upcard", MetaValue.str "AS")] }, action_log := [{ user_id := none, action := "table_game_started", at_time := 0, meta := some [("players", MetaValue.num 2), ("round_id", MetaValue.str "r"), ("dealer_upcard", MetaValue.str "AS")] }], processed_action_ids := [], started_at := 0, updated_at := 0 }

/-- A started two-player round where p1's stored balance 5 is below the bet
10 (the bankroll snapshot is max(round(5, 2), 10) = 10): p1 9S 8H, p2 7H 9D,
dealer KS up and 2D down, with 6C 2C left on the shoe for the dealer to draw
to 20 at settlement. -/
def clamp_state : TableTurnState :=
  { table_id := "t", players := ["p1", "p2"], turn_index := 0, turn_seconds := 30, turn_deadline := 30, round_id := "r", status := "active", hand_number := 1, phase := "player_turns", dealer_cards := ["KS", "2D"], dealer_hidden := true, shoe := ["6C", "2C"], player_states := [("p1", { user_id := "p1", hands := [{ hand_id := "h", cards := ["9S", "8H"], bet := 10, status := "active", result := none, payout := none, is_split_hand := false, doubled_down := false }], active_hand_index := 0, completed := false, base_bet := 10, bankroll_at_start := 10, committed_bet := 10, total_payout := 0, insurance_bet := 0, insurance_decided := false, insurance_payout := 0 }), ("p2", { user_id := "p2", hands := [{ hand_id := "h", cards := ["7H", "9D"], bet := 10, status := "active", result := none, payout := none, is_split_hand := false, doubled_down := false }], active_hand_index := 0, completed := false, base_bet := 10, bankroll_at_start := 50, committed_bet := 10, total_payout := 0, insurance_bet := 0, insurance_decided := false, insurance_payout := 0 })], last_action := some { user_id := none, action := "table_game_started", at_time := 0, meta := some [("players", MetaValue.num 2), ("round_id", MetaValue.str "r"), ("dealer_upcard", MetaValue.str "KS")] }, action_log := [{ user_id := none, action := "table_game_started", at_time := 0, meta := some [("players", MetaValue.num 2), ("round_id", MetaValue.str "r"), ("dealer_upcard", MetaValue.str "KS")] }], processed_action_ids := [], started_at := 0, updated_at := 0 }

/-- A started two-player round in which p1 is dealt the natural AS KS (and
is marked with hand status blackjack at the deal), p2 holds 9D 7H, the
dealer shows 8H with 9S down; p2 is to act. -/
def natural_state : TableTurnState :=
  { table_id := "t", players := ["p1", "p2"], turn_index := 1, turn_seconds := 30, turn_deadline := 30, round_id := "r", status := "active", hand_number := 1, phase := "player_turns", dealer_cards := ["8H", "9S"], dealer_hidden := true, shoe := [], player_states := [("p1", { user_id := "p1", hands := [{ hand_id := "h", cards := ["AS", "KS"], bet := 10, status := "blackjack", result := none, payout := none, is_split_hand := false, doubled_down := false }], active_hand_index := 1, completed := true, base_bet := 10, bankroll_at_start := 50, committed_bet := 10, total_payout := 0, insurance_bet := 0, insurance_decided := false, insurance_payout := 0 }), ("p2", { user_id := "p2", hands := [{ hand_id := "h", cards := ["9D", "7H"], bet := 10, status := "active", result := none, payout := none, is_split_hand := false, doubled_down := false }], active_hand_index := 0, completed := false, base_bet := 10, bankroll_at_start := 50, committed_bet := 10, total_payout := 0, insurance_bet := 0, insurance_decided := false, insurance_payout := 0 })], last_action := some { user_id := none, action := "table_game_started", at_time := 0, meta := some [("players", MetaValue.num 2), ("round_id", MetaValue.str "r"), ("dealer_upcard", MetaValue.str "8H")] }, action_log := [{ user_id := none, action := "table_game_started", at_time := 0, meta := some [("players", MetaValue.num 2), ("round_id", MetaValue.str "r"), ("dealer_upcard", MetaValue.str "8H")] }], processed_action_ids := [], started_at := 0, updated_at := 0 }

/-- started_state after p1 stands (no action-id): the turn is p2's. -/
def after_stand_state : TableTurnState :=
  { table_id := "t", players := ["p1", "p2"], turn_index := 1, turn_seconds := 30, turn_deadline := 31, round_id := "r", status := "active", hand_number := 1, phase := "player_turns", dealer_cards := ["KS", "2D"], dealer_hidden := true, shoe := ["2C"], player_states := [("p1", { user_id := "p1", hands := [{ hand_id := "h", cards := ["9S", "8H"], bet := 10, status := "stood", result := none, payout := none, is_split_hand := false, doubled_down := false }], active_hand_index := 1, completed := true, base_bet := 10, bankroll_at_start := 50, committed_bet := 10, total_payout := 0, insurance_bet := 0, insurance_decided := false, insurance_payout := 0 }), ("p2", { user_id := "p2", hands := [{ hand_id := "h", cards := ["7H", "9D"], bet := 10, status := "active", result := none, payout := none, is_split_hand := false, doubled_down := false }], active_hand_index := 0, completed := false, base_bet := 10, bankroll_at_start := 50, committed_bet := 10, total_payout := 0, insurance_bet := 0, insurance_decided := false, insurance_payout := 0 })], last_action := some { user_id := some "p1", action := "stand", at_time := 1, meta := some [("hand_index", MetaValue.num 0), ("hand_id", MetaValue.str "h"), ("timed_out", MetaValue.flag false)] }, action_log := [{ user_id := none, action := "table_game_started", at_time := 0, meta := some [("players", MetaValue.num 2), ("round_id", MetaValue.str "r"), ("dealer_upcard", MetaValue.str "KS")] }, { user_id := some "p1", action := "stand", at_time := 1, meta := some [("hand_index", MetaValue.num 0), ("hand_id", MetaValue.str "h"), ("timed_out", MetaValue.flag false)] }], processed_action_ids := [], started_at := 0, updated_at := 1 }

/-- after_stand_state after p2 also stands: the dealer draws to 18, both
players lose 10, the round is settled and the state is ended. -/
def ended_round_state : TableTurnState :=
  { table_id := "t", players := ["p1", "p2"], turn_index := 1, turn_seconds := 30, turn_deadline := 32, round_id := "r", status := "ended", hand_number := 1, phase := "settled", dealer_cards := ["KS", "2D", "2C", "2C", "2C"], dealer_hidden := false, shoe := [], player_states := [("p1", { user_id := "p1", hands := [{ hand_id := "h", cards := ["9S", "8H"], bet := 10, status := "resolved", result := some "lose", payout := some (-10), is_split_hand := false, doubled_down := false }], active_hand_index := 0, completed := true, base_bet := 10, bankroll_at_start := 50, committed_bet := 10, total_payout := -10, insurance_bet := 0, insurance_decided := false, insurance_payout := 0 }), ("p2", { user_id := "p2", hands := [{ hand_id := "h", cards := ["7H", "9D"], bet := 10, status := "resolved", result := some "lose", payout := some (-10), is_split_hand := false, doubled_down := false }], active_hand_index := 0, completed := true, base_bet := 10, bankroll_at_start := 50, committed_bet := 10, total_payout := -10, insurance_bet := 0, insurance_decided := false, insurance_payout := 0 })], last_action := some { user_id := none, action := "round_settled", at_time := 2, meta := some [("reason", MetaValue.str "all_player_hands_resolved"), ("dealer_score", MetaValue.num 18)] }, action_log := [{ user_id := none, action := "table_game_started", at_time := 0, meta := some [("players", MetaValue.num 2), ("round_id", MetaValue.str "r"), ("dealer_upcard", MetaValue.str "KS")] }, { user_id := some "p1", action := "stand", at_time := 1, meta := some [("hand_index", MetaValue.num 0), ("hand_id", MetaValue.str "h"), ("timed_out", MetaValue.flag false)] }, { user_id := some "p2", action := "stand", at_time := 2, meta := some [("hand_index", MetaValue.num 0), ("hand_id", MetaValue.str "h"), ("timed_out", MetaValue.flag false)] }, { user_id := none, action := "dealer_hit", at_time := 2, meta := some [("dealer_score", MetaValue.num 14)] }, { user_id := none, action := "dealer_hit", at_time := 2, meta := some [("dealer_score", MetaValue.num 16)] }, { user_id := none, action := "dealer_hit", at_time := 2, meta := some [("dealer_score", MetaValue.num 18)] }, { user_id := none, action := "round_settled", at_time := 2, meta := some [("reason", MetaValue.str "all_player_hands_resolved"), ("dealer_score", MetaValue.num 18)] }], processed_action_ids := [], started_at := 0, updated_at := 2 }

/-- started_state after p1 hits under action-id x, drawing 2C for 19: the
hand stays active and the turn stays with p1; x is tracked. -/
def after_hit_state : TableTurnState :=
  { table_id := "t", players := ["p1", "p2"], turn_index := 0, turn_seconds := 30, turn_deadline := 30, round_id := "r", status := "active", hand_number := 1, phase := "player_turns", dealer_cards := ["KS", "2D"], dealer_hidden := true, shoe := [], player_states := [("p1", { user_id := "p1", hands := [{ hand_id := "h", cards := ["9S", "8H", "2C"], bet := 10, status := "active", result := none, payout := none, is_split_hand := false, doubled_down := false }], active_hand_index := 0, completed := false, base_bet := 10, bankroll_at_start := 50, committed_bet := 10, total_payout := 0, insurance_bet := 0, insurance_decided := false, insurance_payout := 0 }), ("p2", { user_id := "p2", hands := [{ hand_id := "h", cards := ["7H", "9D"], bet := 10, status := "active", result := none, payout := none, is_split_hand := false, doubled_down := false }], active_hand_index := 0, completed := false, base_bet := 10, bankroll_at_start := 50, committed_bet := 10, total_payout := 0, insurance_bet := 0, insurance_decided := false, insurance_payout := 0 })], last_action := some { user_id := some "p1", action := "hit", at_time := 0, meta := some [("hand_index", MetaValue.num 0), ("hand_id", MetaValue.str "h"), ("timed_out", MetaValue.flag false), ("score", MetaValue.num 19)] }, action_log := [{ user_id := none, action := "table_game_started", at_time := 0, meta := some [("players", MetaValue.num 2), ("round_id", MetaValue.str "r"), ("dealer_upcard", MetaValue.str "KS")] }, { user_id := some "p1", action := "hit", at_time := 0, meta := some [("hand_index", MetaValue.num 0), ("hand_id", MetaValue.str "h"), ("timed_out", MetaValue.flag false), ("score", MetaValue.num 19)] }], processed_action_ids := [("x", 0)], started_at := 0, updated_at := 0 }

/-- started_state after p1 stands under action-id x: the turn is p2's and x
is tracked. -/
def after_stand_x_state : TableTurnState :=
  { table_id := "t", players := ["p1", "p2"], turn_index := 1, turn_seconds := 30, turn_deadline := 30, round_id := "r", status := "active", hand_number := 1, phase := "player_turns", dealer_cards := ["KS", "2D"], dealer_hidden := true, shoe := ["2C"], player_states := [("p1", { user_id := "p1", hands := [{ hand_id := "h", cards := ["9S", "8H"], bet := 10, status := "stood", result := none, payout := none, is_split_hand := false, doubled_down := false }], active_hand_index := 1, completed := true, base_bet := 10, bankroll_at_start := 50, committed_bet := 10, total_payout := 0, insurance_bet := 0, insurance_decided := false, insurance_payout := 0 }), ("p2", { user_id := "p2", hands := [{ hand_id := "h", cards := ["7H", "9D"], bet := 10, status := "active", result := none, payout := none, is_split_hand := false, doubled_down := false }], active_hand_index := 0, completed := false, base_bet := 10, bankroll_at_start := 50, committed_bet := 10, total_payout := 0, insurance_bet := 0, insurance_decided := false, insurance_payout := 0 })], last_action := some { user_id := some "p1", action := "stand", at_time := 0, meta := some [("hand_index", MetaValue.num 0), ("hand_id", MetaValue.str "h"), ("timed_out", MetaValue.flag false)] }, action_log := [{ user_id := none, action := "table_game_started", at_time := 0, meta := some [("players", MetaValue.num 2), ("round_id", MetaValue.str "r"), ("dealer_upcard", MetaValue.str "KS")] }, { user_id := some "p1", action := "stand", at_time := 0, meta := some [("hand_index", MetaValue.num 0), ("hand_id", MetaValue.str "h"), ("timed_out", MetaValue.flag false)] }], processed_action_ids := [("x", 0)], started_at := 0, updated_at := 0 }

/-- clamp_state after p1 stands: the turn is p2's. -/
def clamp_after_stand_state : TableTurnState :=
  { table_id := "t", players := ["p1", "p2"], turn_index := 1, turn_seconds := 30, turn_deadline := 31, round_id := "r", status := "active", hand_number := 1, phase := "player_turns", dealer_cards := ["KS", "2D"], dealer_hidden := true, shoe := ["6C", "2C"], player_states := [("p1", { user_id := "p1", hands := [{ hand_id := "h", cards := ["9S", "8H"], bet := 10, status := "stood", result := none, payout := none, is_split_hand := false, doubled_down := false }], active_hand_index := 1, completed := true, base_bet := 10, bankroll_at_start := 10, committed_bet := 10, total_payout := 0, insurance_bet := 0, insurance_decided := false, insurance_payout := 0 }), ("p2", { user_id := "p2", hands := [{ hand_id := "h", cards := ["7H", "9D"], bet := 10, status := "active", result := none, payout := none, is_split_hand := false, doubled_down := false }], active_hand_index := 0, completed := false, base_bet := 10, bankroll_at_start := 50, committed_bet := 10, total_payout := 0, insurance_bet := 0, insurance_decided := false, insurance_payout := 0 })], last_action := some { user_id := some "p1", action := "stand", at_time := 1, meta := some [("hand_index", MetaValue.num 0), ("hand_id", MetaValue.str "h"), ("timed_out", MetaValue.flag false)] }, action_log := [{ user_id := none, action := "table_game_started", at_time := 0, meta := some [("players", MetaValue.num 2), ("round_id", MetaValue.str "r"), ("dealer_upcard", MetaValue.str "KS")] }, { user_id := some "p1", action := "stand", at_time := 1, meta := some [("hand_index", MetaValue.num 0), ("hand_id", MetaValue.str "h"), ("timed_out", MetaValue.flag false)] }], processed_action_ids := [], started_at := 0, updated_at := 1 }

/-- clamp_after_stand_state after p2 also stands: the dealer draws to 20,
both players lose 10, and settlement clamps p1's stored balance at zero. -/
def clamp_end_state : TableTurnState :=
  { table_id := "t", players := ["p1", "p2"], turn_index := 1, turn_seconds := 30, turn_deadline := 32, round_id := "r", status := "ended", hand_number := 1, phase := "settled", dealer_cards := ["KS", "2D", "2C", "6C"], dealer_hidden := false, shoe := [], player_states := [("p1", { user_id := "p1", hands := [{ hand_id := "h", cards := ["9S", "8H"], bet := 10, status := "resolved", result := some "lose", payout := some (-10), is_split_hand := false, doubled_down := false }], active_hand_index := 0, completed := true, base_bet := 10, bankroll_at_start := 10, committed_bet := 10, total_payout := -10, insurance_bet := 0, insurance_decided := false, insurance_payout := 0 }), ("p2", { user_id := "p2", hands := [{ hand_id := "h", cards := ["7H", "9D"], bet := 10, status := "resolved", result := some "lose", payout := some (-10), is_split_hand := false, doubled_down := false }], active_hand_index := 0, completed := true, base_bet := 10, bankroll_at_start := 50, committed_bet := 10, total_payout := -10, insurance_bet := 0, insurance_decided := false, insurance_payout := 0 })], last_action := some { user_id := none, action := "round_settled", at_time := 2, meta := some [("reason", MetaValue.str "all_player_hands_resolved"), ("dealer_score", MetaValue.num 20)] }, action_log := [{ user_id := none, action := "table_game_started", at_time := 0, meta := some [("players", MetaValue.num 2), ("round_id", MetaValue.str "r"), ("dealer_upcard", MetaValue.str "KS")] }, { user_id := some "p1", action := "stand", at_time := 1, meta := some [("hand_index", MetaValue.num 0), ("hand_id", MetaValue.str "h"), ("timed_out", MetaValue.flag false)] }, { user_id := some "p2", action := "stand", at_time := 2, meta := some [("hand_index", MetaValue.num 0), ("hand_id", MetaValue.str "h"), ("timed_out", MetaValue.flag false)] }, { user_id := none, action := "dealer_hit", at_time := 2, meta := some [("dealer_score", MetaValue.num 14)] }, { user_id := none, action := "dealer_hit", at_time := 2, meta := some [("dealer_score", MetaValue.num 20)] }, { user_id := none, action := "round_settled", at_time := 2, meta := some [("reason", MetaValue.str "all_player_hands_resolved"), ("dealer_score", MetaValue.num 20)] }], processed_action_ids := [], started_at := 0, updated_at := 2 }

/-! ## Association-list lemmas -/

theorem alist_lookup_set_self {α : Type} (m : List (String × α)) (k : String) (v : α) :
    alist_lookup (alist_set m k v) k = some v := by
  induction m with
  | nil => simp [alist_set, alist_lookup]
  | cons p rest ih =>
    by_cases h : p.1 = k
    · simp [alist_set, alist_lookup, h]
    · simp [alist_set, alist_lookup, h, ih]

theorem alist_lookup_set_ne {α : Type} (m : List (String × α)) (k key : String) (v : α)
    (h : k ≠ key) : alist_lookup (alist_set m k v) key = alist_lookup m key := by
  induction m with
  | nil => simp [alist_set, alist_lookup, h]
  | cons p rest ih =>
    by_cases hp : p.1 = k
    · simp [alist_set, alist_lookup, hp, h]
    · simp only [alist_set, alist_lookup, hp, if_false]
      by_cases hq : p.1 = key <;> simp [hq, ih]

theorem alist_set_lookup_eq {α : Type} (m : List (String × α)) (k : String) (v : α)
    (h : alist_lookup m k = some v) : alist_set m k v = m := by
  induction m with
  | nil => simp [alist_lookup] at h
  | cons p rest ih =>
    by_cases hp : p.1 = k
    · simp only [alist_lookup, hp, if_pos, Option.some.injEq] at h
      cases p
      simp_all [alist_set]
    · simp only [alist_lookup, hp, if_false] at h
      simp [alist_set, hp, ih h]

theorem alist_mem_set {α : Type} (m : List (String × α)) (k : String) (v : α)
    (p : String × α) (hp : p ∈ alist_set m k v) : p.2 = v ∨ p ∈ m := by
  induction m with
  | nil =>
    simp only [alist_set, List.mem_singleton] at hp
    left
    rw [hp]
  | cons q rest ih =>
    by_cases hq : q.1 = k
    · simp only [alist_set, hq, if_pos, List.mem_cons] at hp
      rcases hp with hp | hp
      · left; rw [hp]
      · right; exact List.mem_cons_of_mem q hp
    · simp only [alist_set, hq, if_false, List.mem_cons] at hp
      rcases hp with hp | hp
      · right; rw [hp]; exact List.mem_cons_self q rest
      · rcases ih hp with h | h
        · left; exact h
        · right; exact List.mem_cons_of_mem q h

theorem alist_lookup_mem {α : Type} (m : List (String × α)) (k : String) (v : α)
    (h : alist_lookup m k = some v) : (k, v) ∈ m := by
  induction m with
  | nil => simp [alist_lookup] at h
  | cons p rest ih =>
    by_cases hp : p.1 = k
    · simp only [alist_lookup, hp, if_pos, Option.some.injEq] at h
      subst h
      have : p = (k, p.2) := by
        cases p
        simp_all
      rw [← this]
      exact List.mem_cons_self p rest
    · simp only [alist_lookup, hp, if_false] at h
      exact List.mem_cons_of_mem p (ih h)

/-- Mapping a per-player view over alist_set when the new value agrees with
the stored one on that view. -/
theorem alist_set_map_view {α β : Type} (view : α → β) (m : List (String × α))
    (k : String) (v v0 : α) (hl : alist_lookup m k = some v0) (hv : view v = view v0) :
    (alist_set m k v).map (fun p => (p.1, view p.2)) = m.map (fun p => (p.1, view p.2)) := by
  induction m with
  | nil => simp [alist_lookup] at hl
  | cons p rest ih =>
    by_cases hp : p.1 = k
    · simp only [alist_lookup, hp, if_pos, Option.some.injEq] at hl
      subst hl
      simp [alist_set, hp, hv]
    · simp only [alist_lookup, hp, if_false] at hl
      simp [alist_set, hp, ih hl]

/-! ## Preservation lemmas for the engine operations -/

/-- The money-relevant fields of a player state: committed bet, bankroll
snapshot, base bet. -/
def money_view (ps : TablePlayerState) : ℚ × ℚ × ℚ :=
  (ps.committed_bet, ps.bankroll_at_start, ps.base_bet)

abbrev player_money_map (st : TableTurnState) : List (String × (ℚ × ℚ × ℚ)) :=
  st.player_states.map fun p => (p.1, money_view p.2)

def hands_view (ps : TablePlayerState) : List TableHandState := ps.hands

abbrev player_hands_map (st : TableTurnState) : List (String × List TableHandState) :=
  st.player_states.map fun p => (p.1, hands_view p.2)

/-- The wager data of a player state: the base bet and the per-hand bets, in
hand order. -/
def bets_view (ps : TablePlayerState) : ℚ × List ℚ :=
  (ps.base_bet, ps.hands.map fun h => h.bet)

abbrev player_bets_map (st : TableTurnState) : List (String × (ℚ × List ℚ)) :=
  st.player_states.map fun p => (p.1, bets_view p.2)

theorem record_turn_action_player_states (now : ℚ) (st : TableTurnState) (a : String)
    (u : Option String) (m : Option Metadata) :
    (record_turn_action now st a u m).player_states = st.player_states := rfl

theorem record_turn_action_processed (now : ℚ) (st : TableTurnState) (a : String)
    (u : Option String) (m : Option Metadata) :
    (record_turn_action now st a u m).processed_action_ids = st.processed_action_ids := rfl

theorem draw_table_card_player_states (freshDeck : List String) (st : TableTurnState) :
    (draw_table_card freshDeck st).2.player_states = st.player_states := rfl

theorem draw_table_card_processed (freshDeck : List String) (st : TableTurnState) :
    (draw_table_card freshDeck st).2.processed_action_ids = st.processed_action_ids := rfl

/-- position_loop only repositions (turn index, deadline, per-player active
hand index / completed flags): the money view, the hands, the idempotency
set and the round phase data are untouched. -/
theorem position_loop_preserves (now : ℚ) (fuel : ℕ) :
    ∀ st : TableTurnState,
      player_money_map (position_loop now fuel st).2 = player_money_map st ∧
      player_hands_map (position_loop now fuel st).2 = player_hands_map st ∧
      (position_loop now fuel st).2.processed_action_ids = st.processed_action_ids ∧
      (position_loop now fuel st).2.status = st.status ∧
      (position_loop now fuel st).2.phase = st.phase ∧
      (position_loop now fuel st).2.shoe = st.shoe ∧
      (position_loop now fuel st).2.dealer_cards = st.dealer_cards ∧
      (position_loop now fuel st).2.turn_seconds = st.turn_seconds ∧
      (position_loop now fuel st).2.players = st.players := by
  induction fuel with
  | zero => intro st; simp [position_loop]
  | succ n ih =>
    intro st
    simp only [position_loop]
    split
    · exact ih _
    · rename_i ps hl
      split
      · refine ⟨?_, ?_, rfl, rfl, rfl, rfl, rfl, rfl, rfl⟩
        · exact alist_set_map_view money_view st.player_states _
            { ps with
              active_hand_index := advance_past_finished_hands ps.hands ps.active_hand_index
              completed := false } ps hl rfl
        · exact alist_set_map_view hands_view st.player_states _
            { ps with
              active_hand_index := advance_past_finished_hands ps.hands ps.active_hand_index
              completed := false } ps hl rfl
      · have hih := ih { st with
          player_states := alist_set st.player_states (st.players.getD st.turn_index "")
            { ps with
              active_hand_index := advance_past_finished_hands ps.hands ps.active_hand_index
              completed := true }
          turn_index := (st.turn_index + 1) % st.players.length }
        refine ⟨?_, ?_, hih.2.2.1, hih.2.2.2.1, hih.2.2.2.2.1, hih.2.2.2.2.2.1,
          hih.2.2.2.2.2.2.1, hih.2.2.2.2.2.2.2.1, hih.2.2.2.2.2.2.2.2⟩
        · rw [hih.1]
          exact alist_set_map_view money_view st.player_states _
            { ps with
              active_hand_index := advance_past_finished_hands ps.hands ps.active_hand_index
              completed := true } ps hl rfl
        · rw [hih.2.1]
          exact alist_set_map_view hands_view st.player_states _
            { ps with
              active_hand_index := advance_past_finished_hands ps.hands ps.active_hand_index
              completed := true } ps hl rfl

theorem position_preserves (now : ℚ) (st : TableTurnState) :
    player_money_map (position_to_next_playable_turn now st).2 = player_money_map st ∧
    player_hands_map (position_to_next_playable_turn now st).2 = player_hands_map st ∧
    (position_to_next_playable_turn now st).2.processed_action_ids = st.processed_action_ids ∧
    (position_to_next_playable_turn now st).2.status = st.status ∧
    (position_to_next_playable_turn now st).2.phase = st.phase ∧
    (position_to_next_playable_turn now st).2.turn_seconds = st.turn_seconds ∧
    (position_to_next_playable_turn now st).2.players = st.players := by
  unfold position_to_next_playable_turn
  split
  · exact ⟨rfl, rfl, rfl, rfl, rfl, rfl, rfl⟩
  · split
    · have h := position_loop_preserves now
        ({ st with turn_index := 0 } : TableTurnState).players.length { st with turn_index := 0 }
      exact ⟨h.1, h.2.1, h.2.2.1, h.2.2.2.1, h.2.2.2.2.1, h.2.2.2.2.2.2.2.1,
        h.2.2.2.2.2.2.2.2⟩
    · have h := position_loop_preserves now st.players.length st
      exact ⟨h.1, h.2.1, h.2.2.1, h.2.2.2.1, h.2.2.2.2.1, h.2.2.2.2.2.2.2.1,
        h.2.2.2.2.2.2.2.2⟩

theorem dealer_draw_loop_preserves (freshDeck : List String) (now : ℚ) (fuel : ℕ) :
    ∀ st : TableTurnState,
      (dealer_draw_loop freshDeck now fuel st).player_states = st.player_states ∧
      (dealer_draw_loop freshDeck now fuel st).processed_action_ids = st.processed_action_ids ∧
      (dealer_draw_loop freshDeck now fuel st).turn_seconds = st.turn_seconds ∧
      (dealer_draw_loop freshDeck now fuel st).status = st.status ∧
      (dealer_draw_loop freshDeck now fuel st).phase = st.phase ∧
      (dealer_draw_loop freshDeck now fuel st).turn_deadline = st.turn_deadline := by
  induction fuel with
  | zero => intro st; simp [dealer_draw_loop]
  | succ n ih =>
    intro st
    simp only [dealer_draw_loop]
    split
    · exact ih _
    · exact ⟨rfl, rfl, rfl, rfl, rfl, rfl⟩

theorem money_view_settle_player (d : ℕ) (b : Bool) (ps : TablePlayerState) :
    money_view (settle_player d b ps) = money_view ps := rfl

/-- Settlement never changes committed bets, bankroll snapshots or base
bets. -/
theorem settle_table_round_money (freshDeck : List String) (dealerFuel : ℕ) (now : ℚ)
    (balances : List (String × ℚ)) (st : TableTurnState) (reason : String) :
    player_money_map (settle_table_round freshDeck dealerFuel now balances st reason).1 =
      player_money_map st ∧
    (settle_table_round freshDeck dealerFuel now balances st reason).1.processed_action_ids =
      st.processed_action_ids := by
  unfold settle_table_round
  split
  · exact ⟨rfl, rfl⟩
  · simp only [player_money_map, record_turn_action_player_states,
      record_turn_action_processed]
    constructor
    · split
      · have h := dealer_draw_loop_preserves freshDeck now dealerFuel
          { st with phase := "dealer_turn", dealer_hidden := false }
        rw [List.map_map, h.1]
        rfl
      · rw [List.map_map]
        rfl
    · split
      · have h := dealer_draw_loop_preserves freshDeck now dealerFuel
          { st with phase := "dealer_turn", dealer_hidden := false }
        exact h.2.1
      · rfl

theorem apply_action_step_state (freshDeck : List String) (new_hand_id : String)
    (st : TableTurnState) (hand : TableHandState) (ps1 : TablePlayerState)
    (hand_index : ℕ) (meta1 : Metadata) (action : String) :
    (apply_action_step freshDeck new_hand_id st hand ps1 hand_index meta1 action).2.1.player_states
        = st.player_states ∧
    (apply_action_step freshDeck new_hand_id st hand ps1 hand_index meta1
        action).2.1.processed_action_ids = st.processed_action_ids ∧
    (apply_action_step freshDeck new_hand_id st hand ps1 hand_index meta1 action).2.1.status
        = st.status ∧
    (apply_action_step freshDeck new_hand_id st hand ps1 hand_index meta1 action).2.1.phase
        = st.phase ∧
    (apply_action_step freshDeck new_hand_id st hand ps1 hand_index meta1 action).2.1.turn_seconds
        = st.turn_seconds ∧
    (apply_action_step freshDeck new_hand_id st hand ps1 hand_index meta1 action).2.1.players
        = st.players := by
  unfold apply_action_step
  dsimp only
  repeat' split
  all_goals exact ⟨rfl, rfl, rfl, rfl, rfl, rfl⟩

theorem apply_action_step_player_money (freshDeck : List String) (new_hand_id : String)
    (st : TableTurnState) (hand : TableHandState) (ps1 : TablePlayerState)
    (hand_index : ℕ) (meta1 : Metadata) (action : String) :
    (apply_action_step freshDeck new_hand_id st hand ps1 hand_index meta1
        action).1.bankroll_at_start = ps1.bankroll_at_start ∧
    (apply_action_step freshDeck new_hand_id st hand ps1 hand_index meta1 action).1.base_bet
        = ps1.base_bet := by
  unfold apply_action_step
  dsimp only
  repeat' split
  all_goals exact ⟨rfl, rfl⟩

/-- Transport of position_preserves through a destructured result. -/
theorem position_snd_eq (now : ℚ) (st : TableTurnState) (b : Bool) (st2 : TableTurnState)
    (heq : position_to_next_playable_turn now st = (b, st2)) :
    player_money_map st2 = player_money_map st ∧
    player_hands_map st2 = player_hands_map st ∧
    st2.processed_action_ids = st.processed_action_ids ∧
    st2.status = st.status ∧ st2.phase = st.phase ∧
    st2.turn_seconds = st.turn_seconds ∧ st2.players = st.players := by
  have h := position_preserves now st
  rw [heq] at h
  exact h

/-- A rejected action leaves the state and the balances exactly as given and
reports round_finished = false. -/
theorem apply_table_action_error (freshDeck : List String) (dealerFuel : ℕ) (now : ℚ)
    (new_hand_id : String) (balances : List (String × ℚ)) (st : TableTurnState)
    (user_id : String) (action : String) (timed_out : Bool)
    (h : (apply_table_action freshDeck dealerFuel now new_hand_id balances st user_id action
      timed_out).2.1 ≠ none) :
    (apply_table_action freshDeck dealerFuel now new_hand_id balances st user_id action
        timed_out).2.2.1 = st ∧
    (apply_table_action freshDeck dealerFuel now new_hand_id balances st user_id action
        timed_out).2.2.2 = balances ∧
    (apply_table_action freshDeck dealerFuel now new_hand_id balances st user_id action
        timed_out).1 = false := by
  revert h
  unfold apply_table_action
  dsimp only
  repeat' split
  all_goals intro h
  all_goals first
    | exact ⟨rfl, rfl, rfl⟩
    | (exfalso; exact h rfl)

/-- Applying an action never touches the processed idempotency ids. -/
theorem apply_table_action_processed (freshDeck : List String) (dealerFuel : ℕ) (now : ℚ)
    (new_hand_id : String) (balances : List (String × ℚ)) (st : TableTurnState)
    (user_id : String) (action : String) (timed_out : Bool) :
    (apply_table_action freshDeck dealerFuel now new_hand_id balances st user_id action
      timed_out).2.2.1.processed_action_ids = st.processed_action_ids := by
  unfold apply_table_action
  dsimp only
  repeat' split
  all_goals try rfl
  · rename_i stN heq
    have h1 := (position_snd_eq now _ _ _ heq).2.2.1
    rw [h1]
    exact (apply_action_step_state _ _ _ _ _ _ _ _).2.1
  · rename_i stN heq
    rw [(settle_table_round_money freshDeck dealerFuel now balances _ _).2]
    have h1 := (position_snd_eq now _ _ _ heq).2.2.1
    rw [h1]
    exact (apply_action_step_state _ _ _ _ _ _ _ _).2.1

theorem alist_lookup_append_of_none {α : Type} (l m : List (String × α)) (k : String)
    (h : alist_lookup l k = none) : alist_lookup (l ++ m) k = alist_lookup m k := by
  induction l with
  | nil => simp
  | cons p rest ih =>
    by_cases hp : p.1 = k
    · simp [alist_lookup, hp] at h
    · simp only [alist_lookup, hp, if_false] at h
      simp only [List.cons_append, alist_lookup, hp, if_false]
      exact ih h

theorem alist_lookup_append_self {α : Type} (l : List (String × α)) (k : String) (v : α)
    (h : alist_lookup l k = none) : alist_lookup (l ++ [(k, v)]) k = some v := by
  rw [alist_lookup_append_of_none l _ k h]
  simp [alist_lookup]

/-- The state with its idempotency bookkeeping blanked: two states equal
under this view differ at most in their processed action-id sets. -/
def erase_action_ids (st : TableTurnState) : TableTurnState :=
  { st with processed_action_ids := [] }

theorem track_turn_action_id_erase (now : ℚ) (st : TableTurnState)
    (aid : Option String) :
    erase_action_ids (track_turn_action_id now st aid).2 = erase_action_ids st := by
  unfold track_turn_action_id
  dsimp only
  repeat' split
  all_goals rfl

theorem track_turn_action_id_none (now : ℚ) (st : TableTurnState) :
    track_turn_action_id now st none = (false, st) := rfl

/-- A fresh, nonempty, already-stripped id is recorded by tracking. -/
theorem track_turn_action_id_records (now : ℚ) (st : TableTurnState) (a : String)
    (hstr : py_strip a = a) (hne : a ≠ "")
    (hfresh : (track_turn_action_id now st (some a)).1 = false) :
    (alist_lookup (track_turn_action_id now st (some a)).2.processed_action_ids a).isSome
      = true := by
  unfold track_turn_action_id at hfresh ⊢
  dsimp only at hfresh ⊢
  rw [hstr] at hfresh ⊢
  rw [if_neg hne] at hfresh ⊢
  by_cases hl : (alist_lookup st.processed_action_ids a).isSome
  · rw [if_pos hl] at hfresh
    simp at hfresh
  · rw [if_neg hl] at hfresh ⊢
    have hnone : alist_lookup st.processed_action_ids a = none := by
      cases h : alist_lookup st.processed_action_ids a
      · rfl
      · rw [h] at hl; simp at hl
    by_cases hlen :
        (st.processed_action_ids ++ [(a, now)]).length > MAX_ACTION_IDS_PER_TABLE
    · simp only [hlen, if_pos]
      cases hpl : st.processed_action_ids with
      | nil =>
        rw [hpl] at hlen
        simp [MAX_ACTION_IDS_PER_TABLE] at hlen
      | cons p rest =>
        rw [hpl] at hnone
        by_cases hp : p.1 = a
        · simp [alist_lookup, hp] at hnone
        · simp only [alist_lookup, hp, if_false] at hnone
          simp only [List.cons_append, List.drop_succ_cons, List.drop_zero]
          rw [alist_lookup_append_self rest a now hnone]
          rfl
    · simp only [hlen, if_false]
      rw [alist_lookup_append_self _ a (_ : ℚ) hnone]
      rfl

/-- A nonempty stripped id that is already in the processed set makes
tracking report a duplicate and leave the state untouched. -/
theorem track_turn_action_id_duplicate (now : ℚ) (st : TableTurnState) (a : String)
    (hstr : py_strip a = a) (hne : a ≠ "")
    (hmem : (alist_lookup st.processed_action_ids a).isSome = true) :
    track_turn_action_id now st (some a) = (true, st) := by
  unfold track_turn_action_id
  dsimp only
  rw [hstr, if_neg hne, if_pos hmem]

/-- A rejected turn action broadcasts nothing, changes no balances, and
leaves every table state unchanged except that a post-tracking rejection may
have recorded the submitted action-id; with no action-id supplied the
table-state map is exactly unchanged. -/
theorem take_turn_action_rejected (freshDeck : List String) (dealerFuel : ℕ) (now : ℚ)
    (new_hand_id : String) (tables : List (String × TableTurnState))
    (balances : List (String × ℚ)) (table_id user_id action_raw action_id_raw : String)
    (e : String)
    (h : (take_turn_action freshDeck dealerFuel now new_hand_id tables balances table_id
      user_id action_raw action_id_raw).1 = TurnReply.err e) :
    (take_turn_action freshDeck dealerFuel now new_hand_id tables balances table_id
        user_id action_raw action_id_raw).2.2.2 = [] ∧
    (take_turn_action freshDeck dealerFuel now new_hand_id tables balances table_id
        user_id action_raw action_id_raw).2.2.1 = balances ∧
    (∀ k, (alist_lookup (take_turn_action freshDeck dealerFuel now new_hand_id tables balances
          table_id user_id action_raw action_id_raw).2.1 k).map erase_action_ids
        = (alist_lookup tables k).map erase_action_ids) ∧
    (py_strip action_id_raw = "" →
      (take_turn_action freshDeck dealerFuel now new_hand_id tables balances table_id
        user_id action_raw action_id_raw).2.1 = tables) := by
  revert h
  unfold take_turn_action
  dsimp only
  repeat' split
  all_goals intro h
  all_goals first
    | exact ⟨rfl, rfl, fun k => rfl, fun _ => rfl⟩
    | (exfalso; cases h; done)
    | (rename_i x1 st hlook c1 c2 c3 c4 c5 c6 x2 e2 heq
       have happ := apply_table_action_error freshDeck dealerFuel now new_hand_id
         balances _ user_id _ false (by rw [heq]; simp)
       refine ⟨rfl, happ.2.1, ?_, ?_⟩
       · intro k
         dsimp only
         by_cases hk : table_id = k
         · subst hk
           rw [alist_lookup_set_self, hlook, happ.1]
           exact congrArg some (track_turn_action_id_erase now _ _)
         · rw [alist_lookup_set_ne _ _ _ _ hk]
       · intro hempty
         dsimp only
         first
           | exact absurd hempty (by assumption)
           | (rw [happ.1]
              exact alist_set_lookup_eq tables table_id st hlook))

/-- Inversion of a successfully applied turn action: the table map holds the
new state under the table id, and a nonempty (stripped) action-id has been
recorded in the new state's idempotency set. -/
theorem take_turn_okApplied_inv (freshDeck : List String) (dealerFuel : ℕ) (now : ℚ)
    (new_hand_id : String) (tables : List (String × TableTurnState))
    (balances : List (String × ℚ)) (table_id user_id action_raw action_id_raw : String)
    (s1 : TableTurnState) (tabs1 : List (String × TableTurnState))
    (bal1 : List (String × ℚ)) (evs1 : List SocketEvent)
    (hstr : py_strip action_id_raw = action_id_raw)
    (h : take_turn_action freshDeck dealerFuel now new_hand_id tables balances table_id
      user_id action_raw action_id_raw = (.okApplied s1, tabs1, bal1, evs1)) :
    tabs1 = alist_set tables table_id s1 ∧
    (action_id_raw ≠ "" →
      (alist_lookup s1.processed_action_ids action_id_raw).isSome = true) := by
  revert h
  unfold take_turn_action
  dsimp only
  rw [hstr]
  repeat' split
  all_goals intro h
  all_goals try (apply absurd (congrArg Prod.fst h); simp; done)
  all_goals simp only [Prod.mk.injEq, TurnReply.okApplied.injEq] at h
  all_goals obtain ⟨hs1, htabs, hbal, hevs⟩ := h
  all_goals subst hs1
  all_goals refine ⟨htabs.symm, fun hne => ?_⟩
  all_goals first
    | exact absurd (by assumption : action_id_raw = "") hne
    | (rw [apply_table_action_processed]
       exact track_turn_action_id_records now _ action_id_raw hstr hne
         (Bool.eq_false_iff.mpr (by assumption)))

/-- A resubmission whose (stripped) action-id is already in the table's
idempotency set is answered as a no-op duplicate success returning the
current state, provided the round is still active and the caller is still
the current-turn player: nothing is mutated, nothing is broadcast. -/
theorem take_turn_duplicate_noop (freshDeck : List String) (dealerFuel : ℕ) (now : ℚ)
    (new_hand_id : String) (tables : List (String × TableTurnState))
    (balances : List (String × ℚ)) (table_id user_id action_raw action_id_raw : String)
    (st : TableTurnState)
    (hlook : alist_lookup tables table_id = some st)
    (hstatus : st.status = "active") (hphase : st.phase = "player_turns")
    (hturn : some user_id = current_turn_user_id st)
    (haction : py_lower (py_strip action_raw)
      ∈ ["hit", "stand", "double_down", "split", "surrender", "insurance"])
    (hstr : py_strip action_id_raw = action_id_raw) (hne : action_id_raw ≠ "")
    (hvalid : is_valid_action_id (some action_id_raw) = true)
    (hmem : (alist_lookup st.processed_action_ids action_id_raw).isSome = true) :
    take_turn_action freshDeck dealerFuel now new_hand_id tables balances table_id user_id
      action_raw action_id_raw = (.okDuplicate st, tables, balances, []) := by
  unfold take_turn_action
  dsimp only
  rw [hlook]
  dsimp only
  rw [if_neg (by simp [hstatus, hphase])]
  rw [if_neg (fun hc => hc hturn)]
  rw [if_neg (fun hc => hc haction)]
  rw [hstr]
  rw [if_neg hne]
  rw [if_neg (by simp [hvalid])]
  rw [track_turn_action_id_duplicate now st action_id_raw hstr hne hmem]
  dsimp only
  rw [if_pos rfl]
  rw [alist_set_lookup_eq tables table_id st hlook]

/-! ## Committed-bet invariant (claim C4 apparatus) -/

theorem can_double_down_bound {ps : TablePlayerState} {hand : TableHandState}
    (h : can_double_down ps hand = true) :
    round2 (ps.committed_bet + hand.bet) ≤ round2 (ps.bankroll_at_start + 1 / 1000000000) := by
  unfold can_double_down at h
  repeat' split at h
  all_goals simp_all

theorem can_split_hand_bound {ps : TablePlayerState} {hand : TableHandState}
    (h : can_split_hand ps hand = true) :
    round2 (ps.committed_bet + hand.bet) ≤ round2 (ps.bankroll_at_start + 1 / 1000000000) := by
  unfold can_split_hand at h
  repeat' split at h
  all_goals simp_all

theorem can_take_insurance_bound {st : TableTurnState} {ps : TablePlayerState}
    {hand : TableHandState} (h : can_take_insurance st ps hand = true) :
    round2 (ps.committed_bet + insurance_bet_amount ps)
      ≤ round2 (ps.bankroll_at_start + 1 / 1000000000) := by
  unfold can_take_insurance at h
  repeat' split at h
  all_goals simp_all

theorem mem_available_insurance {st : TableTurnState} {ps : TablePlayerState}
    {hand : TableHandState} (hps : current_turn_player_state st = some ps)
    (hhand : current_turn_hand st = some hand)
    (h : "insurance" ∈ available_actions_for_current_turn st) :
    can_take_insurance st ps hand = true := by
  unfold available_actions_for_current_turn at h
  rw [hps, hhand] at h
  by_cases hins : can_take_insurance st ps hand = true
  · exact hins
  · exfalso
    repeat' split at h
    all_goals simp_all

theorem mem_available_double_down {st : TableTurnState} {ps : TablePlayerState}
    {hand : TableHandState} (hps : current_turn_player_state st = some ps)
    (hhand : current_turn_hand st = some hand)
    (h : "double_down" ∈ available_actions_for_current_turn st) :
    can_double_down ps hand = true := by
  unfold available_actions_for_current_turn at h
  rw [hps, hhand] at h
  by_cases hdd : can_double_down ps hand = true
  · exact hdd
  · exfalso
    repeat' split at h
    all_goals simp_all

theorem mem_available_split {st : TableTurnState} {ps : TablePlayerState}
    {hand : TableHandState} (hps : current_turn_player_state st = some ps)
    (hhand : current_turn_hand st = some hand)
    (h : "split" ∈ available_actions_for_current_turn st) :
    can_split_hand ps hand = true := by
  unfold available_actions_for_current_turn at h
  rw [hps, hhand] at h
  by_cases hsp : can_split_hand ps hand = true
  · exact hsp
  · exfalso
    repeat' split at h
    all_goals simp_all

theorem current_player_lookup {st : TableTurnState} {user_id : String}
    {ps : TablePlayerState} (hcur : current_turn_user_id st = some user_id)
    (hps : current_turn_player_state st = some ps) :
    alist_lookup st.player_states user_id = some ps := by
  unfold current_turn_player_state at hps
  rw [hcur] at hps
  exact hps

/-- The invariant of claim C4: every seated player's committed bet is bounded
by their bankroll snapshot (which is a two-decimal amount). -/
def bet_inv (st : TableTurnState) : Prop :=
  ∀ p ∈ st.player_states,
    p.2.committed_bet ≤ p.2.bankroll_at_start ∧ TwoDec p.2.bankroll_at_start

theorem bet_inv_of_money_map {a b : TableTurnState}
    (h : player_money_map a = player_money_map b) (hb : bet_inv b) : bet_inv a := by
  intro p hp
  have hm : (p.1, money_view p.2) ∈ player_money_map a :=
    List.mem_map_of_mem _ hp
  rw [h] at hm
  obtain ⟨q, hq, hqe⟩ := List.mem_map.mp hm
  have h2 := hb q hq
  have hv : money_view q.2 = money_view p.2 := congrArg Prod.snd hqe
  unfold money_view at hv
  simp only [Prod.mk.injEq] at hv
  obtain ⟨hc, hbk, _⟩ := hv
  rw [← hc, ← hbk]
  exact h2

theorem ite_insurance_decided_money (c : Prop) [Decidable c] (ps : TablePlayerState) :
    money_view (if c then { ps with insurance_decided := true } else ps) = money_view ps := by
  split <;> rfl

/-- The committed bet after a non-insurance action step: unchanged, except
that double_down and split commit one extra unit of the hand's bet. -/
theorem apply_action_step_committed (freshDeck : List String) (new_hand_id : String)
    (st : TableTurnState) (hand : TableHandState) (ps1 : TablePlayerState)
    (hand_index : ℕ) (meta1 : Metadata) (action : String) :
    (apply_action_step freshDeck new_hand_id st hand ps1 hand_index meta1
        action).1.committed_bet = ps1.committed_bet ∨
    ((apply_action_step freshDeck new_hand_id st hand ps1 hand_index meta1
        action).1.committed_bet = round2 (ps1.committed_bet + hand.bet) ∧
      (action = "double_down" ∨ action = "split")) := by
  unfold apply_action_step
  dsimp only
  repeat' split
  all_goals first
    | exact Or.inl rfl
    | exact Or.inr ⟨rfl, Or.inl (by assumption)⟩
    | exact Or.inr ⟨rfl, Or.inr (by assumption)⟩

/-- C4 preservation: if every player's committed bet is within their bankroll
snapshot, this still holds after any attempt to apply a table action; the
bound is enforced by the legality checks before double_down, split, and
insurance mutate the committed bet. -/
theorem apply_table_action_bet_inv (freshDeck : List String) (dealerFuel : ℕ) (now : ℚ)
    (new_hand_id : String) (balances : List (String × ℚ)) (st : TableTurnState)
    (user_id : String) (action : String) (timed_out : Bool)
    (hinv : bet_inv st) :
    bet_inv (apply_table_action freshDeck dealerFuel now new_hand_id balances st user_id
      action timed_out).2.2.1 := by
  unfold apply_table_action
  dsimp only
  split
  · exact hinv
  · split
    · exact hinv
    · rename_i hturn
      split
      · rename_i ps hand hps hhand
        split
        · exact hinv
        · split
          · exact hinv
          · rename_i hallow
            have hcur : current_turn_user_id st = some user_id := (not_not.mp hturn).symm
            have hlk : alist_lookup st.player_states user_id = some ps :=
              current_player_lookup hcur hps
            have hmemst : (user_id, ps) ∈ st.player_states := alist_lookup_mem _ _ _ hlk
            have hpsinv := hinv (user_id, ps) hmemst
            have hallow2 : action ∈ available_actions_for_current_turn st := not_not.mp hallow
            split
            · rename_i hinsact
              subst hinsact
              intro p hp
              rcases alist_mem_set st.player_states user_id _ p hp with hv | hold
              · rw [hv]
                have hins := mem_available_insurance hps hhand hallow2
                have hbound := can_take_insurance_bound hins
                rw [if_neg (by simp)]
                refine ⟨?_, hpsinv.2⟩
                calc round2 (ps.committed_bet + insurance_bet_amount ps)
                    ≤ round2 (ps.bankroll_at_start + 1 / 1000000000) := hbound
                  _ = ps.bankroll_at_start := round2_eps hpsinv.2
              · exact hinv p hold
            · rename_i hnotins
              set ps1v := (if action ≠ "insurance" ∧ can_take_insurance st ps hand = true
                then { ps with insurance_decided := true } else ps) with hps1def
              set meta1v := (if action ≠ "insurance" ∧ can_take_insurance st ps hand = true
                then
                  [("hand_index", MetaValue.num (ps.active_hand_index : ℚ)),
                   ("hand_id", MetaValue.str hand.hand_id),
                   ("timed_out", MetaValue.flag timed_out)]
                    ++ [("insurance_auto_declined", MetaValue.flag true)]
                else
                  [("hand_index", MetaValue.num (ps.active_hand_index : ℚ)),
                   ("hand_id", MetaValue.str hand.hand_id),
                   ("timed_out", MetaValue.flag timed_out)]) with hmetadef
              set stepv := apply_action_step freshDeck new_hand_id st hand ps1v
                ps.active_hand_index meta1v action with hstepdef
              have hstep := apply_action_step_committed freshDeck new_hand_id st hand ps1v
                ps.active_hand_index meta1v action
              have hmoney := apply_action_step_player_money freshDeck new_hand_id st hand ps1v
                ps.active_hand_index meta1v action
              rw [← hstepdef] at hstep hmoney
              have hps1money : money_view ps1v = money_view ps := by
                rw [hps1def]
                exact ite_insurance_decided_money _ ps
              have hps1c : ps1v.committed_bet = ps.committed_bet :=
                congrArg (fun v => v.1) hps1money
              have hps1b : ps1v.bankroll_at_start = ps.bankroll_at_start :=
                congrArg (fun v => v.2.1) hps1money
              have hstepinv : bet_inv
                  { st with player_states := alist_set st.player_states user_id stepv.1 } := by
                intro p hp
                rcases alist_mem_set st.player_states user_id _ p hp with hv | hold
                · rw [hv]
                  rw [hmoney.1, hps1b]
                  refine ⟨?_, hpsinv.2⟩
                  rcases hstep with hc | ⟨hc, hact⟩
                  · rw [hc, hps1c]
                    exact hpsinv.1
                  · rw [hc, hps1c]
                    have hbound : round2 (ps.committed_bet + hand.bet)
                        ≤ round2 (ps.bankroll_at_start + 1 / 1000000000) := by
                      rcases hact with hdd | hsp
                      · subst hdd
                        exact can_double_down_bound (mem_available_double_down hps hhand hallow2)
                      · subst hsp
                        exact can_split_hand_bound (mem_available_split hps hhand hallow2)
                    calc round2 (ps.committed_bet + hand.bet)
                        ≤ round2 (ps.bankroll_at_start + 1 / 1000000000) := hbound
                      _ = ps.bankroll_at_start := round2_eps hpsinv.2
                · exact hinv p hold
              split
              · rename_i stN heqpos
                have hmaps := (position_snd_eq now _ _ _ heqpos).1
                refine bet_inv_of_money_map ?_ hstepinv
                rw [hmaps]
                show player_money_map
                    { stepv.2.1 with
                      player_states := alist_set stepv.2.1.player_states user_id stepv.1 } = _
                rw [player_money_map, player_money_map]
                have hplayers : stepv.2.1.player_states = st.player_states := by
                  rw [hstepdef]
                  exact (apply_action_step_state freshDeck new_hand_id st hand ps1v
                    ps.active_hand_index meta1v action).1
                rw [hplayers]
              · rename_i stN heqpos
                have hmaps := (position_snd_eq now _ _ _ heqpos).1
                refine bet_inv_of_money_map ?_ hstepinv
                rw [(settle_table_round_money freshDeck dealerFuel now balances _ _).1, hmaps]
                show player_money_map
                    { stepv.2.1 with
                      player_states := alist_set stepv.2.1.player_states user_id stepv.1 } = _
                rw [player_money_map, player_money_map]
                have hplayers : stepv.2.1.player_states = st.player_states := by
                  rw [hstepdef]
                  exact (apply_action_step_state freshDeck new_hand_id st hand ps1v
                    ps.active_hand_index meta1v action).1
                rw [hplayers]
      · exact hinv

theorem twoDec_min_bet : TwoDec MIN_TABLE_BET := ⟨100, by norm_num [MIN_TABLE_BET]⟩

theorem twoDec_max_bet : TwoDec MAX_TABLE_BET := ⟨100000, by norm_num [MAX_TABLE_BET]⟩

/-- Every normalized table bet is a two-decimal amount. -/
theorem normalize_table_bet_twoDec (o : Option ℚ) : TwoDec (normalize_table_bet o) := by
  cases o <;>
    exact twoDec_max twoDec_min_bet (twoDec_min twoDec_max_bet (twoDec_round2 _))

theorem start_player_states_inv (hand_ids : ℕ → String)
    (balances pending_bets : List (String × ℚ)) (table_players : List String) :
    ∀ p ∈ start_player_states hand_ids balances pending_bets table_players,
      p.2.committed_bet ≤ p.2.bankroll_at_start ∧ TwoDec p.2.bankroll_at_start := by
  intro p hp
  unfold start_player_states at hp
  obtain ⟨q, hq, rfl⟩ := List.mem_map.mp hp
  dsimp only
  exact ⟨le_max_right _ _, twoDec_max (twoDec_round2 _) (normalize_table_bet_twoDec _)⟩

theorem deal_one_money (freshDeck : List String) (st : TableTurnState) (uid : String) :
    player_money_map (deal_one_to_player freshDeck st uid) = player_money_map st ∧
    player_bets_map (deal_one_to_player freshDeck st uid) = player_bets_map st := by
  unfold deal_one_to_player draw_table_card
  dsimp only
  split
  · rename_i ps hlk
    split
    · rename_i h0 rest hhands
      constructor
      · exact alist_set_map_view money_view _ uid _ ps hlk rfl
      · refine alist_set_map_view bets_view _ uid _ ps hlk ?_
        simp only [bets_view, hhands, List.map_cons]
    · exact ⟨rfl, rfl⟩
  · exact ⟨rfl, rfl⟩

theorem foldl_deal_money (freshDeck : List String) (l : List String) :
    ∀ st : TableTurnState,
      player_money_map (l.foldl (deal_one_to_player freshDeck) st) = player_money_map st ∧
      player_bets_map (l.foldl (deal_one_to_player freshDeck) st) = player_bets_map st := by
  induction l with
  | nil => exact fun st => ⟨rfl, rfl⟩
  | cons a t ih =>
    intro st
    have h1 := deal_one_money freshDeck st a
    have h2 := ih (deal_one_to_player freshDeck st a)
    exact ⟨h2.1.trans h1.1, h2.2.trans h1.2⟩

theorem mark_natural_money (ps : TablePlayerState) :
    money_view (mark_natural ps) = money_view ps ∧
    bets_view (mark_natural ps) = bets_view ps := by
  unfold mark_natural
  split
  · rename_i h0 rest hh
    split
    · refine ⟨rfl, ?_⟩
      simp only [bets_view, hh, List.map_cons]
    · exact ⟨rfl, rfl⟩
  · exact ⟨rfl, rfl⟩

theorem mark_map_money (l : List (String × TablePlayerState)) :
    (l.map fun p => (p.1, mark_natural p.2)).map (fun p => (p.1, money_view p.2))
      = l.map (fun p => (p.1, money_view p.2)) ∧
    (l.map fun p => (p.1, mark_natural p.2)).map (fun p => (p.1, bets_view p.2))
      = l.map (fun p => (p.1, bets_view p.2)) := by
  induction l with
  | nil => exact ⟨rfl, rfl⟩
  | cons p t ih =>
    simp only [List.map_cons]
    constructor
    · rw [(mark_natural_money p.2).1, ih.1]
    · rw [(mark_natural_money p.2).2, ih.2]

theorem deal_round_money (freshDeck : List String) (table_players : List String)
    (st : TableTurnState) :
    player_money_map (deal_round freshDeck table_players st) = player_money_map st ∧
    player_bets_map (deal_round freshDeck table_players st) = player_bets_map st := by
  unfold deal_round draw_table_card
  dsimp only
  exact foldl_deal_money freshDeck table_players st

theorem start_deal_phase_money (freshDeck : List String) (now : ℚ) (round_id : String)
    (table_players : List String) (st0 : TableTurnState) :
    player_money_map (start_deal_phase freshDeck now round_id table_players st0)
      = player_money_map st0 ∧
    player_bets_map (start_deal_phase freshDeck now round_id table_players st0)
      = player_bets_map st0 := by
  constructor
  · refine Eq.trans ?_ (deal_round_money freshDeck table_players st0).1
    refine Eq.trans ?_
      (deal_round_money freshDeck table_players (deal_round freshDeck table_players st0)).1
    exact (mark_map_money _).1
  · refine Eq.trans ?_ (deal_round_money freshDeck table_players st0).2
    refine Eq.trans ?_
      (deal_round_money freshDeck table_players (deal_round freshDeck table_players st0)).2
    exact (mark_map_money _).2

theorem start_table_game_bet_inv (freshDeck : List String) (dealerFuel : ℕ) (now : ℚ)
    (turn_seconds : ℚ) (round_id : String) (hand_ids : ℕ → String)
    (balances : List (String × ℚ)) (pending_bets : List (String × ℚ))
    (forced_shoe : Option (List String)) (table_id : String)
    (table_players : List String) (st : TableTurnState) (bal : List (String × ℚ))
    (h : start_table_game freshDeck dealerFuel now turn_seconds round_id hand_ids balances
      pending_bets forced_shoe table_id table_players = some (st, bal)) :
    bet_inv st := by
  unfold start_table_game at h
  split at h
  · exact absurd h (by simp)
  · dsimp only at h
    split at h
    · rename_i st7 heqpos
      rw [Option.some.injEq, Prod.mk.injEq] at h
      obtain ⟨h1, h2⟩ := h
      subst h1
      refine bet_inv_of_money_map (position_snd_eq now _ _ _ heqpos).1 ?_
      refine bet_inv_of_money_map
        (start_deal_phase_money freshDeck now round_id table_players _).1 ?_
      intro p hp
      exact start_player_states_inv hand_ids balances pending_bets table_players p hp
    · rename_i st7 heqpos
      rw [Option.some.injEq, Prod.mk.injEq] at h
      obtain ⟨h1, h2⟩ := h
      subst h1
      refine bet_inv_of_money_map
        (settle_table_round_money freshDeck dealerFuel now balances _ _).1 ?_
      refine bet_inv_of_money_map (position_snd_eq now _ _ _ heqpos).1 ?_
      refine bet_inv_of_money_map
        (start_deal_phase_money freshDeck now round_id table_players _).1 ?_
      intro p hp
      exact start_player_states_inv hand_ids balances pending_bets table_players p hp

/-- C4: in every table round state produced by _start_table_game, and after
every attempted action in a state already satisfying the bound, each seated
player's committed_bet is at most their bankroll_at_start (a two-decimal
amount); the legality checks enforce the bound before double_down, split and
insurance are applied, and no later step needs to correct it. -/
theorem committed_bet_within_bankroll :
    (∀ (freshDeck : List String) (dealerFuel : ℕ) (now turn_seconds : ℚ)
        (round_id : String) (hand_ids : ℕ → String)
        (balances pending_bets : List (String × ℚ))
        (forced_shoe : Option (List String)) (table_id : String)
        (table_players : List String) (st : TableTurnState) (bal : List (String × ℚ)),
      start_table_game freshDeck dealerFuel now turn_seconds round_id hand_ids balances
          pending_bets forced_shoe table_id table_players = some (st, bal) →
        bet_inv st) ∧
    (∀ (freshDeck : List String) (dealerFuel : ℕ) (now : ℚ) (new_hand_id : String)
        (balances : List (String × ℚ)) (st : TableTurnState)
        (user_id action : String) (timed_out : Bool),
      bet_inv st →
        bet_inv (apply_table_action freshDeck dealerFuel now new_hand_id balances st
          user_id action timed_out).2.2.1) :=
  ⟨fun fd dF now ts rid hids bs pb fs tid tp st bal h =>
      start_table_game_bet_inv fd dF now ts rid hids bs pb fs tid tp st bal h,
    fun fd dF now nh bs st uid a t hinv =>
      apply_table_action_bet_inv fd dF now nh bs st uid a t hinv⟩

/-- Witness: the bound holds in the state started from a concrete two-player
table, and is preserved by a stand action from an empty-table state. -/
theorem committed_bet_within_bankroll_witness :
    bet_inv ((start_table_game ["AS", "9D", "8H", "KS", "7H", "9S"] 8 0 30 "r"
        (fun _ => "h") [("p1", (50 : ℚ)), ("p2", (50 : ℚ))]
        [("p1", (10 : ℚ)), ("p2", (10 : ℚ))] none "t" ["p1", "p2"]).getD
      ({ table_id := "t", players := [], turn_index := 0, turn_seconds := 30,
         turn_deadline := 0, round_id := "r", started_at := 0, updated_at := 0 }, [])).1 ∧
    bet_inv (apply_table_action [] 8 0 "h2" []
      { table_id := "t", players := [], turn_index := 0, turn_seconds := 30,
        turn_deadline := 0, round_id := "r", started_at := 0, updated_at := 0 }
      "p1" "stand" false).2.2.1 := by
  constructor
  · exact committed_bet_within_bankroll.1 ["AS", "9D", "8H", "KS", "7H", "9S"] 8 0 30 "r"
      (fun _ => "h") [("p1", (50 : ℚ)), ("p2", (50 : ℚ))]
      [("p1", (10 : ℚ)), ("p2", (10 : ℚ))] none "t" ["p1", "p2"] _
      [("p1", (50 : ℚ)), ("p2", (50 : ℚ))]
      (of_decide_eq_true (by with_unfolding_all rfl))
  · refine committed_bet_within_bankroll.2 [] 8 0 "h2" [] _ "p1" "stand" false ?_
    intro p hp
    simp at hp

theorem settle_hand_bet (d : ℕ) (b : Bool) (h : TableHandState) :
    (settle_hand d b h).bet = h.bet := by
  unfold settle_hand
  dsimp only
  repeat' split
  all_goals rfl

theorem settle_player_bets (d : ℕ) (b : Bool) (ps : TablePlayerState) :
    bets_view (settle_player d b ps) = bets_view ps := by
  unfold settle_player
  dsimp only
  simp only [bets_view, List.map_map, Function.comp_def, settle_hand_bet]

theorem settle_player_map_bets (d : ℕ) (b : Bool) (l : List (String × TablePlayerState)) :
    (l.map fun p => (p.1, settle_player d b p.2)).map (fun p => (p.1, bets_view p.2))
      = l.map fun p => (p.1, bets_view p.2) := by
  induction l with
  | nil => rfl
  | cons p t ih =>
    simp only [List.map_cons]
    rw [settle_player_bets, ih]

theorem settle_table_round_bets (freshDeck : List String) (dealerFuel : ℕ) (now : ℚ)
    (balances : List (String × ℚ)) (st : TableTurnState) (reason : String) :
    player_bets_map (settle_table_round freshDeck dealerFuel now balances st reason).1
      = player_bets_map st := by
  unfold settle_table_round
  dsimp only
  split
  · rfl
  · refine Eq.trans (settle_player_map_bets _ _ _) ?_
    split
    · rw [(dealer_draw_loop_preserves freshDeck now dealerFuel _).1]
    · rfl

theorem bets_of_money_hands {a b : TableTurnState}
    (hm : player_money_map a = player_money_map b)
    (hh : player_hands_map a = player_hands_map b) :
    player_bets_map a = player_bets_map b := by
  have key : ∀ l : List (String × TablePlayerState),
      l.map (fun p => (p.1, bets_view p.2)) =
        List.zipWith (fun x y => (x.1, ((x.2.2.2 : ℚ), y.2.map fun h => h.bet)))
          (l.map fun p => (p.1, money_view p.2)) (l.map fun p => (p.1, hands_view p.2)) := by
    intro l
    induction l with
    | nil => rfl
    | cons p t ih =>
      simp only [List.map_cons, List.zipWith_cons_cons, bets_view, money_view, hands_view]
        at ih ⊢
      rw [ih]
  rw [show player_bets_map a = _ from key a.player_states,
    show player_bets_map b = _ from key b.player_states]
  exact congr (congrArg (List.zipWith
    (fun (x : String × (ℚ × ℚ × ℚ)) (y : String × List TableHandState) =>
      (x.1, x.2.2.2, List.map (fun h => h.bet) y.2))) hm) hh

theorem start_player_states_bets (hand_ids : ℕ → String)
    (balances pending_bets : List (String × ℚ)) (table_players : List String) :
    ∀ p ∈ start_player_states hand_ids balances pending_bets table_players,
      bets_view p.2 =
        (normalize_table_bet (some ((alist_lookup pending_bets p.1).getD DEFAULT_TABLE_BET)),
         [normalize_table_bet (some ((alist_lookup pending_bets p.1).getD DEFAULT_TABLE_BET))]) := by
  intro p hp
  unfold start_player_states at hp
  obtain ⟨q, hq, rfl⟩ := List.mem_map.mp hp
  rfl

theorem bets_map_entry {a : TableTurnState} {l : List (String × TablePlayerState)}
    (h : player_bets_map a = l.map fun p => (p.1, bets_view p.2)) :
    ∀ p ∈ a.player_states, ∃ q ∈ l, q.1 = p.1 ∧ bets_view q.2 = bets_view p.2 := by
  intro p hp
  have hm : (p.1, bets_view p.2) ∈ player_bets_map a := List.mem_map_of_mem _ hp
  rw [h] at hm
  obtain ⟨q, hq, hqe⟩ := List.mem_map.mp hm
  rw [Prod.mk.injEq] at hqe
  exact ⟨q, hq, hqe.1, hqe.2⟩

/-- C10: at round start every seated player's base_bet and single starting
hand bet are the pending requested bet passed through _normalize_table_bet;
normalization rounds to two decimals and clamps into [1, 1000], and a
missing or non-numeric requested bet falls back to the default bet 10. -/
theorem starting_bets_normalized :
    (∀ q : ℚ, normalize_table_bet (some q) = max 1 (min 1000 (round2 q))) ∧
    normalize_table_bet (raw_bet_to_float_arg RawBet.absent) = 10 ∧
    normalize_table_bet (raw_bet_to_float_arg RawBet.malformed) = 10 ∧
    (∀ (freshDeck : List String) (dealerFuel : ℕ) (now turn_seconds : ℚ)
        (round_id : String) (hand_ids : ℕ → String)
        (balances pending_bets : List (String × ℚ))
        (forced_shoe : Option (List String)) (table_id : String)
        (table_players : List String) (st : TableTurnState) (bal : List (String × ℚ)),
      start_table_game freshDeck dealerFuel now turn_seconds round_id hand_ids balances
          pending_bets forced_shoe table_id table_players = some (st, bal) →
        ∀ p ∈ st.player_states,
          p.2.base_bet = normalize_table_bet
              (some ((alist_lookup pending_bets p.1).getD DEFAULT_TABLE_BET)) ∧
          p.2.hands.map (fun h => h.bet) = [normalize_table_bet
              (some ((alist_lookup pending_bets p.1).getD DEFAULT_TABLE_BET))]) := by
  refine ⟨?_, ?_, ?_, ?_⟩
  · intro q
    show max MIN_TABLE_BET (min MAX_TABLE_BET (round2 q)) = _
    norm_num [MIN_TABLE_BET, MAX_TABLE_BET]
  · show max MIN_TABLE_BET (min MAX_TABLE_BET (round2 DEFAULT_TABLE_BET)) = 10
    rw [round2_twoDec ⟨1000, by norm_num [DEFAULT_TABLE_BET]⟩]
    norm_num [MIN_TABLE_BET, MAX_TABLE_BET, DEFAULT_TABLE_BET]
  · show max MIN_TABLE_BET (min MAX_TABLE_BET (round2 DEFAULT_TABLE_BET)) = 10
    rw [round2_twoDec ⟨1000, by norm_num [DEFAULT_TABLE_BET]⟩]
    norm_num [MIN_TABLE_BET, MAX_TABLE_BET, DEFAULT_TABLE_BET]
  · intro fd dF now ts rid hids bs pb fs tid tp st bal h
    have hchain : player_bets_map st =
        (start_player_states hids bs pb tp).map fun p => (p.1, bets_view p.2) := by
      unfold start_table_game at h
      split at h
      · exact absurd h (by simp)
      · dsimp only at h
        split at h
        · rename_i st7 heqpos
          rw [Option.some.injEq, Prod.mk.injEq] at h
          obtain ⟨h1, h2⟩ := h
          subst h1
          have hpos := position_snd_eq now _ _ _ heqpos
          refine (bets_of_money_hands hpos.1 hpos.2.1).trans ?_
          exact (start_deal_phase_money fd now rid tp _).2
        · rename_i st7 heqpos
          rw [Option.some.injEq, Prod.mk.injEq] at h
          obtain ⟨h1, h2⟩ := h
          subst h1
          refine (settle_table_round_bets fd dF now bs _ _).trans ?_
          have hpos := position_snd_eq now _ _ _ heqpos
          refine (bets_of_money_hands hpos.1 hpos.2.1).trans ?_
          exact (start_deal_phase_money fd now rid tp _).2
    intro p hp
    obtain ⟨q, hq, hq1, hq2⟩ := bets_map_entry hchain p hp
    have hqb := start_player_states_bets hids bs pb tp q hq
    rw [hq2] at hqb
    rw [hq1] at hqb
    exact ⟨congrArg Prod.fst hqb, congrArg Prod.snd hqb⟩

/-! ## Fixture evaluations

Each concrete fixture state above is identified as the result of the engine
call that produces it. -/

theorem started_state_spec :
    start_table_game ["2C", "2D", "9D", "8H", "KS", "7H", "9S"] 8 0 30 "r" (fun _ => "h")
        [("p1", (50 : ℚ)), ("p2", (50 : ℚ))] [("p1", (10 : ℚ)), ("p2", (10 : ℚ))] none "t"
        ["p1", "p2"]
      = some (started_state, [("p1", (50 : ℚ)), ("p2", (50 : ℚ))]) :=
  of_decide_eq_true (by with_unfolding_all rfl)

theorem insurance_state_spec :
    start_table_game ["KS", "7H", "9H", "AS", "8H", "9S"] 8 0 30 "r" (fun _ => "h")
        [("p1", (50 : ℚ)), ("p2", (50 : ℚ))] [("p1", (10 : ℚ)), ("p2", (10 : ℚ))] none "t"
        ["p1", "p2"]
      = some (insurance_state, [("p1", (50 : ℚ)), ("p2", (50 : ℚ))]) :=
  of_decide_eq_true (by with_unfolding_all rfl)

theorem clamp_state_spec :
    start_table_game ["6C", "2C", "2D", "9D", "8H", "KS", "7H", "9S"] 8 0 30 "r"
        (fun _ => "h") [("p1", (5 : ℚ)), ("p2", (50 : ℚ))]
        [("p1", (10 : ℚ)), ("p2", (10 : ℚ))] none "t" ["p1", "p2"]
      = some (clamp_state, [("p1", (5 : ℚ)), ("p2", (50 : ℚ))]) :=
  of_decide_eq_true (by with_unfolding_all rfl)

theorem natural_state_spec :
    start_table_game ["9S", "7H", "KS", "8H", "9D", "AS"] 8 0 30 "r" (fun _ => "h")
        [("p1", (50 : ℚ)), ("p2", (50 : ℚ))] [("p1", (10 : ℚ)), ("p2", (10 : ℚ))] none "t"
        ["p1", "p2"]
      = some (natural_state, [("p1", (50 : ℚ)), ("p2", (50 : ℚ))]) :=
  of_decide_eq_true (by with_unfolding_all rfl)

theorem after_stand_spec :
    take_turn_action ["2C"] 8 1 "h2" [("t", started_state)]
        [("p1", (50 : ℚ)), ("p2", (50 : ℚ))] "t" "p1" "stand" ""
      = (.okApplied after_stand_state, [("t", after_stand_state)],
         [("p1", (50 : ℚ)), ("p2", (50 : ℚ))],
         [SocketEvent.turn_action_applied "t" "p1" "stand" (some "p2") false,
          SocketEvent.table_snapshot "t", SocketEvent.table_game_state "t",
          SocketEvent.lobby_snapshots]) :=
  of_decide_eq_true (by with_unfolding_all rfl)

theorem round_end_spec :
    take_turn_action ["2C"] 8 2 "h3" [("t", after_stand_state)]
        [("p1", (50 : ℚ)), ("p2", (50 : ℚ))] "t" "p2" "stand" ""
      = (.okApplied ended_round_state, [("t", ended_round_state)],
         [("p1", (40 : ℚ)), ("p2", (40 : ℚ))],
         [SocketEvent.turn_action_applied "t" "p2" "stand" none true,
          SocketEvent.table_round_resolved "t", SocketEvent.table_snapshot "t",
          SocketEvent.table_game_state "t", SocketEvent.lobby_snapshots]) :=
  of_decide_eq_true (by with_unfolding_all rfl)

theorem after_hit_spec :
    take_turn_action ["2C"] 8 0 "h2" [("t", started_state)] [("p1", (50 : ℚ))] "t" "p1"
        "hit" "x"
      = (.okApplied after_hit_state, [("t", after_hit_state)], [("p1", (50 : ℚ))],
         [SocketEvent.turn_action_applied "t" "p1" "hit" (some "p1") false,
          SocketEvent.table_snapshot "t", SocketEvent.table_game_state "t",
          SocketEvent.lobby_snapshots]) :=
  of_decide_eq_true (by with_unfolding_all rfl)

theorem clamp_stand_spec :
    take_turn_action [] 8 1 "h2" [("t", clamp_state)] [("p1", (5 : ℚ)), ("p2", (50 : ℚ))]
        "t" "p1" "stand" ""
      = (.okApplied clamp_after_stand_state, [("t", clamp_after_stand_state)],
         [("p1", (5 : ℚ)), ("p2", (50 : ℚ))],
         [SocketEvent.turn_action_applied "t" "p1" "stand" (some "p2") false,
          SocketEvent.table_snapshot "t", SocketEvent.table_game_state "t",
          SocketEvent.lobby_snapshots]) :=
  of_decide_eq_true (by with_unfolding_all rfl)

theorem clamp_end_spec :
    take_turn_action [] 8 2 "h3" [("t", clamp_after_stand_state)]
        [("p1", (5 : ℚ)), ("p2", (50 : ℚ))] "t" "p2" "stand" ""
      = (.okApplied clamp_end_state, [("t", clamp_end_state)],
         [("p1", (0 : ℚ)), ("p2", (40 : ℚ))],
         [SocketEvent.turn_action_applied "t" "p2" "stand" none true,
          SocketEvent.table_round_resolved "t", SocketEvent.table_snapshot "t",
          SocketEvent.table_game_state "t", SocketEvent.lobby_snapshots]) :=
  of_decide_eq_true (by with_unfolding_all rfl)

/-- Witness: requested bets of 10.555 (rounded to 10.56) and 2000 (clamped
to 1000) pass through the normalization equation, missing and malformed
requests fall back to 10, and the started table carries the normalized
pending bets on every hand. -/
theorem starting_bets_normalized_witness :
    normalize_table_bet (some (10555 / 1000 : ℚ))
      = max 1 (min 1000 (round2 (10555 / 1000))) ∧
    normalize_table_bet (some (2000 : ℚ)) = max 1 (min 1000 (round2 2000)) ∧
    normalize_table_bet (raw_bet_to_float_arg RawBet.absent) = 10 ∧
    normalize_table_bet (raw_bet_to_float_arg RawBet.malformed) = 10 ∧
    ∀ p ∈ started_state.player_states,
      p.2.base_bet = normalize_table_bet
          (some ((alist_lookup [("p1", (10 : ℚ)), ("p2", (10 : ℚ))] p.1).getD
            DEFAULT_TABLE_BET)) ∧
      p.2.hands.map (fun h => h.bet) = [normalize_table_bet
          (some ((alist_lookup [("p1", (10 : ℚ)), ("p2", (10 : ℚ))] p.1).getD
            DEFAULT_TABLE_BET))] := by
  refine ⟨starting_bets_normalized.1 _, starting_bets_normalized.1 _,
    starting_bets_normalized.2.1, starting_bets_normalized.2.2.1, ?_⟩
  exact starting_bets_normalized.2.2.2 ["2C", "2D", "9D", "8H", "KS", "7H", "9S"] 8 0 30 "r"
    (fun _ => "h") [("p1", (50 : ℚ)), ("p2", (50 : ℚ))] [("p1", (10 : ℚ)), ("p2", (10 : ℚ))]
    none "t" ["p1", "p2"] started_state [("p1", (50 : ℚ)), ("p2", (50 : ℚ))]
    started_state_spec

/-- C5 (amended): a rejected turn action broadcasts nothing and changes no
balances, and the rejection reason goes only to the caller; every stored
table state is unchanged except that a rejection reached after id tracking
may have recorded the submitted action-id in the table's idempotency set.
With no action-id supplied the table-state map is exactly unchanged. -/
theorem rejected_turn_action_reports_only_to_caller (freshDeck : List String)
    (dealerFuel : ℕ) (now : ℚ) (new_hand_id : String)
    (tables : List (String × TableTurnState)) (balances : List (String × ℚ))
    (table_id user_id action_raw action_id_raw : String) (e : String)
    (h : (take_turn_action freshDeck dealerFuel now new_hand_id tables balances table_id
      user_id action_raw action_id_raw).1 = TurnReply.err e) :
    (take_turn_action freshDeck dealerFuel now new_hand_id tables balances table_id
        user_id action_raw action_id_raw).2.2.2 = [] ∧
    (take_turn_action freshDeck dealerFuel now new_hand_id tables balances table_id
        user_id action_raw action_id_raw).2.2.1 = balances ∧
    (∀ k, (alist_lookup (take_turn_action freshDeck dealerFuel now new_hand_id tables balances
          table_id user_id action_raw action_id_raw).2.1 k).map erase_action_ids
        = (alist_lookup tables k).map erase_action_ids) ∧
    (py_strip action_id_raw = "" →
      (take_turn_action freshDeck dealerFuel now new_hand_id tables balances table_id
        user_id action_raw action_id_raw).2.1 = tables) :=
  take_turn_action_rejected freshDeck dealerFuel now new_hand_id tables balances table_id
    user_id action_raw action_id_raw e h

/-- Witness: an out-of-turn stand by p2 on the started two-player table is
rejected with nothing broadcast, no balance change, and the map unchanged. -/
theorem rejected_turn_action_reports_only_to_caller_witness :
    (take_turn_action ["2C"] 8 0 "h2" [("t", started_state)] [("p1", (50 : ℚ))] "t" "p2"
        "stand" "").2.2.2 = [] ∧
    (take_turn_action ["2C"] 8 0 "h2" [("t", started_state)] [("p1", (50 : ℚ))] "t" "p2"
        "stand" "").2.2.1 = [("p1", (50 : ℚ))] ∧
    (take_turn_action ["2C"] 8 0 "h2" [("t", started_state)] [("p1", (50 : ℚ))] "t" "p2"
        "stand" "").2.1 = [("t", started_state)] := by
  have h := rejected_turn_action_reports_only_to_caller ["2C"] 8 0 "h2"
    [("t", started_state)] [("p1", (50 : ℚ))] "t" "p2" "stand" "" "not your turn"
    (of_decide_eq_true (by with_unfolding_all rfl))
  exact ⟨h.1, h.2.1, h.2.2.2 rfl⟩

/-- C5 counterexample: a rejected split with a fresh action-id does mutate
stored table state: the id lands in the table's processed_action_ids even
though the reply is an error, so the literal claim that no table state is
mutated on rejection fails. -/
theorem rejected_turn_action_mutates_tracking :
    (take_turn_action ["2C"] 8 0 "h2" [("t", started_state)] [("p1", (50 : ℚ))] "t" "p1"
        "split" "x").1 = TurnReply.err "action not allowed" ∧
    (take_turn_action ["2C"] 8 0 "h2" [("t", started_state)] [("p1", (50 : ℚ))] "t" "p1"
        "split" "x").2.1 ≠ [("t", started_state)] ∧
    (alist_lookup ((alist_lookup (take_turn_action ["2C"] 8 0 "h2" [("t", started_state)]
          [("p1", (50 : ℚ))] "t" "p1" "split" "x").2.1 "t").getD
        default_turn_state).processed_action_ids "x").isSome = true :=
  of_decide_eq_true (by with_unfolding_all rfl)

/-- C3 (amended): after a turn action is applied under a nonempty valid
action-id, resubmitting that id against the table is answered as a no-op
duplicate success returning the stored state unchanged, with nothing
broadcast and no balance change - provided the resubmission still passes the
gates checked before duplicate detection: the round is still active in
player_turns, the caller is the current-turn player, and the action name is
well formed.  (A resubmission after the turn advanced fails those gates and
is rejected instead; see the counterexample.) -/
theorem resubmitted_action_id_is_noop (freshDeck freshDeck2 : List String)
    (dealerFuel dealerFuel2 : ℕ) (now now2 : ℚ) (new_hand_id new_hand_id2 : String)
    (tables : List (String × TableTurnState)) (balances : List (String × ℚ))
    (table_id user_id action_raw action_id_raw : String)
    (user_id2 action_raw2 : String)
    (s1 : TableTurnState) (tabs1 : List (String × TableTurnState))
    (bal1 : List (String × ℚ)) (evs1 : List SocketEvent)
    (hstr : py_strip action_id_raw = action_id_raw) (hne : action_id_raw ≠ "")
    (hvalid : is_valid_action_id (some action_id_raw) = true)
    (h1 : take_turn_action freshDeck dealerFuel now new_hand_id tables balances table_id
      user_id action_raw action_id_raw = (.okApplied s1, tabs1, bal1, evs1))
    (hstatus : s1.status = "active") (hphase : s1.phase = "player_turns")
    (hturn : some user_id2 = current_turn_user_id s1)
    (haction : py_lower (py_strip action_raw2)
      ∈ ["hit", "stand", "double_down", "split", "surrender", "insurance"]) :
    take_turn_action freshDeck2 dealerFuel2 now2 new_hand_id2 tabs1 bal1 table_id user_id2
      action_raw2 action_id_raw = (.okDuplicate s1, tabs1, bal1, []) := by
  obtain ⟨htabs, hrec⟩ := take_turn_okApplied_inv freshDeck dealerFuel now new_hand_id
    tables balances table_id user_id action_raw action_id_raw s1 tabs1 bal1 evs1 hstr h1
  subst htabs
  exact take_turn_duplicate_noop freshDeck2 dealerFuel2 now2 new_hand_id2 _ bal1 table_id
    user_id2 action_raw2 action_id_raw s1 (alist_lookup_set_self tables table_id s1)
    hstatus hphase hturn haction hstr hne hvalid (hrec hne)

/-- Witness: p1 hits on the started table under action-id x (drawing 2C for
a 19 and keeping the turn), then resubmits hit with the same id and is
answered with the stored state as a duplicate, leaving everything unchanged. -/
theorem resubmitted_action_id_is_noop_witness :
    take_turn_action ["3C"] 8 1 "h3" [("t", after_hit_state)] [("p1", (50 : ℚ))] "t" "p1"
        "hit" "x"
      = (.okDuplicate after_hit_state, [("t", after_hit_state)], [("p1", (50 : ℚ))], []) := by
  refine resubmitted_action_id_is_noop ["2C"] ["3C"] 8 8 0 1 "h2" "h3"
    [("t", started_state)] [("p1", (50 : ℚ))] "t" "p1" "hit" "x" "p1" "hit" after_hit_state
    [("t", after_hit_state)] [("p1", (50 : ℚ))]
    [SocketEvent.turn_action_applied "t" "p1" "hit" (some "p1") false,
     SocketEvent.table_snapshot "t", SocketEvent.table_game_state "t",
     SocketEvent.lobby_snapshots]
    rfl (by decide)
    (of_decide_eq_true (by with_unfolding_all rfl))
    after_hit_spec
    (of_decide_eq_true (by with_unfolding_all rfl))
    (of_decide_eq_true (by with_unfolding_all rfl))
    (of_decide_eq_true (by with_unfolding_all rfl))
    (by decide)

/-- C3 counterexample: p1 stands under action-id x, which advances the turn
to p2; p1's resubmission of the same action and id is then rejected with
"not your turn" rather than being treated as a no-op duplicate success, so
the literal idempotence claim fails once the turn has moved on. -/
theorem resubmitted_action_id_after_turn_advance_rejected :
    take_turn_action ["2C"] 8 0 "h2" [("t", started_state)] [("p1", (50 : ℚ))] "t" "p1"
        "stand" "x"
      = (.okApplied after_stand_x_state, [("t", after_stand_x_state)], [("p1", (50 : ℚ))],
         [SocketEvent.turn_action_applied "t" "p1" "stand" (some "p2") false,
          SocketEvent.table_snapshot "t", SocketEvent.table_game_state "t",
          SocketEvent.lobby_snapshots]) ∧
    (take_turn_action ["2C"] 8 1 "h3" [("t", after_stand_x_state)] [("p1", (50 : ℚ))] "t"
        "p1" "stand" "x").1 = TurnReply.err "not your turn" :=
  of_decide_eq_true (by with_unfolding_all rfl)

theorem settle_player_insurance_payout (d : ℕ) (ps : TablePlayerState)
    (hins : ps.insurance_bet > 0) (htd : TwoDec ps.insurance_bet) :
    (settle_player d true ps).insurance_payout = 2 * ps.insurance_bet := by
  unfold settle_player
  dsimp only
  rw [if_pos hins, if_pos rfl]
  have h2 : TwoDec (ps.insurance_bet * 2) := by
    obtain ⟨n, hn⟩ := htd
    exact ⟨2 * n, by rw [hn]; push_cast; ring⟩
  rw [round2_twoDec (twoDec_round2 _), round2_twoDec h2]
  ring

theorem settle_hand_lose_vs_natural (d : ℕ) (h : TableHandState)
    (hres : h.result = none) (hnat : natural_blackjack h.cards = false)
    (htd : TwoDec h.bet) :
    (settle_hand d true h).result = some "lose" ∧
    (settle_hand d true h).payout = some (-h.bet) := by
  unfold settle_hand
  dsimp only
  rw [if_neg (by simp [hres]), if_neg (by simp [hres])]
  simp only [hnat, Bool.false_and, Bool.and_false]
  rw [if_pos trivial]
  exact ⟨rfl, congrArg some (round2_twoDec (twoDec_neg htd))⟩

/-- C7: with the dealer showing an Ace and the current player holding an
undecided two-card 18 they can cover, insurance is in the legal action set;
applying insurance is accepted without advancing the turn or the active
hand; and at settlement against a dealer natural the insurance payout is
exactly twice the insurance wager while a non-natural hand loses exactly its
bet. -/
theorem insurance_offer_apply_settle :
    (∀ (st : TableTurnState) (ps : TablePlayerState) (hand : TableHandState),
      st.status = "active" → st.phase = "player_turns" →
      current_turn_player_state st = some ps → current_turn_hand st = some hand →
      st.dealer_cards.length ≠ 0 → card_rank (st.dealer_cards.getD 0 "") = "A" →
      st.dealer_hidden = true → ps.insurance_decided = false →
      hand.status = "active" → hand.result = none →
      ps.active_hand_index = 0 → hand.cards.length = 2 →
      hand_score hand.cards = 18 →
      0 < insurance_bet_amount ps →
      round2 (ps.committed_bet + insurance_bet_amount ps)
          ≤ round2 (ps.bankroll_at_start + 1 / 1000000000) →
      "insurance" ∈ available_actions_for_current_turn st) ∧
    (∀ (freshDeck : List String) (dealerFuel : ℕ) (now : ℚ) (new_hand_id : String)
        (balances : List (String × ℚ)) (st : TableTurnState) (user_id : String)
        (ps : TablePlayerState) (hand : TableHandState),
      st.status = "active" → st.phase = "player_turns" →
      some user_id = current_turn_user_id st →
      current_turn_player_state st = some ps → current_turn_hand st = some hand →
      hand_is_playable hand = true →
      "insurance" ∈ available_actions_for_current_turn st →
      (apply_table_action freshDeck dealerFuel now new_hand_id balances st user_id
          "insurance" false).2.1 = none ∧
      (apply_table_action freshDeck dealerFuel now new_hand_id balances st user_id
          "insurance" false).1 = false ∧
      current_turn_user_id (apply_table_action freshDeck dealerFuel now new_hand_id balances
          st user_id "insurance" false).2.2.1 = current_turn_user_id st ∧
      (alist_lookup (apply_table_action freshDeck dealerFuel now new_hand_id balances st
            user_id "insurance" false).2.2.1.player_states user_id).map
          (fun p => p.active_hand_index) = some ps.active_hand_index ∧
      (apply_table_action freshDeck dealerFuel now new_hand_id balances st user_id
          "insurance" false).2.2.2 = balances) ∧
    (∀ (d : ℕ) (ps : TablePlayerState), ps.insurance_bet > 0 → TwoDec ps.insurance_bet →
      (settle_player d true ps).insurance_payout = 2 * ps.insurance_bet) ∧
    (∀ (d : ℕ) (h : TableHandState), h.result = none →
      natural_blackjack h.cards = false → TwoDec h.bet →
      (settle_hand d true h).result = some "lose" ∧
      (settle_hand d true h).payout = some (-h.bet)) := by
  refine ⟨?_, ?_, settle_player_insurance_payout, settle_hand_lose_vs_natural⟩
  · intro st ps hand hstatus hphase hps hhand hlen hup hhidden hdec hhstatus hhresult hidx
      hc2 hscore hins hbound
    have hplay : hand_is_playable hand = true := by
      unfold hand_is_playable
      rw [hhstatus, hhresult, hscore]
      rfl
    have hcan : can_take_insurance st ps hand = true := by
      unfold can_take_insurance
      rw [if_neg (fun hc => Or.elim hc hlen (fun hb => hb hup))]
      rw [if_neg (by simp [hhidden])]
      rw [if_neg (by simp [hdec])]
      rw [if_neg (by simp [hhstatus, hhresult])]
      rw [if_neg (by simp [hidx, hc2])]
      rw [if_neg (by simp only [not_le]; exact hins)]
      exact decide_eq_true hbound
    unfold available_actions_for_current_turn
    rw [if_neg (by simp [hstatus, hphase])]
    rw [hps, hhand]
    try dsimp only
    rw [if_neg (by simp [hplay])]
    simp [hcan]
  · intro fd dF now nh bal st uid ps hand hstatus hphase hturn hps hhand hplay hmem
    unfold apply_table_action
    rw [if_neg (by simp [hstatus, hphase])]
    rw [if_neg (fun hc => hc hturn)]
    rw [hps, hhand]
    try dsimp only
    rw [if_neg (by simp [hplay])]
    rw [if_neg (by simp [hmem])]
    try dsimp only
    rw [if_pos (show ("insurance" : String) = "insurance" from rfl)]
    refine ⟨rfl, rfl, rfl, ?_, rfl⟩
    show (alist_lookup (alist_set st.player_states uid _) uid).map _ = _
    rw [alist_lookup_set_self]
    rfl

/-- Witness: on the concrete Ace-up table, insurance is offered to p1 and
applying it keeps p1 on turn; a 5-chip insurance wager pays 10 against the
dealer natural while the 9S 9H hand loses its bet of 10. -/
theorem insurance_offer_apply_settle_witness :
    "insurance" ∈ available_actions_for_current_turn insurance_state ∧
    (apply_table_action [] 8 0 "h2" [("p1", (50 : ℚ))] insurance_state "p1"
        "insurance" false).2.1 = none ∧
    current_turn_user_id (apply_table_action [] 8 0 "h2" [("p1", (50 : ℚ))] insurance_state
        "p1" "insurance" false).2.2.1 = current_turn_user_id insurance_state ∧
    (settle_player 17 true { default_player_state with insurance_bet := 5 }).insurance_payout
      = 2 * ({ default_player_state with insurance_bet := 5 } : TablePlayerState).insurance_bet ∧
    (settle_hand 21 true { default_hand with cards := ["9S", "9H"], bet := 10 }).payout
      = some (-({ default_hand with cards := ["9S", "9H"], bet := 10 } : TableHandState).bet) := by
  refine ⟨?_, ?_, ?_, ?_, ?_⟩
  · exact insurance_offer_apply_settle.1 insurance_state
      ((alist_lookup insurance_state.player_states "p1").getD default_player_state)
      (((alist_lookup insurance_state.player_states "p1").getD default_player_state).hands.getD
        0 default_hand)
      (of_decide_eq_true (by with_unfolding_all rfl))
      (of_decide_eq_true (by with_unfolding_all rfl))
      (of_decide_eq_true (by with_unfolding_all rfl))
      (of_decide_eq_true (by with_unfolding_all rfl))
      (of_decide_eq_true (by with_unfolding_all rfl))
      (of_decide_eq_true (by with_unfolding_all rfl))
      (of_decide_eq_true (by with_unfolding_all rfl))
      (of_decide_eq_true (by with_unfolding_all rfl))
      (of_decide_eq_true (by with_unfolding_all rfl))
      (of_decide_eq_true (by with_unfolding_all rfl))
      (of_decide_eq_true (by with_unfolding_all rfl))
      (of_decide_eq_true (by with_unfolding_all rfl))
      (of_decide_eq_true (by with_unfolding_all rfl))
      (of_decide_eq_true (by with_unfolding_all rfl))
      (of_decide_eq_true (by with_unfolding_all rfl))
  · exact (insurance_offer_apply_settle.2.1 [] 8 0 "h2" [("p1", (50 : ℚ))] insurance_state
      "p1" ((alist_lookup insurance_state.player_states "p1").getD default_player_state)
      (((alist_lookup insurance_state.player_states "p1").getD default_player_state).hands.getD
        0 default_hand)
      (of_decide_eq_true (by with_unfolding_all rfl))
      (of_decide_eq_true (by with_unfolding_all rfl))
      (of_decide_eq_true (by with_unfolding_all rfl))
      (of_decide_eq_true (by with_unfolding_all rfl))
      (of_decide_eq_true (by with_unfolding_all rfl))
      (of_decide_eq_true (by with_unfolding_all rfl))
      (of_decide_eq_true (by with_unfolding_all rfl))).1
  · exact (insurance_offer_apply_settle.2.1 [] 8 0 "h2" [("p1", (50 : ℚ))] insurance_state
      "p1" ((alist_lookup insurance_state.player_states "p1").getD default_player_state)
      (((alist_lookup insurance_state.player_states "p1").getD default_player_state).hands.getD
        0 default_hand)
      (of_decide_eq_true (by with_unfolding_all rfl))
      (of_decide_eq_true (by with_unfolding_all rfl))
      (of_decide_eq_true (by with_unfolding_all rfl))
      (of_decide_eq_true (by with_unfolding_all rfl))
      (of_decide_eq_true (by with_unfolding_all rfl))
      (of_decide_eq_true (by with_unfolding_all rfl))
      (of_decide_eq_true (by with_unfolding_all rfl))).2.2.1
  · exact insurance_offer_apply_settle.2.2.1 17
      { default_player_state with insurance_bet := 5 }
      (of_decide_eq_true (by with_unfolding_all rfl))
      ⟨500, of_decide_eq_true (by with_unfolding_all rfl)⟩
  · exact (insurance_offer_apply_settle.2.2.2 21
      { default_hand with cards := ["9S", "9H"], bet := 10 } rfl
      (of_decide_eq_true (by with_unfolding_all rfl))
      ⟨1000, of_decide_eq_true (by with_unfolding_all rfl)⟩).2

theorem timeout_loop_stops (freshDeck : List String) (dealerFuel : ℕ) (now : ℚ)
    (new_hand_id table_id : String) (fuel : ℕ) (st : TableTurnState)
    (bal : List (String × ℚ)) (evs : List SocketEvent)
    (h : ¬(st.status = "active" ∧ now ≥ st.turn_deadline)) :
    timeout_loop freshDeck dealerFuel now new_hand_id table_id fuel st bal evs
      = (st, bal, evs) := by
  cases fuel with
  | zero => rfl
  | succ n => rw [timeout_loop, if_neg h]

theorem timeout_loop_step (freshDeck : List String) (dealerFuel : ℕ) (now : ℚ)
    (new_hand_id table_id : String) (safety : ℕ) (st : TableTurnState)
    (bal : List (String × ℚ)) (evs : List SocketEvent) (u : String)
    (hstatus : st.status = "active") (helapsed : now ≥ st.turn_deadline)
    (hcur : current_turn_user_id st = some u)
    (hok : (apply_table_action freshDeck dealerFuel now new_hand_id bal st u "stand"
      true).2.1 = none) :
    timeout_loop freshDeck dealerFuel now new_hand_id table_id (safety + 1) st bal evs
      = timeout_loop freshDeck dealerFuel now new_hand_id table_id safety
          (apply_table_action freshDeck dealerFuel now new_hand_id bal st u "stand"
            true).2.2.1
          (apply_table_action freshDeck dealerFuel now new_hand_id bal st u "stand"
            true).2.2.2
          (evs ++ [SocketEvent.turn_timeout table_id u]
            ++ (if (apply_table_action freshDeck dealerFuel now new_hand_id bal st u "stand"
                    true).1
                then [SocketEvent.table_round_resolved table_id] else [])
            ++ [SocketEvent.table_game_state table_id]) := by
  rw [timeout_loop, if_pos ⟨hstatus, helapsed⟩, hcur]
  dsimp only
  rw [hok]

theorem position_loop_true_deadline (now : ℚ) (fuel : ℕ) :
    ∀ st st2 : TableTurnState, position_loop now fuel st = (true, st2) →
      st2.turn_deadline = now + st2.turn_seconds := by
  induction fuel with
  | zero =>
    intro st st2 h
    exact absurd (congrArg Prod.fst h) (by simp [position_loop])
  | succ n ih =>
    intro st st2 h
    rw [position_loop] at h
    dsimp only at h
    split at h
    · exact ih _ _ h
    · split at h
      · rw [Prod.mk.injEq] at h
        rw [← h.2]
      · exact ih _ _ h

theorem position_true_deadline (now : ℚ) (st st2 : TableTurnState)
    (h : position_to_next_playable_turn now st = (true, st2)) :
    st2.turn_deadline = now + st2.turn_seconds := by
  unfold position_to_next_playable_turn at h
  split at h
  · exact absurd (congrArg Prod.fst h) (by simp)
  · exact position_loop_true_deadline now _ _ _ h

theorem settle_table_round_status_ended (freshDeck : List String) (dealerFuel : ℕ)
    (now : ℚ) (balances : List (String × ℚ)) (st : TableTurnState) (reason : String)
    (h : st.phase ≠ "settled") :
    (settle_table_round freshDeck dealerFuel now balances st reason).1.status = "ended" := by
  unfold settle_table_round
  dsimp only
  rw [if_neg h]
  rfl

theorem settle_table_round_turn_seconds (freshDeck : List String) (dealerFuel : ℕ)
    (now : ℚ) (balances : List (String × ℚ)) (st : TableTurnState) (reason : String) :
    (settle_table_round freshDeck dealerFuel now balances st reason).1.turn_seconds
      = st.turn_seconds := by
  unfold settle_table_round
  dsimp only
  split
  · rfl
  · show (if _ then dealer_draw_loop freshDeck now dealerFuel _ else _).turn_seconds
      = st.turn_seconds
    split
    · exact (dealer_draw_loop_preserves freshDeck now dealerFuel _).2.2.1
    · rfl

theorem apply_table_action_turn_seconds (freshDeck : List String) (dealerFuel : ℕ)
    (now : ℚ) (new_hand_id : String) (balances : List (String × ℚ))
    (st : TableTurnState) (user_id action : String) (timed_out : Bool) :
    (apply_table_action freshDeck dealerFuel now new_hand_id balances st user_id action
      timed_out).2.2.1.turn_seconds = st.turn_seconds := by
  unfold apply_table_action
  dsimp only
  split
  · rfl
  · split
    · rfl
    · split
      · split
        · rfl
        · split
          · rfl
          · split
            · rfl
            · split
              · rename_i stN heq
                refine ((position_snd_eq now _ _ _ heq).2.2.2.2.2.1).trans ?_
                exact (apply_action_step_state freshDeck new_hand_id st _ _ _ _ _).2.2.2.2.1
              · rename_i stN heq
                refine (settle_table_round_turn_seconds freshDeck dealerFuel now balances
                  _ _).trans ?_
                refine ((position_snd_eq now _ _ _ heq).2.2.2.2.2.1).trans ?_
                exact (apply_action_step_state freshDeck new_hand_id st _ _ _ _ _).2.2.2.2.1
      · rfl

theorem apply_table_action_refresh (freshDeck : List String) (dealerFuel : ℕ)
    (now : ℚ) (new_hand_id : String) (balances : List (String × ℚ))
    (st : TableTurnState) (user_id action : String) (timed_out : Bool)
    (hok : (apply_table_action freshDeck dealerFuel now new_hand_id balances st user_id
      action timed_out).2.1 = none) :
    (apply_table_action freshDeck dealerFuel now new_hand_id balances st user_id action
        timed_out).2.2.1.status = "ended" ∨
    (apply_table_action freshDeck dealerFuel now new_hand_id balances st user_id action
        timed_out).2.2.1.turn_deadline
      = now + (apply_table_action freshDeck dealerFuel now new_hand_id balances st user_id
          action timed_out).2.2.1.turn_seconds := by
  revert hok
  unfold apply_table_action
  dsimp only
  split
  · intro hok; exact absurd hok (by simp)
  · split
    · intro hok; exact absurd hok (by simp)
    · rename_i hguard hturn
      split
      · split
        · intro hok; exact absurd hok (by simp)
        · split
          · intro hok; exact absurd hok (by simp)
          · split
            · intro hok
              exact Or.inr rfl
            · split
              · rename_i stN heq
                intro hok
                exact Or.inr (position_true_deadline now _ _ heq)
              · rename_i stN heq
                intro hok
                refine Or.inl ?_
                refine settle_table_round_status_ended freshDeck dealerFuel now balances
                  _ _ ?_
                have hpos := position_snd_eq now _ _ _ heq
                rw [hpos.2.2.2.2.1]
                have hphase : st.phase = "player_turns" :=
                  not_not.mp (fun hc => hguard (Or.inr hc))
                unfold record_turn_action
                dsimp only
                rw [(apply_action_step_state freshDeck new_hand_id st _ _ _ _ _).2.2.2.1]
                rw [hphase]
                simp
      · intro hok; exact absurd hok (by simp)

/-- C9: on a timer sweep of an active table in player_turns whose deadline
has elapsed, the loop stands in for the current-turn player (emitting a
turn_timeout notification, a distinct event from turn_action_applied) and
repeats on the resulting state, bounded by the safety counter; when the
turn timer is positive the refreshed deadline (or the settled round) stops
the loop after that single automatic stand. -/
theorem timeout_sweep_auto_stand :
    (∀ (freshDeck : List String) (dealerFuel : ℕ) (now : ℚ)
        (new_hand_id table_id : String) (safety : ℕ) (st : TableTurnState)
        (bal : List (String × ℚ)) (evs : List SocketEvent) (u : String),
      st.status = "active" → now ≥ st.turn_deadline →
      current_turn_user_id st = some u →
      (apply_table_action freshDeck dealerFuel now new_hand_id bal st u "stand"
        true).2.1 = none →
      timeout_loop freshDeck dealerFuel now new_hand_id table_id (safety + 1) st bal evs
        = timeout_loop freshDeck dealerFuel now new_hand_id table_id safety
            (apply_table_action freshDeck dealerFuel now new_hand_id bal st u "stand"
              true).2.2.1
            (apply_table_action freshDeck dealerFuel now new_hand_id bal st u "stand"
              true).2.2.2
            (evs ++ [SocketEvent.turn_timeout table_id u]
              ++ (if (apply_table_action freshDeck dealerFuel now new_hand_id bal st u
                      "stand" true).1
                  then [SocketEvent.table_round_resolved table_id] else [])
              ++ [SocketEvent.table_game_state table_id])) ∧
    (∀ (freshDeck : List String) (dealerFuel : ℕ) (now : ℚ)
        (new_hand_id table_id : String) (safety : ℕ) (st : TableTurnState)
        (bal : List (String × ℚ)) (evs : List SocketEvent) (u : String),
      st.status = "active" → now ≥ st.turn_deadline →
      current_turn_user_id st = some u →
      (apply_table_action freshDeck dealerFuel now new_hand_id bal st u "stand"
        true).2.1 = none →
      0 < st.turn_seconds →
      timeout_loop freshDeck dealerFuel now new_hand_id table_id (safety + 1) st bal evs
        = ((apply_table_action freshDeck dealerFuel now new_hand_id bal st u "stand"
              true).2.2.1,
           (apply_table_action freshDeck dealerFuel now new_hand_id bal st u "stand"
              true).2.2.2,
           evs ++ [SocketEvent.turn_timeout table_id u]
             ++ (if (apply_table_action freshDeck dealerFuel now new_hand_id bal st u
                     "stand" true).1
                 then [SocketEvent.table_round_resolved table_id] else [])
             ++ [SocketEvent.table_game_state table_id])) ∧
    (∀ (table_id u table_id2 user_id2 action : String) (n : Option String) (r : Bool),
      SocketEvent.turn_timeout table_id u
        ≠ SocketEvent.turn_action_applied table_id2 user_id2 action n r) := by
  refine ⟨timeout_loop_step, ?_, ?_⟩
  · intro fd dF now nh tid safety st bal evs u hstatus helapsed hcur hok hts
    rw [timeout_loop_step fd dF now nh tid safety st bal evs u hstatus helapsed hcur hok]
    rcases apply_table_action_refresh fd dF now nh bal st u "stand" true hok with hend | hdl
    · refine timeout_loop_stops fd dF now nh tid safety _ _ _ ?_
      intro hc
      rw [hend] at hc
      simp at hc
    · refine timeout_loop_stops fd dF now nh tid safety _ _ _ ?_
      intro hc
      have h2 := hc.2
      rw [hdl, apply_table_action_turn_seconds fd dF now nh bal st u "stand" true] at h2
      linarith
  · intro tid u tid2 uid2 a n r h
    cases h

/-- Witness: a sweep at time 100 of the started table (deadline 30) stands
in for p1 exactly once and emits the turn_timeout notification. -/
theorem timeout_sweep_auto_stand_witness :
    timeout_loop ["2C"] 8 100 "h2" "t" 8 started_state [("p1", (50 : ℚ))] []
      = ((apply_table_action ["2C"] 8 100 "h2" [("p1", (50 : ℚ))] started_state "p1" "stand"
            true).2.2.1,
         (apply_table_action ["2C"] 8 100 "h2" [("p1", (50 : ℚ))] started_state "p1" "stand"
            true).2.2.2,
         [] ++ [SocketEvent.turn_timeout "t" "p1"]
           ++ (if (apply_table_action ["2C"] 8 100 "h2" [("p1", (50 : ℚ))] started_state "p1"
                   "stand" true).1
               then [SocketEvent.table_round_resolved "t"] else [])
           ++ [SocketEvent.table_game_state "t"]) ∧
    SocketEvent.turn_timeout "t" "p1"
      ≠ SocketEvent.turn_action_applied "t" "p1" "stand" (some "p2") false := by
  constructor
  · exact timeout_sweep_auto_stand.2.1 ["2C"] 8 100 "h2" "t" 7 started_state
      [("p1", (50 : ℚ))] [] "p1"
      (of_decide_eq_true (by with_unfolding_all rfl))
      (of_decide_eq_true (by with_unfolding_all rfl))
      (of_decide_eq_true (by with_unfolding_all rfl))
      (of_decide_eq_true (by with_unfolding_all rfl))
      (of_decide_eq_true (by with_unfolding_all rfl))
  · exact timeout_sweep_auto_stand.2.2 "t" "p1" "t" "p1" "stand" (some "p2") false

theorem settle_hand_payout_twoDec (d : ℕ) (b : Bool) (h : TableHandState) :
    TwoDec ((settle_hand d b h).payout.getD 0) := by
  unfold settle_hand
  dsimp only
  repeat' split
  all_goals first
    | exact twoDec_round2 _
    | exact twoDec_zero

theorem settle_player_total_exact (d : ℕ) (bj : Bool) (ps : TablePlayerState) :
    (settle_player d bj ps).total_payout
      = (((settle_player d bj ps).hands).map (fun h => h.payout.getD 0)).sum
        + (if ps.insurance_bet > 0 then (settle_player d bj ps).insurance_payout else 0) := by
  unfold settle_player
  dsimp only
  have hht : TwoDec ((ps.hands.map (settle_hand d bj)).map (fun h => h.payout.getD 0)).sum := by
    refine twoDec_sum ?_
    intro x hx
    rw [List.map_map] at hx
    obtain ⟨h0, _, rfl⟩ := List.mem_map.mp hx
    exact settle_hand_payout_twoDec d bj h0
  by_cases hins : ps.insurance_bet > 0
  · simp only [if_pos hins]
    have htins : TwoDec (if bj = true then round2 (ps.insurance_bet * 2)
        else round2 (-ps.insurance_bet)) := by
      split
      · exact twoDec_round2 _
      · exact twoDec_round2 _
    rw [round2_twoDec htins, round2_twoDec (twoDec_add hht htins)]
  · simp only [if_neg hins]
    rw [round2_twoDec hht]
    exact (add_zero _).symm

theorem apply_payouts_frame (uid : String) :
    ∀ (players : List (String × TablePlayerState)) (balances : List (String × ℚ)),
      (∀ q ∈ players, q.1 ≠ uid) →
      alist_lookup (apply_payouts balances players) uid = alist_lookup balances uid := by
  intro players
  induction players with
  | nil => intro balances _; rfl
  | cons q rest ih =>
    intro balances h
    obtain ⟨v, psv⟩ := q
    have hv : v ≠ uid := h (v, psv) (List.mem_cons_self _ _)
    rw [apply_payouts]
    cases hb : alist_lookup balances v with
    | none =>
      dsimp only
      exact ih balances (fun q hq => h q (List.mem_cons_of_mem _ hq))
    | some b2 =>
      dsimp only
      rw [ih _ (fun q hq => h q (List.mem_cons_of_mem _ hq))]
      exact alist_lookup_set_ne _ _ _ _ hv

theorem apply_payouts_once :
    ∀ (pre : List (String × TablePlayerState)) (uid : String) (ps : TablePlayerState)
      (post : List (String × TablePlayerState)) (balances : List (String × ℚ)) (b : ℚ),
      (∀ q ∈ pre, q.1 ≠ uid) → (∀ q ∈ post, q.1 ≠ uid) →
      alist_lookup balances uid = some b →
      alist_lookup (apply_payouts balances (pre ++ (uid, ps) :: post)) uid
        = some (round2 (max 0 (b + ps.total_payout))) := by
  intro pre
  induction pre with
  | nil =>
    intro uid ps post balances b hpre hpost hlook
    rw [List.nil_append, apply_payouts, hlook]
    dsimp only
    rw [apply_payouts_frame uid post _ hpost]
    exact alist_lookup_set_self _ _ _
  | cons q rest ih =>
    intro uid ps post balances b hpre hpost hlook
    obtain ⟨v, psv⟩ := q
    have hv : v ≠ uid := hpre (v, psv) (List.mem_cons_self _ _)
    rw [List.cons_append, apply_payouts]
    cases hb : alist_lookup balances v with
    | none =>
      dsimp only
      exact ih uid ps post balances b (fun q hq => hpre q (List.mem_cons_of_mem _ hq))
        hpost hlook
    | some b2 =>
      dsimp only
      refine ih uid ps post _ b (fun q hq => hpre q (List.mem_cons_of_mem _ hq)) hpost ?_
      rw [alist_lookup_set_ne _ _ _ _ hv]
      exact hlook

theorem round2_clamp_exact {b t : ℚ} (hb : TwoDec b) (ht : TwoDec t) (h : 0 ≤ b + t) :
    round2 (max 0 (b + t)) = b + t := by
  rw [max_eq_right h]
  exact round2_twoDec (twoDec_add hb ht)

theorem settle_table_round_balances (freshDeck : List String) (dealerFuel : ℕ) (now : ℚ)
    (balances : List (String × ℚ)) (st : TableTurnState) (reason : String)
    (h : st.phase ≠ "settled") :
    (settle_table_round freshDeck dealerFuel now balances st reason).2
      = apply_payouts balances
          (settle_table_round freshDeck dealerFuel now balances st reason).1.player_states := by
  unfold settle_table_round
  dsimp only
  rw [if_neg h]
  rfl

/-- C1 (amended): a player's settled total_payout is exactly the sum of their
per-hand payouts plus their insurance payout, with no drift from rounding
across hands; settlement applies each player's total once to their stored
balance as round(max(0, balance + total), 2); and whenever the zero clamp is
inactive (balance + total is nonnegative) the stored balance changes by
exactly the total.  (When balance + total is negative the clamp makes the
change smaller in magnitude than the total; see the counterexample.) -/
theorem settlement_balance_change_exact :
    (∀ (d : ℕ) (bj : Bool) (ps : TablePlayerState),
      (settle_player d bj ps).total_payout
        = (((settle_player d bj ps).hands).map (fun h => h.payout.getD 0)).sum
          + (if ps.insurance_bet > 0 then (settle_player d bj ps).insurance_payout else 0)) ∧
    (∀ (freshDeck : List String) (dealerFuel : ℕ) (now : ℚ)
        (balances : List (String × ℚ)) (st : TableTurnState) (reason : String),
      st.phase ≠ "settled" →
      (settle_table_round freshDeck dealerFuel now balances st reason).2
        = apply_payouts balances
            (settle_table_round freshDeck dealerFuel now balances st
              reason).1.player_states) ∧
    (∀ (pre : List (String × TablePlayerState)) (uid : String) (ps : TablePlayerState)
        (post : List (String × TablePlayerState)) (balances : List (String × ℚ)) (b : ℚ),
      (∀ q ∈ pre, q.1 ≠ uid) → (∀ q ∈ post, q.1 ≠ uid) →
      alist_lookup balances uid = some b →
      alist_lookup (apply_payouts balances (pre ++ (uid, ps) :: post)) uid
        = some (round2 (max 0 (b + ps.total_payout)))) ∧
    (∀ b t : ℚ, TwoDec b → TwoDec t → 0 ≤ b + t → round2 (max 0 (b + t)) = b + t) :=
  ⟨settle_player_total_exact, settle_table_round_balances, apply_payouts_once,
    fun b t hb ht h => round2_clamp_exact hb ht h⟩

/-- Witness: the exactness equations at a concrete settled player, the
started table, a two-entry balance store, and the amounts 40 and -10. -/
theorem settlement_balance_change_exact_witness :
    (settle_player 20 true { default_player_state with insurance_bet := 5 }).total_payout
      = (((settle_player 20 true
            { default_player_state with insurance_bet := 5 }).hands).map
          (fun h => h.payout.getD 0)).sum
        + (if ({ default_player_state with insurance_bet := 5 }
              : TablePlayerState).insurance_bet > 0
           then (settle_player 20 true
              { default_player_state with insurance_bet := 5 }).insurance_payout else 0) ∧
    (settle_table_round ["2C"] 8 50 [("p1", (50 : ℚ))] started_state "x").2
      = apply_payouts [("p1", (50 : ℚ))]
          (settle_table_round ["2C"] 8 50 [("p1", (50 : ℚ))] started_state
            "x").1.player_states ∧
    alist_lookup (apply_payouts [("p1", (40 : ℚ)), ("p2", (40 : ℚ))]
        ([("p2", default_player_state)]
          ++ ("p1", { default_player_state with total_payout := -10 }) :: []))
        "p1"
      = some (round2 (max 0 (40 + ({ default_player_state with total_payout := -10 }
          : TablePlayerState).total_payout))) ∧
    round2 (max 0 ((40 : ℚ) + -10)) = 40 + -10 := by
  refine ⟨settlement_balance_change_exact.1 20 true _, ?_, ?_, ?_⟩
  · exact settlement_balance_change_exact.2.1 ["2C"] 8 50 [("p1", (50 : ℚ))] started_state
      "x" (of_decide_eq_true (by with_unfolding_all rfl))
  · exact settlement_balance_change_exact.2.2.1 [("p2", default_player_state)] "p1"
      { default_player_state with total_payout := -10 } [] [("p1", (40 : ℚ)), ("p2", (40 : ℚ))]
      40 (of_decide_eq_true (by with_unfolding_all rfl))
      (of_decide_eq_true (by with_unfolding_all rfl))
      (of_decide_eq_true (by with_unfolding_all rfl))
  · exact settlement_balance_change_exact.2.2.2 40 (-10)
      ⟨4000, of_decide_eq_true (by with_unfolding_all rfl)⟩
      ⟨-1000, of_decide_eq_true (by with_unfolding_all rfl)⟩
      (of_decide_eq_true (by with_unfolding_all rfl))

/-- C1 counterexample: p1 enters with stored balance 5 and bet 10 (the
bankroll snapshot is 10), loses the hand for a total payout of -10, but the
stored balance only falls by 5 to the zero clamp: the balance change is not
the sum of payouts. -/
theorem settlement_balance_clamped_short :
    alist_lookup (take_turn_action [] 8 2 "h3" [("t", clamp_after_stand_state)]
        [("p1", (5 : ℚ)), ("p2", (50 : ℚ))] "t" "p2" "stand" "").2.2.1 "p1" = some 0 ∧
    alist_lookup (take_turn_action [] 8 2 "h3" [("t", clamp_after_stand_state)]
        [("p1", (5 : ℚ)), ("p2", (50 : ℚ))] "t" "p2" "stand" "").2.1 "t"
      = some clamp_end_state ∧
    ((alist_lookup clamp_end_state.player_states "p1").getD
        default_player_state).total_payout = -10 ∧
    ¬((0 : ℚ) = 5 + -10) :=
  of_decide_eq_true (by with_unfolding_all rfl)

theorem alist_lookup_none_of_not_key {α : Type} (m : List (String × α)) (k : String)
    (h : k ∉ m.map Prod.fst) : alist_lookup m k = none := by
  induction m with
  | nil => rfl
  | cons p rest ih =>
    rw [List.map_cons, List.mem_cons] at h
    push_neg at h
    simp only [alist_lookup, if_neg (fun hc : p.1 = k => h.1 hc.symm)]
    exact ih h.2

theorem alist_lookup_erase_self {α : Type} (m : List (String × α)) (k : String)
    (hnd : (m.map Prod.fst).Nodup) : alist_lookup (alist_erase m k) k = none := by
  induction m with
  | nil => rfl
  | cons p rest ih =>
    rw [List.map_cons, List.nodup_cons] at hnd
    by_cases hp : p.1 = k
    · simp only [alist_erase, if_pos hp]
      refine alist_lookup_none_of_not_key rest k ?_
      rw [← hp]
      exact hnd.1
    · simp only [alist_erase, if_neg hp, alist_lookup, if_neg hp]
      exact ih hnd.2

theorem deal_one_ids (freshDeck : List String) (st : TableTurnState) (uid : String) :
    (deal_one_to_player freshDeck st uid).round_id = st.round_id ∧
    (deal_one_to_player freshDeck st uid).processed_action_ids = st.processed_action_ids := by
  unfold deal_one_to_player draw_table_card
  dsimp only
  repeat' split
  all_goals exact ⟨rfl, rfl⟩

theorem foldl_deal_ids (freshDeck : List String) (l : List String) :
    ∀ st : TableTurnState,
      (l.foldl (deal_one_to_player freshDeck) st).round_id = st.round_id ∧
      (l.foldl (deal_one_to_player freshDeck) st).processed_action_ids
        = st.processed_action_ids := by
  induction l with
  | nil => exact fun st => ⟨rfl, rfl⟩
  | cons a t ih =>
    intro st
    have h1 := deal_one_ids freshDeck st a
    have h2 := ih (deal_one_to_player freshDeck st a)
    exact ⟨h2.1.trans h1.1, h2.2.trans h1.2⟩

theorem deal_round_ids (freshDeck : List String) (table_players : List String)
    (st : TableTurnState) :
    (deal_round freshDeck table_players st).round_id = st.round_id ∧
    (deal_round freshDeck table_players st).processed_action_ids
      = st.processed_action_ids := by
  unfold deal_round draw_table_card
  dsimp only
  exact foldl_deal_ids freshDeck table_players st

theorem start_deal_phase_ids (freshDeck : List String) (now : ℚ) (round_id : String)
    (table_players : List String) (st0 : TableTurnState) :
    (start_deal_phase freshDeck now round_id table_players st0).round_id = st0.round_id ∧
    (start_deal_phase freshDeck now round_id table_players st0).processed_action_ids
      = st0.processed_action_ids := by
  constructor
  · refine Eq.trans ?_ ((deal_round_ids freshDeck table_players st0).1)
    exact (deal_round_ids freshDeck table_players (deal_round freshDeck table_players st0)).1
  · refine Eq.trans ?_ ((deal_round_ids freshDeck table_players st0).2)
    exact (deal_round_ids freshDeck table_players (deal_round freshDeck table_players st0)).2

theorem position_loop_round_id (now : ℚ) (fuel : ℕ) :
    ∀ st : TableTurnState, (position_loop now fuel st).2.round_id = st.round_id := by
  induction fuel with
  | zero => exact fun st => rfl
  | succ n ih =>
    intro st
    rw [position_loop]
    dsimp only
    split
    · exact ih _
    · split
      · rfl
      · exact ih _

theorem position_round_id (now : ℚ) (st : TableTurnState) :
    (position_to_next_playable_turn now st).2.round_id = st.round_id := by
  unfold position_to_next_playable_turn
  dsimp only
  split
  · rfl
  · split
    · exact position_loop_round_id now _ _
    · exact position_loop_round_id now _ _

theorem dealer_draw_loop_round_id (freshDeck : List String) (now : ℚ) (fuel : ℕ) :
    ∀ st : TableTurnState,
      (dealer_draw_loop freshDeck now fuel st).round_id = st.round_id := by
  induction fuel with
  | zero => exact fun st => rfl
  | succ n ih =>
    intro st
    rw [dealer_draw_loop]
    split
    · exact ih _
    · rfl

theorem settle_table_round_round_id (freshDeck : List String) (dealerFuel : ℕ) (now : ℚ)
    (balances : List (String × ℚ)) (st : TableTurnState) (reason : String) :
    (settle_table_round freshDeck dealerFuel now balances st reason).1.round_id
      = st.round_id := by
  unfold settle_table_round
  dsimp only
  split
  · rfl
  · show (if _ then dealer_draw_loop freshDeck now dealerFuel _ else _).round_id = st.round_id
    split
    · exact dealer_draw_loop_round_id freshDeck now dealerFuel _
    · rfl

theorem start_table_game_fresh (freshDeck : List String) (dealerFuel : ℕ) (now : ℚ)
    (turn_seconds : ℚ) (round_id : String) (hand_ids : ℕ → String)
    (balances pending_bets : List (String × ℚ)) (forced_shoe : Option (List String))
    (table_id : String) (table_players : List String) (st : TableTurnState)
    (bal : List (String × ℚ))
    (h : start_table_game freshDeck dealerFuel now turn_seconds round_id hand_ids balances
      pending_bets forced_shoe table_id table_players = some (st, bal)) :
    st.round_id = round_id ∧ st.processed_action_ids = [] := by
  unfold start_table_game at h
  split at h
  · exact absurd h (by simp)
  · dsimp only at h
    split at h
    · rename_i st7 heqpos
      rw [Option.some.injEq, Prod.mk.injEq] at h
      obtain ⟨h1, h2⟩ := h
      subst h1
      constructor
      · rw [show st7 = (position_to_next_playable_turn now _).2 from by rw [heqpos]]
        rw [position_round_id]
        exact (start_deal_phase_ids freshDeck now round_id table_players _).1
      · rw [(position_snd_eq now _ _ _ heqpos).2.2.1]
        exact (start_deal_phase_ids freshDeck now round_id table_players _).2
    · rename_i st7 heqpos
      rw [Option.some.injEq, Prod.mk.injEq] at h
      obtain ⟨h1, h2⟩ := h
      subst h1
      constructor
      · rw [settle_table_round_round_id]
        rw [show st7 = (position_to_next_playable_turn now _).2 from by rw [heqpos]]
        rw [position_round_id]
        exact (start_deal_phase_ids freshDeck now round_id table_players _).1
      · rw [(settle_table_round_money freshDeck dealerFuel now balances _ _).2]
        rw [(position_snd_eq now _ _ _ heqpos).2.2.1]
        exact (start_deal_phase_ids freshDeck now round_id table_players _).2

theorem set_ready_after_discard_fresh (freshDeck : List String) (dealerFuel : ℕ)
    (now turn_seconds : ℚ) (round_id : String) (hand_ids : ℕ → String)
    (tables : List (String × TableTurnState)) (ready_map : List (String × List String))
    (pending : List (String × List (String × ℚ))) (balances : List (String × ℚ))
    (forced_shoe : Option (List String)) (tplayers : List String)
    (table_id user_id : String) (ready : Bool) (bet_field : RawBet)
    (hnone : alist_lookup tables table_id = none) :
    ∀ st2, alist_lookup (set_ready_after_discard freshDeck dealerFuel now turn_seconds
        round_id hand_ids tables ready_map pending balances forced_shoe tplayers table_id
        user_id ready bet_field).tables table_id = some st2 →
      st2.round_id = round_id ∧ st2.processed_action_ids = [] := by
  intro st2 h2
  unfold set_ready_after_discard at h2
  dsimp only at h2
  repeat' split at h2
  all_goals first
    | (rw [alist_lookup_set_self] at h2
       rw [Option.some.injEq] at h2
       subst h2
       exact start_table_game_fresh _ _ _ _ _ _ _ _ _ _ _ _ _ (by assumption))
    | (rw [hnone] at h2
       simp at h2)

/-- C8 (amended): after a round settles inside take_turn_action the ended
TableTurnState is written back and retained in the per-table map (the reply
inversion below holds whatever the stored state's status, including ended);
it is discarded on the next ready-up: any state the map holds for the table
after a set_ready on a table whose stored round is no longer active belongs
to the freshly started round (the new round id, an empty idempotency set),
never the retained old round. -/
theorem ended_state_retained_until_ready (freshDeck : List String) (dealerFuel : ℕ)
    (now : ℚ) (new_hand_id : String) (tables : List (String × TableTurnState))
    (balances : List (String × ℚ)) (table_id user_id action_raw action_id_raw : String)
    (s1 : TableTurnState) (tabs1 : List (String × TableTurnState))
    (bal1 : List (String × ℚ)) (evs1 : List SocketEvent)
    (hstr : py_strip action_id_raw = action_id_raw)
    (h : take_turn_action freshDeck dealerFuel now new_hand_id tables balances table_id
      user_id action_raw action_id_raw = (.okApplied s1, tabs1, bal1, evs1)) :
    alist_lookup tabs1 table_id = some s1 ∧
    (∀ (freshDeck2 : List String) (dealerFuel2 : ℕ) (now2 turn_seconds : ℚ)
        (round_id : String) (hand_ids : ℕ → String)
        (ready_map : List (String × List String))
        (pending : List (String × List (String × ℚ))) (bal2 : List (String × ℚ))
        (forced_shoe : Option (List String)) (locked is_mod : Bool)
        (tplayers : List String) (user_id2 : String) (ready : Bool) (bet_field : RawBet)
        (existing : TableTurnState),
      ¬(locked = true ∧ ¬(is_mod = true)) →
      user_id2 ∈ tplayers →
      alist_lookup tabs1 table_id = some existing →
      ¬(existing.status = "active") →
      (tabs1.map Prod.fst).Nodup →
      ∀ st2, alist_lookup (set_ready_core freshDeck2 dealerFuel2 now2 turn_seconds round_id
          hand_ids tabs1 ready_map pending bal2 forced_shoe locked is_mod (some tplayers)
          table_id user_id2 ready bet_field).tables table_id = some st2 →
        st2.round_id = round_id ∧ st2.processed_action_ids = []) := by
  obtain ⟨htabs, _⟩ := take_turn_okApplied_inv freshDeck dealerFuel now new_hand_id
    tables balances table_id user_id action_raw action_id_raw s1 tabs1 bal1 evs1 hstr h
  subst htabs
  refine ⟨alist_lookup_set_self tables table_id s1, ?_⟩
  intro fd2 dF2 now2 ts rid hids rmap pending bal2 fs locked ismod tplayers uid2 ready
    bet existing hnl hmem hlook hnact hnodup st2 h2
  rw [set_ready_core, if_neg hnl] at h2
  try dsimp only at h2
  rw [if_neg (by simp [hmem])] at h2
  rw [hlook] at h2
  dsimp only at h2
  rw [if_neg hnact] at h2
  exact set_ready_after_discard_fresh fd2 dF2 now2 ts rid hids _ rmap pending bal2 fs
    tplayers table_id uid2 ready bet (alist_lookup_erase_self _ table_id hnodup) st2 h2

/-- Witness: p2's stand ends the concrete round; the ended state is still in
the map, and a following set_ready by p1 (everyone ready) leaves only the
new round's state (round id r2, empty idempotency set) under the table key. -/
theorem ended_state_retained_until_ready_witness :
    alist_lookup [("t", ended_round_state)] "t" = some ended_round_state ∧
    ((alist_lookup (set_ready_core ["2D", "9D", "8H", "KS", "7H", "9S"] 8 100 30 "r2"
          (fun _ => "h") [("t", ended_round_state)] [("t", ["p2"])] []
          [("p1", (40 : ℚ)), ("p2", (40 : ℚ))] none false false (some ["p1", "p2"]) "t"
          "p1" true (RawBet.value 10)).tables "t").getD default_turn_state).round_id
      = "r2" ∧
    ((alist_lookup (set_ready_core ["2D", "9D", "8H", "KS", "7H", "9S"] 8 100 30 "r2"
          (fun _ => "h") [("t", ended_round_state)] [("t", ["p2"])] []
          [("p1", (40 : ℚ)), ("p2", (40 : ℚ))] none false false (some ["p1", "p2"]) "t"
          "p1" true (RawBet.value 10)).tables "t").getD
        default_turn_state).processed_action_ids = [] := by
  have hmain := ended_state_retained_until_ready ["2C"] 8 2 "h3" [("t", after_stand_state)]
    [("p1", (50 : ℚ)), ("p2", (50 : ℚ))] "t" "p2" "stand" "" ended_round_state
    [("t", ended_round_state)] [("p1", (40 : ℚ)), ("p2", (40 : ℚ))]
    [SocketEvent.turn_action_applied "t" "p2" "stand" none true,
     SocketEvent.table_round_resolved "t", SocketEvent.table_snapshot "t",
     SocketEvent.table_game_state "t", SocketEvent.lobby_snapshots]
    rfl round_end_spec
  have hpart2 := hmain.2 ["2D", "9D", "8H", "KS", "7H", "9S"] 8 100 30 "r2" (fun _ => "h")
    [("t", ["p2"])] [] [("p1", (40 : ℚ)), ("p2", (40 : ℚ))] none false false ["p1", "p2"]
    "p1" true (RawBet.value 10) ended_round_state
    (by simp)
    (by decide)
    rfl
    (of_decide_eq_true (by with_unfolding_all rfl))
    (by decide)
    ((alist_lookup (set_ready_core ["2D", "9D", "8H", "KS", "7H", "9S"] 8 100 30 "r2"
        (fun _ => "h") [("t", ended_round_state)] [("t", ["p2"])] []
        [("p1", (40 : ℚ)), ("p2", (40 : ℚ))] none false false (some ["p1", "p2"]) "t"
        "p1" true (RawBet.value 10)).tables "t").getD default_turn_state)
    (of_decide_eq_true (by with_unfolding_all rfl))
  exact ⟨hmain.1, hpart2.1, hpart2.2⟩

/-- C8 counterexample: after the round resolves (table_round_resolved is
broadcast), the per-table map still holds the round's TableTurnState, now
with status ended: the settled state is retained, not discarded, until the
next ready-up replaces it. -/
theorem ended_state_not_discarded_on_broadcast :
    SocketEvent.table_round_resolved "t" ∈ (take_turn_action ["2C"] 8 2 "h3"
        [("t", after_stand_state)] [("p1", (50 : ℚ)), ("p2", (50 : ℚ))] "t" "p2" "stand"
        "").2.2.2 ∧
    alist_lookup (take_turn_action ["2C"] 8 2 "h3" [("t", after_stand_state)]
        [("p1", (50 : ℚ)), ("p2", (50 : ℚ))] "t" "p2" "stand" "").2.1 "t"
      = some ended_round_state ∧
    ended_round_state.status = "ended" :=
  of_decide_eq_true (by with_unfolding_all rfl)

/-- The per-hand status/result discipline the engine maintains: the status
set (including the blackjack status given to naturals at the deal), the
result vocabulary, and result-set exactly on the terminal statuses. -/
def hand_inv (h : TableHandState) : Prop :=
  h.status ∈ ["active", "stood", "blackjack", "bust", "surrendered", "resolved"] ∧
  (∀ r : String, h.result = some r
    → r ∈ ["win", "lose", "push", "blackjack", "bust", "surrender"]) ∧
  (h.result ≠ none ↔ h.status ∈ ["bust", "surrendered", "resolved"])

def hands_inv (st : TableTurnState) : Prop :=
  ∀ p ∈ st.player_states, ∀ h ∈ p.2.hands, hand_inv h

def hands_active (st : TableTurnState) : Prop :=
  ∀ p ∈ st.player_states, ∀ h ∈ p.2.hands, h.status = "active" ∧ h.result = none

theorem hand_inv_nonterminal {h : TableHandState}
    (hs : h.status = "active" ∨ h.status = "stood" ∨ h.status = "blackjack")
    (hr : h.result = none) : hand_inv h := by
  refine ⟨?_, ?_, ?_⟩
  · rcases hs with h1 | h1 | h1 <;> simp [h1]
  · intro r hrr
    rw [hr] at hrr
    cases hrr
  · rw [hr]
    rcases hs with h1 | h1 | h1 <;> simp [h1]

theorem hand_inv_terminal {h : TableHandState} {rv : String}
    (hs : h.status = "bust" ∨ h.status = "surrendered" ∨ h.status = "resolved")
    (hrv : h.result = some rv)
    (hin : rv ∈ ["win", "lose", "push", "blackjack", "bust", "surrender"]) : hand_inv h := by
  refine ⟨?_, ?_, ?_⟩
  · rcases hs with h1 | h1 | h1 <;> simp [h1]
  · intro r hrr
    rw [hrv] at hrr
    injection hrr with h2
    subst h2
    exact hin
  · rw [hrv]
    rcases hs with h1 | h1 | h1 <;> simp [h1]

theorem mem_list_set {α : Type} (l : List α) (n : ℕ) (a x : α) (hx : x ∈ l.set n a) :
    x = a ∨ x ∈ l := by
  induction l generalizing n with
  | nil => exact absurd hx (List.not_mem_nil x)
  | cons y t ih =>
    cases n with
    | zero =>
      rcases List.mem_cons.mp hx with rfl | h2
      · exact Or.inl rfl
      · exact Or.inr (List.mem_cons_of_mem _ h2)
    | succ m =>
      rcases List.mem_cons.mp hx with rfl | h2
      · exact Or.inr (List.mem_cons_self _ _)
      · rcases ih m h2 with h3 | h3
        · exact Or.inl h3
        · exact Or.inr (List.mem_cons_of_mem _ h3)

theorem mem_insert_at {α : Type} (l : List α) (i : ℕ) (a x : α)
    (hx : x ∈ insert_at l i a) : x = a ∨ x ∈ l := by
  unfold insert_at at hx
  rcases List.mem_append.mp hx with h1 | h2
  · rcases List.mem_append.mp h1 with h3 | h4
    · exact Or.inr (List.take_subset _ _ h3)
    · exact Or.inl (List.mem_singleton.mp h4)
  · exact Or.inr (List.drop_subset _ _ h2)

theorem settle_hand_inv (d : ℕ) (b : Bool) (h : TableHandState) :
    hand_inv (settle_hand d b h) := by
  unfold settle_hand
  dsimp only
  split
  · rename_i hc
    refine hand_inv_terminal (Or.inr (Or.inr rfl)) hc (by decide)
  · split
    · rename_i hc
      refine hand_inv_terminal (Or.inr (Or.inr rfl)) hc (by decide)
    · repeat' split
      all_goals first
        | exact hand_inv_terminal (Or.inr (Or.inr rfl)) rfl (by decide)

theorem settle_player_hands_inv (d : ℕ) (b : Bool) (ps : TablePlayerState) :
    ∀ h ∈ (settle_player d b ps).hands, hand_inv h := by
  intro h hh
  unfold settle_player at hh
  dsimp only at hh
  obtain ⟨h0, _, rfl⟩ := List.mem_map.mp hh
  exact settle_hand_inv d b h0

theorem settle_table_round_hands_inv (freshDeck : List String) (dealerFuel : ℕ) (now : ℚ)
    (balances : List (String × ℚ)) (st : TableTurnState) (reason : String)
    (hphase : st.phase ≠ "settled") :
    hands_inv (settle_table_round freshDeck dealerFuel now balances st reason).1 := by
  unfold settle_table_round
  dsimp only
  rw [if_neg hphase]
  intro p hp
  obtain ⟨q, _, rfl⟩ := List.mem_map.mp hp
  intro h hh
  exact settle_player_hands_inv _ _ q.2 h hh

theorem hands_inv_of_hands_map {a b : TableTurnState}
    (h : player_hands_map a = player_hands_map b) (hb : hands_inv b) : hands_inv a := by
  intro p hp
  have hm : (p.1, hands_view p.2) ∈ player_hands_map a := List.mem_map_of_mem _ hp
  rw [h] at hm
  obtain ⟨q, hq, hqe⟩ := List.mem_map.mp hm
  intro x hx
  have hview : hands_view q.2 = hands_view p.2 := congrArg Prod.snd hqe
  refine hb q hq x ?_
  show x ∈ hands_view q.2
  rw [hview]
  exact hx

theorem hand_is_playable_fields {h : TableHandState} (hp : hand_is_playable h = true) :
    h.status = "active" ∧ h.result = none := by
  unfold hand_is_playable at hp
  simp only [Bool.and_eq_true, beq_iff_eq, decide_eq_true_eq] at hp
  exact ⟨hp.1.1, hp.1.2⟩

theorem apply_action_step_hands (freshDeck : List String) (new_hand_id : String)
    (st : TableTurnState) (hand : TableHandState) (ps1 : TablePlayerState)
    (hand_index : ℕ) (meta1 : Metadata) (action : String)
    (hstat : hand.status = "active") (hres : hand.result = none)
    (hinv : ∀ x ∈ ps1.hands, hand_inv x) :
    ∀ x ∈ (apply_action_step freshDeck new_hand_id st hand ps1 hand_index meta1
      action).1.hands, hand_inv x := by
  unfold apply_action_step
  dsimp only
  repeat' split
  all_goals intro x hx
  all_goals first
    | exact hinv x hx
    | (rcases mem_insert_at _ _ _ x hx with rfl | hx2
       · exact hand_inv_nonterminal (Or.inl rfl) rfl
       · rcases mem_list_set _ _ _ x hx2 with rfl | hx3
         · first
           | exact hand_inv_nonterminal (Or.inr (Or.inl rfl)) hres
           | exact hand_inv_nonterminal (Or.inl hstat) hres
         · exact hinv x hx3)
    | (rcases mem_list_set _ _ _ x hx with rfl | hx2
       · first
         | exact hand_inv_nonterminal (Or.inr (Or.inl rfl)) hres
         | exact hand_inv_nonterminal (Or.inl hstat) hres
         | exact hand_inv_terminal (Or.inl rfl) rfl (by decide)
         | exact hand_inv_terminal (Or.inr (Or.inl rfl)) rfl (by decide)
       · exact hinv x hx2)

/-- C6 preservation: the per-hand status/result discipline survives any
attempted table action (including the draws, splits, busts and the
settlement a finishing action triggers). -/
theorem apply_table_action_hands_inv (freshDeck : List String) (dealerFuel : ℕ) (now : ℚ)
    (new_hand_id : String) (balances : List (String × ℚ)) (st : TableTurnState)
    (user_id : String) (action : String) (timed_out : Bool)
    (hinv : hands_inv st) :
    hands_inv (apply_table_action freshDeck dealerFuel now new_hand_id balances st user_id
      action timed_out).2.2.1 := by
  unfold apply_table_action
  dsimp only
  split
  · exact hinv
  · rename_i hguard
    split
    · exact hinv
    · rename_i hturn
      split
      · rename_i ps hand hps hhand
        split
        · exact hinv
        · rename_i hplay
          split
          · exact hinv
          · rename_i hallow
            have hcur : current_turn_user_id st = some user_id := (not_not.mp hturn).symm
            have hlk : alist_lookup st.player_states user_id = some ps :=
              current_player_lookup hcur hps
            have hmemst : (user_id, ps) ∈ st.player_states := alist_lookup_mem _ _ _ hlk
            have hpsinv := hinv (user_id, ps) hmemst
            have hpt : hand_is_playable hand = true := by
              cases hb : hand_is_playable hand
              · exact absurd hb hplay
              · rfl
            have hpf := hand_is_playable_fields hpt
            split
            · rename_i hinsact
              subst hinsact
              intro p hp
              rcases alist_mem_set st.player_states user_id _ p hp with hv | hold
              · rw [hv]
                intro x hx
                dsimp only at hx
                split at hx
                · exact hpsinv x hx
                · exact hpsinv x hx
              · exact hinv p hold
            · rename_i hnotins
              set ps1v := (if action ≠ "insurance" ∧ can_take_insurance st ps hand = true
                then { ps with insurance_decided := true } else ps) with hps1def
              set meta1v := (if action ≠ "insurance" ∧ can_take_insurance st ps hand = true
                then
                  [("hand_index", MetaValue.num (ps.active_hand_index : ℚ)),
                   ("hand_id", MetaValue.str hand.hand_id),
                   ("timed_out", MetaValue.flag timed_out)]
                    ++ [("insurance_auto_declined", MetaValue.flag true)]
                else
                  [("hand_index", MetaValue.num (ps.active_hand_index : ℚ)),
                   ("hand_id", MetaValue.str hand.hand_id),
                   ("timed_out", MetaValue.flag timed_out)]) with hmetadef
              set stepv := apply_action_step freshDeck new_hand_id st hand ps1v
                ps.active_hand_index meta1v action with hstepdef
              have hps1hands : ∀ x ∈ ps1v.hands, hand_inv x := by
                rw [hps1def]
                intro x hx
                split at hx
                · exact hpsinv x hx
                · exact hpsinv x hx
              have hstephands : ∀ x ∈ stepv.1.hands, hand_inv x := by
                rw [hstepdef]
                exact apply_action_step_hands freshDeck new_hand_id st hand ps1v
                  ps.active_hand_index meta1v action hpf.1 hpf.2 hps1hands
              have hstepinv : hands_inv
                  { st with player_states := alist_set st.player_states user_id stepv.1 } := by
                intro p hp
                rcases alist_mem_set st.player_states user_id _ p hp with hv | hold
                · rw [hv]
                  exact hstephands
                · exact hinv p hold
              split
              · rename_i stN heqpos
                refine hands_inv_of_hands_map ?_ hstepinv
                rw [(position_snd_eq now _ _ _ heqpos).2.1]
                show player_hands_map
                    { stepv.2.1 with
                      player_states := alist_set stepv.2.1.player_states user_id stepv.1 } = _
                rw [player_hands_map, player_hands_map]
                have hplayers : stepv.2.1.player_states = st.player_states := by
                  rw [hstepdef]
                  exact (apply_action_step_state freshDeck new_hand_id st hand ps1v
                    ps.active_hand_index meta1v action).1
                rw [hplayers]
              · rename_i stN heqpos
                refine settle_table_round_hands_inv freshDeck dealerFuel now balances _ _ ?_
                rw [(position_snd_eq now _ _ _ heqpos).2.2.2.2.1]
                show ¬((record_turn_action now
                    { stepv.2.1 with
                      player_states := alist_set stepv.2.1.player_states user_id stepv.1 }
                    (if timed_out then "turn_timeout_auto_stand" else action) (some user_id)
                    (some stepv.2.2)).phase = "settled")
                show ¬(stepv.2.1.phase = "settled")
                rw [hstepdef]
                rw [(apply_action_step_state freshDeck new_hand_id st hand ps1v
                  ps.active_hand_index meta1v action).2.2.2.1]
                have hphase : st.phase = "player_turns" :=
                  not_not.mp (fun hc => hguard (Or.inr hc))
                rw [hphase]
                simp
      · exact hinv

theorem start_player_states_active (hand_ids : ℕ → String)
    (balances pending_bets : List (String × ℚ)) (table_players : List String) :
    ∀ p ∈ start_player_states hand_ids balances pending_bets table_players,
      ∀ h ∈ p.2.hands, h.status = "active" ∧ h.result = none := by
  intro p hp
  unfold start_player_states at hp
  obtain ⟨q, _, rfl⟩ := List.mem_map.mp hp
  intro h hh
  rcases List.mem_singleton.mp hh with rfl
  exact ⟨rfl, rfl⟩

theorem deal_one_hands_active (freshDeck : List String) (st : TableTurnState)
    (uid : String) (hA : hands_active st) :
    hands_active (deal_one_to_player freshDeck st uid) := by
  unfold deal_one_to_player draw_table_card
  dsimp only
  split
  · rename_i ps hlk
    split
    · rename_i h0 rest hhands
      intro p hp
      rcases alist_mem_set _ _ _ p hp with hv | hold
      · rw [hv]
        have hmem := alist_lookup_mem _ _ _ hlk
        intro x hx
        rcases List.mem_cons.mp hx with rfl | h2
        · exact hA _ hmem h0 (by rw [hhands]; exact List.mem_cons_self _ _)
        · exact hA _ hmem x (by rw [hhands]; exact List.mem_cons_of_mem _ h2)
      · exact hA p hold
    · exact hA
  · exact hA

theorem foldl_deal_active (freshDeck : List String) (l : List String) :
    ∀ st : TableTurnState, hands_active st →
      hands_active (l.foldl (deal_one_to_player freshDeck) st) := by
  induction l with
  | nil => exact fun st h => h
  | cons a t ih =>
    intro st h
    exact ih _ (deal_one_hands_active freshDeck st a h)

theorem deal_round_active (freshDeck : List String) (table_players : List String)
    (st : TableTurnState) (hA : hands_active st) :
    hands_active (deal_round freshDeck table_players st) := by
  unfold deal_round draw_table_card
  dsimp only
  exact foldl_deal_active freshDeck table_players st hA

theorem mark_natural_hand_inv (ps : TablePlayerState)
    (hA : ∀ h ∈ ps.hands, h.status = "active" ∧ h.result = none) :
    ∀ h ∈ (mark_natural ps).hands, hand_inv h := by
  unfold mark_natural
  split
  · rename_i h0 rest hh
    split
    · intro x hx
      rcases List.mem_cons.mp hx with rfl | h2
      · exact hand_inv_nonterminal (Or.inr (Or.inr rfl))
          (hA h0 (by rw [hh]; exact List.mem_cons_self _ _)).2
      · have hx2 := hA x (by rw [hh]; exact List.mem_cons_of_mem _ h2)
        exact hand_inv_nonterminal (Or.inl hx2.1) hx2.2
    · intro x hx
      have hx2 := hA x hx
      exact hand_inv_nonterminal (Or.inl hx2.1) hx2.2
  · intro x hx
    have hx2 := hA x hx
    exact hand_inv_nonterminal (Or.inl hx2.1) hx2.2

theorem start_deal_phase_hands_inv (freshDeck : List String) (now : ℚ) (round_id : String)
    (table_players : List String) (st0 : TableTurnState) (hA : hands_active st0) :
    hands_inv (start_deal_phase freshDeck now round_id table_players st0) := by
  have hA4 := deal_round_active freshDeck table_players _
    (deal_round_active freshDeck table_players st0 hA)
  intro p hp
  obtain ⟨q, hq, rfl⟩ := List.mem_map.mp hp
  exact mark_natural_hand_inv q.2 (hA4 q hq)

theorem deal_one_phase (freshDeck : List String) (st : TableTurnState) (uid : String) :
    (deal_one_to_player freshDeck st uid).phase = st.phase := by
  unfold deal_one_to_player draw_table_card
  dsimp only
  repeat' split
  all_goals rfl

theorem foldl_deal_phase (freshDeck : List String) (l : List String) :
    ∀ st : TableTurnState,
      (l.foldl (deal_one_to_player freshDeck) st).phase = st.phase := by
  induction l with
  | nil => exact fun st => rfl
  | cons a t ih =>
    intro st
    exact (ih _).trans (deal_one_phase freshDeck st a)

theorem start_deal_phase_phase (freshDeck : List String) (now : ℚ) (round_id : String)
    (table_players : List String) (st0 : TableTurnState) :
    (start_deal_phase freshDeck now round_id table_players st0).phase = st0.phase := by
  refine Eq.trans ?_ (foldl_deal_phase freshDeck table_players st0)
  exact foldl_deal_phase freshDeck table_players _

theorem start_table_game_hands_inv (freshDeck : List String) (dealerFuel : ℕ) (now : ℚ)
    (turn_seconds : ℚ) (round_id : String) (hand_ids : ℕ → String)
    (balances pending_bets : List (String × ℚ)) (forced_shoe : Option (List String))
    (table_id : String) (table_players : List String) (st : TableTurnState)
    (bal : List (String × ℚ))
    (h : start_table_game freshDeck dealerFuel now turn_seconds round_id hand_ids balances
      pending_bets forced_shoe table_id table_players = some (st, bal)) :
    hands_inv st := by
  unfold start_table_game at h
  split at h
  · exact absurd h (by simp)
  · dsimp only at h
    split at h
    · rename_i st7 heqpos
      rw [Option.some.injEq, Prod.mk.injEq] at h
      obtain ⟨h1, h2⟩ := h
      subst h1
      refine hands_inv_of_hands_map (position_snd_eq now _ _ _ heqpos).2.1 ?_
      refine start_deal_phase_hands_inv freshDeck now round_id table_players _ ?_
      intro p hp
      exact start_player_states_active hand_ids balances pending_bets table_players p hp
    · rename_i st7 heqpos
      rw [Option.some.injEq, Prod.mk.injEq] at h
      obtain ⟨h1, h2⟩ := h
      subst h1
      refine settle_table_round_hands_inv freshDeck dealerFuel now balances _ _ ?_
      rw [(position_snd_eq now _ _ _ heqpos).2.2.2.2.1]
      rw [start_deal_phase_phase]
      show ("player_turns" : String) ≠ "settled"
      decide

/-- C6 (amended): in every table state reached from a round start by table
actions, each hand's status is one of the six statuses active, stood,
blackjack, bust, surrendered, resolved (a natural dealt at the start is
marked blackjack, outside the five statuses of the original claim); a set
result is one of win, lose, push, blackjack, bust, surrender; and the result
is set exactly when the status is one of the terminal statuses bust,
surrendered, resolved. -/
theorem hand_status_result_discipline :
    (∀ (freshDeck : List String) (dealerFuel : ℕ) (now turn_seconds : ℚ)
        (round_id : String) (hand_ids : ℕ → String)
        (balances pending_bets : List (String × ℚ))
        (forced_shoe : Option (List String)) (table_id : String)
        (table_players : List String) (st : TableTurnState) (bal : List (String × ℚ)),
      start_table_game freshDeck dealerFuel now turn_seconds round_id hand_ids balances
          pending_bets forced_shoe table_id table_players = some (st, bal) →
        hands_inv st) ∧
    (∀ (freshDeck : List String) (dealerFuel : ℕ) (now : ℚ) (new_hand_id : String)
        (balances : List (String × ℚ)) (st : TableTurnState)
        (user_id action : String) (timed_out : Bool),
      hands_inv st →
        hands_inv (apply_table_action freshDeck dealerFuel now new_hand_id balances st
          user_id action timed_out).2.2.1) :=
  ⟨fun fd dF now ts rid hids bs pb fs tid tp st bal h =>
      start_table_game_hands_inv fd dF now ts rid hids bs pb fs tid tp st bal h,
    fun fd dF now nh bs st uid a t hinv =>
      apply_table_action_hands_inv fd dF now nh bs st uid a t hinv⟩

/-- Witness: the discipline holds in the concrete started two-player round,
and is preserved by a stand action from an empty-table state. -/
theorem hand_status_result_discipline_witness :
    hands_inv started_state ∧
    hands_inv (apply_table_action [] 8 0 "h2" [] default_turn_state "p1" "stand"
      false).2.2.1 := by
  constructor
  · exact hand_status_result_discipline.1 ["2C", "2D", "9D", "8H", "KS", "7H", "9S"] 8 0 30
      "r" (fun _ => "h") [("p1", (50 : ℚ)), ("p2", (50 : ℚ))]
      [("p1", (10 : ℚ)), ("p2", (10 : ℚ))] none "t" ["p1", "p2"] started_state
      [("p1", (50 : ℚ)), ("p2", (50 : ℚ))] started_state_spec
  · refine hand_status_result_discipline.2 [] 8 0 "h2" [] _ "p1" "stand" false ?_
    intro p hp
    simp [default_turn_state] at hp

/-- C6 counterexample: the hand a natural is dealt to carries status
blackjack at the start of the round, which is outside the five statuses
{active, stood, bust, surrendered, resolved} of the original claim. -/
theorem natural_hand_status_outside_claimed_set :
    (((alist_lookup natural_state.player_states "p1").getD
        default_player_state).hands.getD 0 default_hand).status = "blackjack" ∧
    "blackjack" ∉ ["active", "stood", "bust", "surrendered", "resolved"] :=
  of_decide_eq_true (by with_unfolding_all rfl)
